import Mathlib

/-! # lsftp multi-host session orchestrator

A shallow embedding of the `sftp` package of lssh (`src/sftp/main.go`,
`src/sftp/shell.go`, `src/sftp/cmd_ls.go`, `src/sftp/cmd_cat.go`,
`src/sftp/cmd_cd.go`) and of the host picker `src/list/list.go`, and theorems
about them.

Conventions of the embedding:

* a Go `map[string]V` is an association list `GoMap V`; `mapGet` is the index
  expression `m[k]`, `mapSet` the assignment `m[k] = v`, and a `range` loop
  walks the list from its head. Go leaves the iteration order unspecified, so
  every statement below is about `mapGet` and key membership only, and holds
  for whatever order the list has. A well-formed map has pairwise distinct
  keys (`(mapKeys m).Nodup`);
* pointers to structs are replaced by the struct value stored in the map, and
  a write through the pointer by `mapSet` of the updated value;
* handles owned by external libraries (the ssh connection, the sftp client)
  are natural numbers, and the behaviour of the external world is passed in as
  explicit functions;
* text written to a stream is returned as the list of written strings;
* goroutines that are joined before the function goes on are run one after
  the other, in list order.
-/

namespace Lssh

/-! ## Go maps -/

/-- A Go `map[string]V`, as an association list. -/
abbrev GoMap (V : Type) := List (String × V)

/-- The index expression `m[k]` with its `ok` flag. -/
def mapGet {V : Type} : GoMap V → String → Option V
  | [], _ => none
  | (k', v) :: t, k => if k' = k then some v else mapGet t k

/-- The assignment `m[k] = v`: overwrite the entry of `k`, or add one. -/
def mapSet {V : Type} : GoMap V → String → V → GoMap V
  | [], k, v => [(k, v)]
  | (k', v') :: t, k, v => if k' = k then (k, v) :: t else (k', v') :: mapSet t k v

/-- The keys of a map, in iteration order. -/
def mapKeys {V : Type} (m : GoMap V) : List String := m.map Prod.fst

/-! ## Data model (`main.go`) -/

/-- The `output.Output` value built for a session (`main.go` lines 147-152).
`Conf` stands for the configuration record `r.Config.Server[server]`. -/
structure Output where
  Templete : String
  ServerList : List String
  Conf : Nat
  AutoColor : Bool
deriving DecidableEq, Repr

/-- The struct `SftpConnect`: the ssh connection and the sftp client are
handles of the transport library. -/
structure SftpConnect where
  SshConnect : Nat
  Connect : Nat
  Output : Output
  Pwd : String
deriving DecidableEq, Repr

/-- The struct `TargetConnectMap`: an embedded `SftpConnect` and the target
path list. -/
structure TargetConnectMap extends SftpConnect where
  Path : List String
deriving DecidableEq, Repr

/-- The struct `prompt.Suggest` of the prompt library: a candidate text and its
description. -/
structure Suggest where
  Text : String
  Description : String
deriving DecidableEq, Repr

/-- The fields of `RunSftp` that the modelled functions read or write.
`Config` maps a server name to its configuration record; `TargetClient` and
`RemoteComplete` are the slots of the completion, empty until it runs. -/
structure RunSftp where
  SelectServer : List String
  Config : String → Nat
  Client : GoMap SftpConnect
  LocalUmask : List String
  TargetClient : GoMap SftpConnect := []
  RemoteComplete : List Suggest := []

/-- The package variable `oprompt`. -/
def oprompt : String := "$\x7bSERVER\x7d :: "

/-! ## Target resolution (`createTargetMap`) -/

/-- Modelled from the spec: `common.Contains` is not under `src/`; each named
host is "checked against the registry", that is a membership test of a string
in a slice of strings (the same loop as `contains` at the end of `shell.go`). -/
def Contains : List String → String → Bool
  | [], _ => false
  | v :: s, e => if e = v then true else Contains s e

/-- The loop `check exist server` (`main.go` lines 197-203): one line on the
diagnostic stream for every element of the target list that is no server. -/
def checkExistServer (servers : List String) : List String → List String
  | [] => []
  | t :: rest =>
    if !Contains servers t then
      ("Error: host " ++ t ++ " not found.\n") :: checkExistServer servers rest
    else
      checkExistServer servers rest

/-- One turn of the loop `create targetMap` (`main.go` lines 206-216). -/
def targetMapStep (targetList : List String) (path : String)
    (targetMap : GoMap TargetConnectMap) (sc : String × SftpConnect) :
    GoMap TargetConnectMap :=
  if Contains targetList sc.1 then
    let targetMap :=
      match mapGet targetMap sc.1 with
      | some _ => targetMap
      | none => mapSet targetMap sc.1 { toSftpConnect := sc.2, Path := [] }
    match mapGet targetMap sc.1 with
    | some e => mapSet targetMap sc.1 { e with Path := e.Path ++ [path] }
    | none => targetMap
  else
    targetMap

/-- The function `createTargetMap` (`main.go` lines 180-219). `ParseHostPath`
is `common.ParseHostPath`, which is not under `src/`. The result is the target
map and the lines written to the diagnostic stream. -/
def createTargetMap (ParseHostPath : String → List String × String)
    (Client : GoMap SftpConnect) (srcTargetMap : GoMap TargetConnectMap)
    (pathline : String) : GoMap TargetConnectMap × List String :=
  let targetMap := srcTargetMap
  let servers := mapKeys Client
  let parsed := ParseHostPath pathline
  let path := parsed.2
  let targetList := if parsed.1.length = 0 then servers else parsed.1
  let stderr := checkExistServer servers targetList
  (Client.foldl (targetMapStep targetList path) targetMap, stderr)

/-! ## Keepalive sweep (`checkKeepalive`) and the exit checker -/

/-- What a sweep leaves behind: the receiver with its new registry, the lines
written to the diagnostic stream and the sftp clients that were closed. -/
structure KeepaliveResult where
  r : RunSftp
  stderr : List String
  closed : List Nat

/-- The body of one probe goroutine (`main.go` lines 231-250).
`CheckClientAlive` is the probe of the transport library on an ssh connection;
`none` is the nil error. -/
def keepaliveStep (CheckClientAlive : Nat → Option String)
    (acc : GoMap SftpConnect × List String × List Nat) (nc : String × SftpConnect) :
    GoMap SftpConnect × List String × List Nat :=
  match CheckClientAlive nc.2.SshConnect with
  | some err =>
    (acc.1, acc.2.1 ++ ["Exit Connect " ++ nc.1 ++ ", Error: " ++ err ++ "\n"],
      acc.2.2 ++ [nc.2.Connect])
  | none => (mapSet acc.1 nc.1 nc.2, acc.2.1, acc.2.2)

/-- The function `checkKeepalive` (`main.go` lines 222-261). -/
def checkKeepalive (CheckClientAlive : Nat → Option String) (r : RunSftp) :
    KeepaliveResult :=
  let clients := r.Client
  let swept := clients.foldl (keepaliveStep CheckClientAlive) ([], [], [])
  { r := { r with Client := swept.1 }, stderr := swept.2.1, closed := swept.2.2 }

/-- How a call ends: it returns a value, or the process is ended by `os.Exit`
with the given status. -/
inductive Control (α : Type) where
  | returned (a : α)
  | exited (code : Nat)
deriving DecidableEq, Repr

/-- What a call of `exitChecker` does. -/
structure ExitCheckResult where
  r : RunSftp
  stdout : List String
  stderr : List String
  closed : List Nat
  control : Control Bool

/-- The function `exitChecker` (`shell.go` lines 687-703); the argument `in` of
the source is called `_input`. -/
def exitChecker (CheckClientAlive : Nat → Option String) (r : RunSftp)
    (_input : String) (breakline : Bool) : ExitCheckResult :=
  let k : KeepaliveResult :=
    if breakline then checkKeepalive CheckClientAlive r
    else { r := r, stderr := [], closed := [] }
  if k.r.Client.length = 0 then
    { r := k.r, stdout := ["Error: No valid connections\n"], stderr := k.stderr,
      closed := k.closed, control := Control.exited 1 }
  else
    { r := k.r, stdout := [], stderr := k.stderr, closed := k.closed,
      control := Control.returned false }

/-! ## Pool construction (`createSftpConnect`) and `Start` -/

/-- The body of one connection goroutine (`main.go` lines 129-168).
`CreateSshConnect` is `r.Run.CreateSshConnect` and `NewClient` is
`sftp.NewClient` on the connection; both are of external packages. -/
def connectStep (CreateSshConnect : String → Except String Nat)
    (NewClient : Nat → Except String Nat) (r : RunSftp) (targets : List String)
    (acc : GoMap SftpConnect × List String) (server : String) :
    GoMap SftpConnect × List String :=
  match CreateSshConnect server with
  | Except.error err => (acc.1, acc.2 ++ [server ++ " connect error: " ++ err ++ "\n"])
  | Except.ok conn =>
    match NewClient conn with
    | Except.error err =>
      (acc.1, acc.2 ++ [server ++ " create client error: " ++ err ++ "\n"])
    | Except.ok ftp =>
      let o : Output :=
        { Templete := oprompt, ServerList := targets, Conf := r.Config server,
          AutoColor := true }
      let sftpCon : SftpConnect :=
        { SshConnect := conn, Connect := ftp, Output := o, Pwd := "./" }
      (mapSet acc.1 server sftpCon, acc.2)

/-- The function `createSftpConnect` (`main.go` lines 121-177): the registry
and the lines written to the diagnostic stream. -/
def createSftpConnect (CreateSshConnect : String → Except String Nat)
    (NewClient : Nat → Except String Nat) (r : RunSftp) (targets : List String) :
    GoMap SftpConnect × List String :=
  targets.foldl (connectStep CreateSshConnect NewClient r targets) ([], [])

/-- What a call of `Start` does: the receiver, the diagnostic stream, whether
the keepalive goroutine and the interactive shell were started, and how the
call ends. -/
structure StartResult where
  r : RunSftp
  stderr : List String
  keepaliveStarted : Bool
  shellStarted : Bool
  control : Control Unit

/-- The function `Start` (`main.go` lines 90-119). `shell` is how the
interactive shell `r.shell()`, once started, ends. The set-up of `r.Run`
(lines 92-95) is of the ssh package and is represented by `CreateSshConnect`. -/
def Start (CreateSshConnect : String → Except String Nat)
    (NewClient : Nat → Except String Nat) (shell : RunSftp → Control Unit)
    (r : RunSftp) : StartResult :=
  let r := { r with LocalUmask := ["0", "2", "2"] }
  let built := createSftpConnect CreateSshConnect NewClient r r.SelectServer
  let r := { r with Client := built.1 }
  if r.Client.length = 0 then
    { r := r, stderr := built.2 ++ ["Error: No server to connect.\n"],
      keepaliveStarted := false, shellStarted := false,
      control := Control.returned () }
  else
    { r := r, stderr := built.2, keepaliveStarted := true, shellStarted := true,
      control := shell r }

/-! ## Remote listing (`cmd_ls.go`) -/

/-- The struct `sftp.FileStat` of the sftp library, numeric fields as natural
numbers. -/
structure FileStat where
  Size : Nat
  Mode : Nat
  Mtime : Nat
  Atime : Nat
  UID : Nat
  GID : Nat
deriving DecidableEq, Repr

/-- An `os.FileInfo` as the sftp client returns it: the results of its
methods. `Sys` is the outcome of the type assertion `f.Sys().(*sftp.FileStat)`,
`none` when the assertion fails. -/
structure FileInfo where
  Name : String
  Size : Int
  Mode : Nat
  ModTime : Int
  IsDir : Bool
  Sys : Option FileStat
deriving DecidableEq, Repr

/-- The struct `sftpFileInfo`: an embedded `os.FileInfo` and the directory the
entry was found in. Its declaration is not under `src/`; the two fields are the
ones `getRemoteLsData` fills. -/
structure sftpFileInfo extends FileInfo where
  Dir : String
deriving DecidableEq, Repr

/-- The struct `sftpLs` (`cmd_ls.go` lines 31-36). `Client` is a pointer, `none`
is nil. -/
structure sftpLs where
  Client : Option TargetConnectMap
  Files : List sftpFileInfo
  Passwd : String
  Groups : String
deriving DecidableEq, Repr

/-- The struct `sftpLsData`: the columns of one long-format row. Its declaration
is not under `src/`; the fields are the ones `executeRemoteLs` assigns. -/
structure sftpLsData where
  Mode : String
  User : String
  Group : String
  Size : String
  Time : String
  Path : String
deriving DecidableEq, Repr

/-- The remote file system as seen through one `*sftp.Client`. -/
structure SftpClient where
  ReadLink : String → Except String String
  Lstat : String → Except String FileInfo
  ReadDir : String → Except String (List FileInfo)
  Open : String → Except String Nat
  ReadAll : Nat → Except String String

/-- The collaborators of the listing that are not under `src/`: the remote
behind each sftp client handle, `ExpandRemotePath`, `SortLsData`,
`humanize.Bytes`, `common.GetNameFromId`, the output tag `GetPrompt` of an
`Output` after `Create(server)`, the length of that output's `Prompt` field,
`os.FileMode.String`, the time layout applied to a Unix time, and
`filepath.Dir` and `filepath.Join`. -/
structure LsEnv where
  sftp : Nat → SftpClient
  ExpandRemotePath : TargetConnectMap → String → Except String (List String)
  SortLsData : (String → Bool) → List sftpFileInfo → List sftpFileInfo
  humanizeBytes : Nat → String
  GetNameFromId : String → Nat → String
  GetPrompt : Output → String → String
  promptLen : Output → String → Nat
  modeString : Nat → String
  timeFormat : Nat → String
  filepathDir : String → String
  filepathJoin : String → String → String

/-- The replacement of the regular expression `(.+)/$` by `$1`: a last `/`
that follows a character other than a line feed is cut off. -/
def trimTrailingSlash (ep : String) : String :=
  match ep.data.reverse with
  | '/' :: ch :: rest => if ch = '\n' then ep else String.mk (ch :: rest).reverse
  | _ => ep

/-- The items of one expanded path (`cmd_ls.go` lines 320-369): the items to
append and the lines written to the host's output. -/
def lsPathItems (env : LsEnv) (client : TargetConnectMap) (path : String) :
    List sftpFileInfo × List String :=
  let fs := env.sftp client.Connect
  let path :=
    match fs.ReadLink path with
    | Except.ok p => p
    | Except.error _ => path
  match fs.Lstat path with
  | Except.error err => ([], ["Error: " ++ err ++ "\n"])
  | Except.ok lstat =>
    if lstat.IsDir then
      match fs.ReadDir path with
      | Except.error err => ([], ["Error: " ++ err ++ "\n"])
      | Except.ok entries =>
        let data : List sftpFileInfo :=
          if entries.length = 0 then
            [{ toFileInfo := lstat, Dir := env.filepathDir path }]
          else []
        (data ++ entries.map (fun d => { toFileInfo := d, Dir := path }), [])
    else
      ([{ toFileInfo := lstat, Dir := env.filepathDir path }], [])

/-- The loop over the expanded paths (`cmd_ls.go` lines 319-370). -/
def lsExpandedLoop (env : LsEnv) (client : TargetConnectMap) :
    List sftpFileInfo × List String → List String → List sftpFileInfo × List String
  | acc, [] => acc
  | acc, path :: rest =>
    let got := lsPathItems env client path
    lsExpandedLoop env client (acc.1 ++ got.1, acc.2 ++ got.2) rest

/-- The loop over `client.Path` (`cmd_ls.go` lines 304-371). -/
def lsPathLoop (env : LsEnv) (client : TargetConnectMap) :
    List sftpFileInfo × List String → List String → List sftpFileInfo × List String
  | acc, [] => acc
  | acc, ep :: rest =>
    let ep := trimTrailingSlash ep
    match env.ExpandRemotePath client ep with
    | Except.error err => lsPathLoop env client (acc.1, acc.2 ++ ["Error: " ++ err ++ "\n"]) rest
    | Except.ok epath =>
      if epath.length = 0 then
        lsPathLoop env client (acc.1, acc.2 ++ ["Error: " ++ ep ++ " not found.\n"]) rest
      else
        lsPathLoop env client (lsExpandedLoop env client acc epath) rest

/-- The results of `getRemoteLsData` and the lines it wrote to the host's
output; `err = none` is the nil error. -/
structure LsDataResult where
  lsdata : sftpLs
  err : Option String
  out : List String

/-- The zero value of `sftpLs`, the named result before it is assigned. -/
def sftpLsZero : sftpLs := { Client := none, Files := [], Passwd := "", Groups := "" }

/-- The function `getRemoteLsData` (`cmd_ls.go` lines 298-404). -/
def getRemoteLsData (env : LsEnv) (client : TargetConnectMap) : LsDataResult :=
  let fs := env.sftp client.Connect
  let looped := lsPathLoop env client ([], []) client.Path
  let data := looped.1
  match fs.Open "/etc/passwd" with
  | Except.error err => { lsdata := sftpLsZero, err := some err, out := looped.2 }
  | Except.ok passwdFile =>
    match fs.ReadAll passwdFile with
    | Except.error err => { lsdata := sftpLsZero, err := some err, out := looped.2 }
    | Except.ok passwd =>
      match fs.Open "/etc/group" with
      | Except.error err => { lsdata := sftpLsZero, err := some err, out := looped.2 }
      | Except.ok groupFile =>
        match fs.ReadAll groupFile with
        | Except.error err => { lsdata := sftpLsZero, err := some err, out := looped.2 }
        | Except.ok groups =>
          { lsdata := { Client := some client, Files := data, Passwd := passwd,
                        Groups := groups },
            err := none, out := looped.2 }

/-- The match of the regular expression `^\.` on a name: the name begins with
a dot. -/
def rgxMatchString (name : String) : Bool :=
  match name.data with
  | '.' :: _ => true
  | _ => false

/-- The loop that fills `hddata` (`cmd_ls.go` lines 139-150); `c` is the flag
lookup `c.Bool`. -/
def hiddenDelete (c : String → Bool) :
    List sftpFileInfo → List sftpFileInfo → List sftpFileInfo
  | hddata, [] => hddata
  | hddata, f :: rest =>
    if !c "a" then
      if !rgxMatchString f.Name then hiddenDelete c (hddata ++ [f]) rest
      else hiddenDelete c hddata rest
    else
      hiddenDelete c (hddata ++ [f]) rest

/-- What the goroutine of one host leaves behind (`cmd_ls.go` lines 107-163):
the lines written to the host's output, the list handed to `SortLsData` and
the value stored under `lsdata[server]`, if any. -/
structure LsHostResult where
  out : List String
  handedToSort : Option (List sftpFileInfo)
  data : Option sftpLs

/-- The goroutine of one host in `executeRemoteLs` (`cmd_ls.go` lines 107-163). -/
def lsHost (env : LsEnv) (c : String → Bool) (client : TargetConnectMap) : LsHostResult :=
  let client : TargetConnectMap :=
    if client.Path.length > 0 then client
    else { client with Path := client.Path ++ [client.Pwd] }
  let got := getRemoteLsData env client
  match got.err with
  | some err =>
    { out := got.out ++ ["Error: " ++ err ++ "\n"], handedToSort := none, data := none }
  | none =>
    let hddata := hiddenDelete c [] got.lsdata.Files
    let sorted := env.SortLsData c hddata
    { out := got.out, handedToSort := some hddata,
      data := some { got.lsdata with Files := sorted } }

/-- The fetch phase of `executeRemoteLs` (`cmd_ls.go` lines 99-169): the map
`lsdata` and, for each host, the lines written to its output. -/
def lsFetch (env : LsEnv) (c : String → Bool) :
    GoMap sftpLs × List (String × List String) → GoMap TargetConnectMap →
    GoMap sftpLs × List (String × List String)
  | acc, [] => acc
  | acc, (server, client) :: rest =>
    let h := lsHost env c client
    let lsdata :=
      match h.data with
      | some data => mapSet acc.1 server data
      | none => acc.1
    lsFetch env c (lsdata, acc.2 ++ [(server, h.out)]) rest

/-- The pair of `uint64(x)` for an `int64` value. -/
def toUint64 (x : Int) : Nat := (x % 18446744073709551616).toNat

/-- The size string of the long format: `humanize.Bytes` under `h`, else the
decimal number. -/
def sizeString (env : LsEnv) (c : String → Bool) (size : Nat) : String :=
  if c "h" then env.humanizeBytes size else toString size

/-- The loop `get maxSizeWidth` over the files of one host
(`cmd_ls.go` lines 181-192); `len` of a Go string is its length in bytes. -/
def maxSizeWidthFiles (env : LsEnv) (c : String → Bool) : Nat → List sftpFileInfo → Nat
  | maxSizeWidth, [] => maxSizeWidth
  | maxSizeWidth, f :: rest =>
    let sizestr := sizeString env c (toUint64 f.Size)
    if maxSizeWidth < sizestr.utf8ByteSize then
      maxSizeWidthFiles env c sizestr.utf8ByteSize rest
    else
      maxSizeWidthFiles env c maxSizeWidth rest

/-- The loop `get maxSizeWidth` over all hosts (`cmd_ls.go` lines 178-193). -/
def maxSizeWidthOf (env : LsEnv) (c : String → Bool) : Nat → GoMap sftpLs → Nat
  | maxSizeWidth, [] => maxSizeWidth
  | maxSizeWidth, (_, data) :: rest =>
    maxSizeWidthOf env c (maxSizeWidthFiles env c maxSizeWidth data.Files) rest

/-- The verb `%Ns` of `fmt`: the string, with blanks in front up to `N`
characters. -/
def padLeft (width : Nat) (s : String) : String :=
  String.mk (List.replicate (width - s.length) ' ') ++ s

/-- The columns of the row of one file (`cmd_ls.go` lines 204-242). -/
def lsRowData (env : LsEnv) (c : String → Bool) (data : sftpLs) (f : sftpFileInfo) :
    sftpLsData :=
  let uid : Nat := match f.Sys with | some stat => stat.UID | none => 0
  let gid : Nat := match f.Sys with | some stat => stat.GID | none => 0
  let size : Nat := match f.Sys with | some stat => stat.Size | none => 0
  let timestr : String := match f.Sys with | some stat => env.timeFormat stat.Mtime | none => ""
  let user := if c "n" then toString uid else env.GetNameFromId data.Passwd uid
  let group := if c "n" then toString gid else env.GetNameFromId data.Groups gid
  { Mode := env.modeString f.Mode, User := user, Group := group,
    Size := sizeString env c size, Time := timestr,
    Path := env.filepathJoin f.Dir f.Name }

/-- The row written without the output tag (`cmd_ls.go` lines 249-252). -/
def rowPlain (maxSizeWidth : Nat) (d : sftpLsData) : String :=
  d.Mode ++ "\t" ++ d.User ++ "\t" ++ d.Group ++ "\t" ++ padLeft maxSizeWidth d.Size ++ "\t" ++
    d.Time ++ "\t" ++ d.Path ++ "\n"

/-- The row written with the output tag in front (`cmd_ls.go` lines 255-258). -/
def rowTagged (prompt : String) (maxSizeWidth : Nat) (d : sftpLsData) : String :=
  prompt ++ "\t" ++ d.Mode ++ "\t" ++ d.User ++ "\t" ++ d.Group ++ "\t" ++
    padLeft maxSizeWidth d.Size ++ "\t" ++ d.Time ++ "\t" ++ d.Path ++ "\n"

/-- The rows of one host in the long format (`cmd_ls.go` lines 203-260);
`count` is `len(lsdata)`. -/
def lsLongFiles (env : LsEnv) (c : String → Bool) (count maxSizeWidth : Nat)
    (prompt : String) (data : sftpLs) : List String → List sftpFileInfo → List String
  | rows, [] => rows
  | rows, f :: rest =>
    let d := lsRowData env c data f
    if count = 1 then
      lsLongFiles env c count maxSizeWidth prompt data (rows ++ [rowPlain maxSizeWidth d]) rest
    else
      lsLongFiles env c count maxSizeWidth prompt data
        (rows ++ [rowTagged prompt maxSizeWidth d]) rest

/-- The loop `print list ls` (`cmd_ls.go` lines 196-261) over the hosts of
`lsdata`. A nil `data.Client` would stop the program; `lsFetch` stores no such
value. -/
def lsLongHosts (env : LsEnv) (c : String → Bool) (count maxSizeWidth : Nat) :
    List String → GoMap sftpLs → List String
  | rows, [] => rows
  | rows, (server, data) :: rest =>
    match data.Client with
    | none => rows
    | some client =>
      let prompt := env.GetPrompt client.Output server
      lsLongHosts env c count maxSizeWidth
        (lsLongFiles env c count maxSizeWidth prompt data rows data.Files) rest

/-- What `executeRemoteLs` writes: the rows handed to the tab writer on the
standard output (long format), the lines written to each host's output, and
the items and padding handed to `textcol.PrintColumns` for each host (default
format). -/
structure LsOutput where
  stdout : List String
  hostOut : List (String × List String)
  columns : List (String × List String × Nat)

/-- The function `executeRemoteLs` (`cmd_ls.go` lines 98-295). -/
def executeRemoteLs (env : LsEnv) (c : String → Bool) (clients : GoMap TargetConnectMap) :
    LsOutput :=
  let fetched := lsFetch env c ([], []) clients
  let lsdata := fetched.1
  if c "l" then
    let maxSizeWidth := maxSizeWidthOf env c 0 lsdata
    { stdout := lsLongHosts env c lsdata.length maxSizeWidth [] lsdata,
      hostOut := fetched.2, columns := [] }
  else if c "1" then
    let lines : List (String × List String) :=
      lsdata.map (fun sd =>
        (sd.1, sd.2.Files.map (fun f => env.filepathJoin f.Dir f.Name ++ "\n")))
    { stdout := [], hostOut := fetched.2 ++ lines, columns := [] }
  else
    let cols : List (String × List String × Nat) :=
      lsdata.map (fun sd =>
        (sd.1, sd.2.Files.map (fun f => f.Name),
          match sd.2.Client with
          | some client => env.promptLen client.Output sd.1
          | none => 0))
    { stdout := [], hostOut := fetched.2, columns := cols }

/-! ## Concrete inputs -/

/-- A session with handles `n` and `n + 10` and the given current directory. -/
def exampleSession (n : Nat) (pwd : String) : SftpConnect :=
  { SshConnect := n, Connect := n + 10,
    Output := { Templete := oprompt, ServerList := ["h1", "h2", "h3"], Conf := 0,
                AutoColor := true },
    Pwd := pwd }

/-- The pool `{h1, h2, h3}`. -/
def examplePool : GoMap SftpConnect :=
  [("h1", exampleSession 1 "./"), ("h2", exampleSession 2 "/srv"), ("h3", exampleSession 3 "./")]

/-- The pool `{h1}`. -/
def examplePoolOne : GoMap SftpConnect := [("h1", exampleSession 1 "./")]

/-- A stand-in for `common.ParseHostPath` that splits every input into the
given host list and path. -/
def parseAs (hosts : List String) (path : String) : String → List String × String :=
  fun _ => (hosts, path)


/-- A regular file `f` of five bytes, as the sftp client reports it. -/
def exampleFile : FileInfo :=
  { Name := "f", Size := 5, Mode := 420, ModTime := 0, IsDir := false,
    Sys := some { Size := 5, Mode := 420, Mtime := 0, Atime := 0, UID := 0, GID := 0 } }

/-- A world in which every path is the file `f`, and only the host behind the
sftp client `11` lets `/etc/passwd` and `/etc/group` be opened. -/
def exampleEnv : LsEnv :=
  { sftp := fun n =>
      { ReadLink := fun _ => Except.error "not a link",
        Lstat := fun _ => Except.ok exampleFile,
        ReadDir := fun _ => Except.error "not a directory",
        Open := fun _ => if n = 11 then Except.ok 0 else Except.error "file does not exist",
        ReadAll := fun _ => Except.ok "" },
    ExpandRemotePath := fun _ p => Except.ok [p],
    SortLsData := fun _ files => files,
    humanizeBytes := fun n => toString n ++ " B",
    GetNameFromId := fun _ _ => "root",
    GetPrompt := fun _ server => server ++ " :: ",
    promptLen := fun _ server => (server ++ " :: ").utf8ByteSize,
    modeString := fun _ => "-rw-r--r--",
    timeFormat := fun _ => "1970 01-01 00:00:00",
    filepathDir := fun _ => "/tmp",
    filepathJoin := fun dir name => dir ++ "/" ++ name }

/-- The target set `{h1: [/tmp/f], h2: [/tmp/f]}`. -/
def exampleTargets : GoMap TargetConnectMap :=
  [("h1", { toSftpConnect := exampleSession 1 "./", Path := ["/tmp/f"] }),
   ("h2", { toSftpConnect := exampleSession 2 "./", Path := ["/tmp/f"] })]

/-- The flags of `ls -l`. -/
def flagsLong : String → Bool := fun name => decide (name = "l")


/-! ## Auxiliary definitions for the statements -/

/-- The entry of a host after it was resolved once more: its previous entry
with the path appended, or a fresh entry from the session. Used to state the
lemmas on `targetMapStep`. -/
def resolvedEntry (c : SftpConnect) (path : String) : Option TargetConnectMap → TargetConnectMap
  | some e => { e with Path := e.Path ++ [path] }
  | none => { toSftpConnect := c, Path := [path] }

/-! ## Remote `cat` (`cmd_cat.go`) -/

/-- The loop over the expanded paths in `cat` (`cmd_cat.go` lines 63-77).
`sftp` is the remote behind each client handle and `WriteTo` is
`f.WriteTo(w)` of an opened file: the content it wrote and its error. A line
written to the output of a host is recorded with that host. -/
def catFiles (sftp : Nat → SftpClient) (WriteTo : Nat → Nat → String × Option String)
    (server : String) (client : TargetConnectMap) :
    List (String × String) → List String → List (String × String)
  | out, [] => out
  | out, p :: rest =>
    match (sftp client.Connect).Open p with
    | Except.error err => catFiles sftp WriteTo server client (out ++ [(server, err ++ "\n")]) rest
    | Except.ok f =>
      let written := WriteTo client.Connect f
      match written.2 with
      | some err =>
        catFiles sftp WriteTo server client
          (out ++ [(server, written.1)] ++ [(server, err ++ "\n")]) rest
      | none => catFiles sftp WriteTo server client (out ++ [(server, written.1)]) rest

/-- The loop over `client.Path` in `cat` (`cmd_cat.go` lines 55-78). -/
def catPaths (sftp : Nat → SftpClient)
    (ExpandRemotePath : TargetConnectMap → String → Except String (List String))
    (WriteTo : Nat → Nat → String × Option String) (server : String)
    (client : TargetConnectMap) :
    List (String × String) → List String → List (String × String)
  | out, [] => out
  | out, path :: rest =>
    match ExpandRemotePath client path with
    | Except.error err =>
      catPaths sftp ExpandRemotePath WriteTo server client (out ++ [(server, err ++ "\n")]) rest
    | Except.ok pathlist =>
      catPaths sftp ExpandRemotePath WriteTo server client
        (catFiles sftp WriteTo server client out pathlist) rest

/-- The loop over the target map in `cat` (`cmd_cat.go` lines 47-79). -/
def catHosts (sftp : Nat → SftpClient)
    (ExpandRemotePath : TargetConnectMap → String → Except String (List String))
    (WriteTo : Nat → Nat → String × Option String) :
    List (String × String) → GoMap TargetConnectMap → List (String × String)
  | out, [] => out
  | out, (server, client) :: rest =>
    catHosts sftp ExpandRemotePath WriteTo
      (catPaths sftp ExpandRemotePath WriteTo server client out client.Path) rest

/-- The loop that builds the target map of `cat` (`cmd_cat.go` lines 42-45):
the map and the diagnostics of the resolutions. -/
def catTargets (ParseHostPath : String → List String × String) (Client : GoMap SftpConnect) :
    GoMap TargetConnectMap × List String → List String → GoMap TargetConnectMap × List String
  | acc, [] => acc
  | acc, p :: rest =>
    let made := createTargetMap ParseHostPath Client acc.1 p
    catTargets ParseHostPath Client (made.1, acc.2 ++ made.2) rest

/-- What `cat` writes: the lines on the hosts' outputs, each with its host, and
the diagnostic stream. -/
structure CatResult where
  out : List (String × String)
  stderr : List String

/-- The action of `cat` (`cmd_cat.go` lines 38-85) on the arguments
`pathlist` that the cli package hands to it. -/
def cat (ParseHostPath : String → List String × String) (sftp : Nat → SftpClient)
    (ExpandRemotePath : TargetConnectMap → String → Except String (List String))
    (WriteTo : Nat → Nat → String × Option String) (r : RunSftp) (pathlist : List String) :
    CatResult :=
  let targets := catTargets ParseHostPath r.Client ([], []) pathlist
  { out := catHosts sftp ExpandRemotePath WriteTo [] targets.1, stderr := targets.2 }

/-! ## Remote `cd` (`cmd_cd.go`) -/

/-- The loop `check directory` of `cd` (`cmd_cd.go` lines 34-80) on the
registry and the lines written so far. `none` is a run-time panic (an index
out of range or a nil session); a `return` inside the loop ends it with the
state reached. -/
def cdLoop (sftp : Nat → SftpClient)
    (ExpandRemotePath : TargetConnectMap → String → Except String (List String)) :
    GoMap SftpConnect × List (String × String) → GoMap TargetConnectMap →
    Option (GoMap SftpConnect × List (String × String))
  | st, [] => some st
  | st, (server, client) :: rest =>
    match client.Path with
    | [] => none
    | path :: _ =>
      match ExpandRemotePath client path with
      | Except.error _ => some (st.1, st.2 ++ [(server, "Error: is not expand path.\n")])
      | Except.ok pathList =>
        match pathList with
        | [found] =>
          let path :=
            match (sftp client.Connect).ReadLink found with
            | Except.ok p => p
            | Except.error _ => found
          match (sftp client.Connect).Lstat path with
          | Except.error err =>
            cdLoop sftp ExpandRemotePath (st.1, st.2 ++ [(server, "Error: " ++ err ++ "\n")]) rest
          | Except.ok stat =>
            if !stat.IsDir then
              cdLoop sftp ExpandRemotePath
                (st.1, st.2 ++ [(server, "Error: is not directory\n")]) rest
            else
              match mapGet st.1 server with
              | none => none
              | some c =>
                cdLoop sftp ExpandRemotePath (mapSet st.1 server { c with Pwd := path }, st.2)
                  rest
        | _ => some (st.1, st.2 ++ [(server, "Error: is not expand path.\n")])

/-- What `cd` leaves behind: the receiver, the lines on the hosts' outputs and
the diagnostic stream. -/
structure CdResult where
  r : RunSftp
  out : List (String × String)
  stderr : List String

/-- The function `cd` (`cmd_cd.go` lines 17-88); `args` is the command line,
command name first. `none` is a run-time panic. -/
def cd (ParseHostPath : String → List String × String) (sftp : Nat → SftpClient)
    (ExpandRemotePath : TargetConnectMap → String → Except String (List String))
    (r : RunSftp) (args : List String) : Option CdResult :=
  if args.length = 1 then
    some { r := { r with Client := r.Client.map (fun sc => (sc.1, { sc.2 with Pwd := "./" })) },
           out := [], stderr := [] }
  else
    match args with
    | _ :: arg :: _ =>
      let made := createTargetMap ParseHostPath r.Client [] arg
      match cdLoop sftp ExpandRemotePath (r.Client, []) made.1 with
      | none => none
      | some st => some { r := { r with Client := st.1 }, out := st.2, stderr := made.2 }
    | _ => none

/-! ## Remote completion (`GetRemoteComplete`, `shell.go`) -/

/-- The order `<` of Go strings, on the characters: the strings are compared
byte by byte, which for UTF-8 is the order of the code points. -/
def goStringLt : List Char → List Char → Bool
  | [], [] => false
  | [], _ :: _ => true
  | _ :: _, [] => false
  | a :: as, b :: bs => if a < b then true else if b < a then false else goStringLt as bs

/-- The call `sort.SliceStable(p, less)` with `less` the order of the `Text`
fields: a stable sort. -/
def sortSliceStable (p : List Suggest) : List Suggest :=
  List.insertionSort (fun a b => goStringLt b.Text.data a.Text.data = false) p

/-- The collaborators of the remote completion that are not under `src/`:
`Getwd`, `Stat` and `Glob` of the sftp client behind a handle, and
`filepath.IsAbs`, `filepath.Join` and `filepath.Base`. -/
structure CompleteEnv where
  Getwd : Nat → Except String String
  Stat : Nat → String → Except String FileInfo
  Glob : Nat → String → Except String (List String)
  filepathIsAbs : String → Bool
  filepathJoin : String → String → String
  filepathBase : String → String

/-- The replacement of the regular expression `([][ )(\\])` by a backslash and
the match: a backslash is put in front of every bracket, blank, parenthesis and
backslash. -/
def escapeBlob (p : String) : String :=
  String.mk (p.data.flatMap (fun ch =>
    if ch = ']' ∨ ch = '[' ∨ ch = ' ' ∨ ch = ')' ∨ ch = '(' ∨ ch = '\\' then ['\\', ch]
    else [ch]))

/-- The path to probe (`shell.go` lines 524-536). -/
def completeRpath (env : CompleteEnv) (parsedPath dir pwd : String) : String :=
  if env.filepathIsAbs parsedPath then parsedPath
  else if parsedPath = "~" then dir
  else
    match parsedPath.data with
    | '~' :: '/' :: rest => env.filepathJoin dir (String.mk rest)
    | _ => env.filepathJoin pwd parsedPath

/-- The goroutine of one host in `GetRemoteComplete` (`shell.go` lines 512-571)
up to the insertion: the names it is going to insert, `none` when one of its
probes fails. -/
def completeHost (env : CompleteEnv) (parsedPath : String) (client : SftpConnect) :
    Option (List String) :=
  match env.Getwd client.Connect with
  | Except.error _ => none
  | Except.ok dir =>
    let rpath := completeRpath env parsedPath dir client.Pwd
    match env.Stat client.Connect rpath with
    | Except.error _ => none
    | Except.ok stat =>
      let rpath := if stat.IsDir then rpath ++ "/*" else rpath ++ "*"
      match env.Glob client.Connect rpath with
      | Except.error _ => none
      | Except.ok globlist => some (globlist.map (fun p => escapeBlob (env.filepathBase p)))

/-- The insertions `m[p] = append(m[p], server)` of one host
(`shell.go` lines 559-569). -/
def completeAdd (server : String) : GoMap (List String) → List String → GoMap (List String)
  | m, [] => m
  | m, p :: rest =>
    let hosts := match mapGet m p with
      | some hosts => hosts
      | none => []
    completeAdd server (mapSet m p (hosts ++ [server])) rest

/-- The loop over the target map (`shell.go` lines 508-577). -/
def completeHosts (env : CompleteEnv) (parsedPath : String) :
    GoMap (List String) → GoMap SftpConnect → GoMap (List String)
  | m, [] => m
  | m, (server, client) :: rest =>
    match completeHost env parsedPath client with
    | none => completeHosts env parsedPath m rest
    | some names => completeHosts env parsedPath (completeAdd server m names) rest

/-- The loop that picks the target map from the pool (`shell.go` lines 496-500). -/
def completeTargets (parsedservers : List String) :
    GoMap SftpConnect → GoMap SftpConnect → GoMap SftpConnect
  | targetmap, [] => targetmap
  | targetmap, (server, client) :: rest =>
    if Contains parsedservers server then
      completeTargets parsedservers (mapSet targetmap server client) rest
    else completeTargets parsedservers targetmap rest

/-- The suggestion of a path and its hosts (`shell.go` lines 580-592). -/
def pathSuggest (ph : String × List String) : Suggest :=
  { Text := ph.1, Description := "remote path. from:" ++ String.intercalate "," ph.2 }

/-- What `GetRemoteComplete` leaves behind: the receiver and the result
`confirmRemote`. -/
structure CompleteResult where
  r : RunSftp
  confirmRemote : Bool

/-- The function `GetRemoteComplete` (`shell.go` lines 442-608). -/
def GetRemoteComplete (ParseHostPath : String → List String × String) (env : CompleteEnv)
    (r : RunSftp) (ishost ispath useTargetmap : Bool) (path : String) : CompleteResult :=
  let servers := mapKeys r.Client
  let s := sortSliceStable
    (servers.map (fun server => { Text := server, Description := "remote host." }))
  if ishost && !ispath then
    { r := { r with RemoteComplete := s }, confirmRemote := true }
  else
    let parsed := ParseHostPath path
    let parsedPath := parsed.2
    let targetmap : GoMap SftpConnect :=
      if !useTargetmap then
        let parsedservers := if parsed.1.length = 0 then servers else parsed.1
        completeTargets parsedservers [] r.Client
      else r.TargetClient
    let r : RunSftp := if !useTargetmap then { r with TargetClient := targetmap } else r
    let m := completeHosts env parsedPath [] targetmap
    let p := sortSliceStable (m.map pathSuggest)
    if ispath && !ishost then
      { r := { r with RemoteComplete := p }, confirmRemote := false }
    else if useTargetmap then
      { r := { r with RemoteComplete := p }, confirmRemote := false }
    else
      { r := { r with RemoteComplete := p ++ s }, confirmRemote := false }

/-! ## Permission modes (`CreateModeComplete`, `shell.go`) -/

/-- Modelled from the spec: `DupPermutationsRecursive0` is not under `src/`.
It is the "recursive cartesian-product generator of a given digit alphabet and
digit count": every sequence of `k` numbers below `n`, in a fixed order, the
first position varying slowest. -/
def DupPermutationsRecursive0 (n : Nat) : Nat → List (List Nat)
  | 0 => [[]]
  | k + 1 =>
    (List.range n).flatMap (fun num =>
      (DupPermutationsRecursive0 n k).map (fun childPattern => num :: childPattern))

/-- The text `fmt.Sprint` gives for a slice of integers: the decimal numbers,
separated by a blank, in square brackets. -/
def fmtSprint (mode : List Nat) : String :=
  "[" ++ String.intercalate " " (mode.map toString) ++ "]"

/-- The function `unicode.IsSpace`: the white space of ASCII, the next line
and no-break space of Latin-1, and the space separators and line and paragraph
separators of Unicode. -/
def unicodeIsSpace (ch : Char) : Bool :=
  decide (ch = ' ' ∨ ch = '\t' ∨ ch = '\n' ∨ ch = '\r' ∨ ch = '\x0b' ∨ ch = '\x0c' ∨
    ch.toNat = 133 ∨ ch.toNat = 160 ∨ ch.toNat = 5760 ∨
    (8192 ≤ ch.toNat ∧ ch.toNat ≤ 8202) ∨ ch.toNat = 8232 ∨ ch.toNat = 8233 ∨
    ch.toNat = 8239 ∨ ch.toNat = 8287 ∨ ch.toNat = 12288)

/-- The function `strings.Fields` on the characters: the maximal runs without
white space. `cur` is the run being read. -/
def fieldsLoop : List Char → List Char → List String
  | cur, [] => if cur = [] then [] else [String.mk cur]
  | cur, ch :: rest =>
    if unicodeIsSpace ch then
      if cur = [] then fieldsLoop [] rest else String.mk cur :: fieldsLoop [] rest
    else fieldsLoop (cur ++ [ch]) rest

/-- The function `strings.Fields`. -/
def stringsFields (s : String) : List String := fieldsLoop [] s.data

/-- The function `strings.Trim`: the characters of `cutset` are cut off at both
ends. -/
def stringsTrim (s cutset : String) : String :=
  String.mk
    (((s.data.dropWhile (fun ch => decide (ch ∈ cutset.data))).reverse.dropWhile
      (fun ch => decide (ch ∈ cutset.data))).reverse)

/-- The function `CreateModeComplete` (`shell.go` lines 658-677). -/
def CreateModeComplete (_r : RunSftp) : List Suggest :=
  let modelist := DupPermutationsRecursive0 8 3
  modelist.map (fun mode =>
    let data := stringsTrim (String.join (stringsFields (fmtSprint mode))) "[]"
    { Text := data, Description := "" })

/-! ## Host picker (`list.go`) -/

/-- The struct `ListItem`. -/
structure ListItem where
  Text : String
  MatchedIndexes : List Int := []
  Score : Int := 0
deriving DecidableEq, Repr

/-- The fields of `ListInfo` that `toggle`, `allToggle` and `updateFilterText`
read or write. -/
structure ListInfo where
  NameList : List String
  SelectName : List String
  DataText : List String
  ViewText : List ListItem
  MultiFlag : Bool
  Keyword : String
deriving DecidableEq, Repr

/-- The function `arrayContains` (`list.go` lines 88-95). -/
def arrayContains : List String → String → Bool
  | [], _ => false
  | v :: arr, str => if v = str then true else arrayContains arr str

/-- The loop of `toggle` (`list.go` lines 102-108) on `tmpList` and
`addFlag`. -/
def toggleLoop (newLine : String) : List String × Bool → List String → List String × Bool
  | acc, [] => acc
  | acc, selectedLine :: rest =>
    if selectedLine ≠ newLine then toggleLoop newLine (acc.1 ++ [selectedLine], acc.2) rest
    else toggleLoop newLine (acc.1, false) rest

/-- The function `toggle` (`list.go` lines 98-114). -/
def toggle (l : ListInfo) (newLine : String) : ListInfo :=
  let looped := toggleLoop newLine ([], true) l.SelectName
  let tmpList := if looped.2 then looped.1 ++ [newLine] else looped.1
  { l with SelectName := tmpList }

/-- The characters that `regexp.QuoteMeta` escapes. -/
def regexpSpecial (ch : Char) : Bool :=
  decide (ch ∈ ['\\', '.', '+', '*', '?', '(', ')', '|', '[', ']', '{', '}', '^', '$'])

/-- The function `regexp.QuoteMeta`: a backslash in front of every special
character. -/
def QuoteMeta (s : String) : String :=
  String.mk (s.data.flatMap (fun ch => if regexpSpecial ch then ['\\', ch] else [ch]))

/-- The literal that a regular expression stands for when it is made of plain
characters and of escaped special characters only; `none` for a pattern with
an operator, which is outside this fragment of `regexp`. -/
def regexpLiteral : List Char → Option (List Char)
  | [] => some []
  | [ch] => if regexpSpecial ch then none else some [ch]
  | ch :: next :: rest =>
    if ch = '\\' then
      if regexpSpecial next then (regexpLiteral rest).map (fun lit => next :: lit) else none
    else if regexpSpecial ch then none
    else (regexpLiteral (next :: rest)).map (fun lit => ch :: lit)

/-- The call `re.MatchString` for the regular expression of a literal: the
literal occurs in the text. -/
def matchLiteral (lit : List Char) : List Char → Bool
  | [] => lit.isEmpty
  | ch :: rest => lit.isPrefixOf (ch :: rest) || matchLiteral lit rest

/-- The loop over `allServerText` (`list.go` lines 194-199). -/
def filterLoop (ToLower : String → String) (lit : List Char) :
    List ListItem → List String → List ListItem
  | tmpText, [] => tmpText
  | tmpText, line :: rest =>
    if matchLiteral lit (ToLower line).data then
      filterLoop ToLower lit (tmpText ++ [{ Text := line }]) rest
    else filterLoop ToLower lit tmpText rest

/-- The function `updateFilterText` (`list.go` lines 172-201). `ToLower` is
`strings.ToLower`. `none` is a run-time panic: the slice `l.DataText[1:]` of an
empty `DataText`, or a pattern that `regexp.MustCompile` does not take. -/
def updateFilterText (ToLower : String → String) (l : ListInfo) : Option ListInfo :=
  match l.DataText with
  | [] => none
  | header :: allServerText =>
    let keyword := l.Keyword
    if keyword.utf8ByteSize = 0 then
      some { l with ViewText := l.DataText.map (fun text => { Text := text }) }
    else
      let lowKeyword := QuoteMeta (ToLower keyword)
      match regexpLiteral lowKeyword.data with
      | none => none
      | some re =>
        let tmpText := filterLoop ToLower re [] allServerText
        some { l with ViewText := [{ Text := header }] ++ tmpText }

/-- The loop of `allToggle` when `allFlag` is false (`list.go` lines 126-131):
the name of each row that is not in `SelectedList` is toggled. `none` is a
run-time panic: a row without a field has no `strings.Fields(...)[0]`. -/
def allToggleUnselected (SelectedList : List String) : ListInfo → List ListItem → Option ListInfo
  | l, [] => some l
  | l, addLine :: rest =>
    match stringsFields addLine.Text with
    | [] => none
    | addName :: _ =>
      if !arrayContains SelectedList addName then
        allToggleUnselected SelectedList (toggle l addName) rest
      else allToggleUnselected SelectedList l rest

/-- The loop of `allToggle` when `allFlag` is true (`list.go` lines 135-138):
the name of each row is toggled. -/
def allToggleEvery : ListInfo → List ListItem → Option ListInfo
  | l, [] => some l
  | l, addLine :: rest =>
    match stringsFields addLine.Text with
    | [] => none
    | addName :: _ => allToggleEvery (toggle l addName) rest

/-- The function `allToggle` (`list.go` lines 117-141). `none` is a run-time
panic: the slice `l.ViewText[1:]` of an empty view, or a row without a field. -/
def allToggle (l : ListInfo) (allFlag : Bool) : Option ListInfo :=
  let SelectedList : List String := [] ++ l.SelectName
  match l.ViewText with
  | [] => none
  | _ :: rows =>
    if !allFlag then allToggleUnselected SelectedList l rows
    else allToggleEvery l rows

/-! ## Concrete inputs for the further commands -/

/-- A directory, as the sftp client reports it. -/
def exampleDir : FileInfo :=
  { Name := "srv", Size := 4096, Mode := 2147484141, ModTime := 0, IsDir := true,
    Sys := some { Size := 4096, Mode := 2147484141, Mtime := 0, Atime := 0, UID := 0,
                  GID := 0 } }

/-- A world for the completion: the host behind the client `11` has `foo` and
`bar` in `/srv`, the host behind `12` has `bar` and `baz`, and the host behind
`13` does not answer. -/
def exampleCompleteEnv : CompleteEnv :=
  { Getwd := fun n => if n = 13 then Except.error "connection lost" else Except.ok "/home/u",
    Stat := fun _ _ => Except.ok exampleDir,
    Glob := fun n _ =>
      if n = 11 then Except.ok ["/srv/foo", "/srv/bar"]
      else Except.ok ["/srv/bar", "/srv/baz"],
    filepathIsAbs := fun p => decide (p.data.head? = some '/'),
    filepathJoin := fun dir name => dir ++ "/" ++ name,
    filepathBase := fun p => String.mk (p.data.drop 5) }

/-- A receiver whose registry is the pool `{h1, h2, h3}`. -/
def exampleRun : RunSftp :=
  { SelectServer := ["h1", "h2", "h3"], Config := fun _ => 0, Client := examplePool,
    LocalUmask := ["0", "2", "2"] }

/-- A world for `cd`: every path is a directory; on the host behind the client
`11` no path expands, on the other hosts a path expands to itself. -/
def exampleCdSftp : Nat → SftpClient :=
  fun _ =>
    { ReadLink := fun _ => Except.error "not a link",
      Lstat := fun _ => Except.ok exampleDir,
      ReadDir := fun _ => Except.ok [],
      Open := fun _ => Except.error "is a directory",
      ReadAll := fun _ => Except.error "is a directory" }

/-- The expansion of the world for `cd`. -/
def exampleCdExpand : TargetConnectMap → String → Except String (List String) :=
  fun client p => if client.Connect = 11 then Except.ok [] else Except.ok [p]

/-- The world for `cd` when the stat of every path fails on the host behind the
client `11` and every path expands to itself. -/
def exampleCdSftpStat : Nat → SftpClient :=
  fun n =>
    { ReadLink := fun _ => Except.error "not a link",
      Lstat := fun _ =>
        if n = 11 then Except.error "file does not exist" else Except.ok exampleDir,
      ReadDir := fun _ => Except.ok [],
      Open := fun _ => Except.error "is a directory",
      ReadAll := fun _ => Except.error "is a directory" }

/-- A world for the listing: `/link` is a link to the directory `/data`, which
holds `f` and `.profile`; `/empty` is an empty directory; `/gone` does not
exist; the pattern `/none*` matches nothing and `/bad[` is no pattern; every
other path is the file `f`. -/
def exampleTreeEnv : LsEnv :=
  { exampleEnv with
    sftp := fun _ =>
      { ReadLink := fun p =>
          if p = "/link" then Except.ok "/data" else Except.error "not a link",
        Lstat := fun p =>
          if p = "/gone" then Except.error "file does not exist"
          else if p = "/data" ∨ p = "/empty" then Except.ok exampleDir
          else Except.ok exampleFile,
        ReadDir := fun p =>
          if p = "/data" then Except.ok [exampleFile, { exampleFile with Name := ".profile" }]
          else if p = "/empty" then Except.ok []
          else Except.error "permission denied",
        Open := fun _ => Except.ok 0,
        ReadAll := fun _ => Except.ok "" },
    ExpandRemotePath := fun _ p =>
      if p = "/none*" then Except.ok []
      else if p = "/bad[" then Except.error "syntax error in pattern"
      else Except.ok [p] }

/-- A target entry of `h1` with six requested paths. -/
def exampleTreeClient : TargetConnectMap :=
  { toSftpConnect := exampleSession 1 "./",
    Path := ["/link/", "/empty", "/gone", "/none*", "/bad[", "/tmp/f"] }

/-- A world for `cat`: a file cannot be opened on the host behind the client
`11` and can be opened everywhere else. -/
def exampleCatSftp : Nat → SftpClient :=
  fun n =>
    { ReadLink := fun _ => Except.error "not a link",
      Lstat := fun _ => Except.ok exampleFile,
      ReadDir := fun _ => Except.error "not a directory",
      Open := fun _ => if n = 11 then Except.error "file does not exist" else Except.ok 7,
      ReadAll := fun _ => Except.ok "hello\n" }

/-- A picker state that shows a header and the two servers `web 1` and
`web 2`, none selected. -/
def examplePicker : ListInfo :=
  { NameList := ["web 1", "web 2"], SelectName := [],
    DataText := ["ServerName  Connect Information  Note", "web 1       root@10.0.0.1",
                 "web 2       root@10.0.0.2"],
    ViewText := [{ Text := "ServerName  Connect Information  Note" },
                 { Text := "web 1       root@10.0.0.1" },
                 { Text := "web 2       root@10.0.0.2" }],
    MultiFlag := true, Keyword := "" }

/-- A picker state that shows a header and the servers `web` and `db`, with
`db` and the hidden `cache` selected. -/
def examplePickerDistinct : ListInfo :=
  { NameList := ["web", "db", "cache"], SelectName := ["db", "cache"],
    DataText := ["ServerName  Connect Information  Note", "web         root@10.0.0.1",
                 "db          root@10.0.0.2", "cache       root@10.0.0.3"],
    ViewText := [{ Text := "ServerName  Connect Information  Note" },
                 { Text := "web         root@10.0.0.1" },
                 { Text := "db          root@10.0.0.2" }],
    MultiFlag := true, Keyword := "0.0.0." }

/-- The flags of `ls -l -a`. -/
def flagsAll : String → Bool := fun name => decide (name = "l" ∨ name = "a")

/-- The flags of `ls -l -h`. -/
def flagsLongHuman : String → Bool := fun name => decide (name = "l" ∨ name = "h")

/-- A regular file of the given size as the sftp library reports it: `Size()`
is the `int64` of the size in the `FileStat` that `Sys()` returns. -/
def exampleSized (name : String) (size : Nat) : FileInfo :=
  { Name := name,
    Size := if size < 9223372036854775808 then (size : Int)
            else (size : Int) - 18446744073709551616,
    Mode := 420, ModTime := 0, IsDir := false,
    Sys := some { Size := size, Mode := 420, Mtime := 0, Atime := 0, UID := 0, GID := 0 } }

/-- A world for the size column: every path is a directory; on the host behind
the client `11` it holds `a` of 5 bytes and `b` of 1234 bytes, on every other
host `c` of 99999 bytes and `d` of 18446744073709551615 bytes; a size is
human-scaled to its thousands and the letter `k`. -/
def exampleSizeEnv : LsEnv :=
  { exampleEnv with
    sftp := fun n =>
      { ReadLink := fun _ => Except.error "not a link",
        Lstat := fun _ => Except.ok exampleDir,
        ReadDir := fun _ =>
          if n = 11 then Except.ok [exampleSized "a" 5, exampleSized "b" 1234]
          else Except.ok [exampleSized "c" 99999, exampleSized "d" 18446744073709551615],
        Open := fun _ => Except.ok 0,
        ReadAll := fun _ => Except.ok "" },
    humanizeBytes := fun n => toString (n / 1000) ++ "k" }

/-- The target set `{h1: [/data], h2: [/data]}`. -/
def exampleSizeTargets : GoMap TargetConnectMap :=
  [("h1", { toSftpConnect := exampleSession 1 "./", Path := ["/data"] }),
   ("h2", { toSftpConnect := exampleSession 2 "./", Path := ["/data"] })]

/-- A world for the completion of `~/docs`: the working directory is `/home/u`,
only `/home/u/docs` can be stat'ed, and its glob gives two names with blanks,
brackets, parentheses and a backslash on the host behind the client `11` and
one of them on the other hosts. -/
def exampleCompleteEscape : CompleteEnv :=
  { exampleCompleteEnv with
    Stat := fun _ p =>
      if p = "/home/u/docs" then Except.ok exampleDir
      else Except.error "file does not exist",
    Glob := fun n p =>
      if p = "/home/u/docs/*" then
        (if n = 11 then Except.ok ["/docs/a b(1)", "/docs/[x]\\y"]
         else Except.ok ["/docs/a b(1)"])
      else Except.error "no match",
    filepathBase := fun p => String.mk (p.data.drop 6) }

/-! # Theorems -/

/-! ## Lemmas on Go maps -/

theorem mapGet_mapSet_self {V : Type} (m : GoMap V) (k : String) (v : V) :
    mapGet (mapSet m k v) k = some v := by
  induction m with
  | nil => simp [mapSet, mapGet]
  | cons kv t ih =>
    obtain ⟨k', v'⟩ := kv
    by_cases hk : k' = k
    · simp [mapSet, mapGet, hk]
    · simp [mapSet, mapGet, hk, ih]

theorem mapGet_mapSet_ne {V : Type} (m : GoMap V) (k h : String) (v : V) (hne : h ≠ k) :
    mapGet (mapSet m k v) h = mapGet m h := by
  induction m with
  | nil =>
    have : ¬ k = h := fun e => hne e.symm
    simp [mapSet, mapGet, this]
  | cons kv t ih =>
    obtain ⟨k', v'⟩ := kv
    by_cases hk : k' = k
    · have : ¬ k = h := fun e => hne e.symm
      have h2 : ¬ k' = h := fun e => hne (e.symm.trans hk)
      simp [mapSet, mapGet, hk, this]
    · by_cases hh : k' = h
      · subst hh
        simp [mapSet, mapGet, hk]
      · simp [mapSet, mapGet, hk, hh, ih]

theorem mapGet_eq_none_iff {V : Type} (m : GoMap V) (h : String) :
    mapGet m h = none ↔ h ∉ mapKeys m := by
  induction m with
  | nil => simp [mapGet, mapKeys]
  | cons kv t ih =>
    obtain ⟨k', v'⟩ := kv
    by_cases hk : k' = h
    · simp [mapGet, mapKeys, hk]
    · have hk2 : ¬ h = k' := fun e => hk e.symm
      simp only [mapKeys] at ih
      simp [mapGet, mapKeys, hk, hk2, ih]

theorem mem_mapKeys_iff {V : Type} (m : GoMap V) (h : String) :
    h ∈ mapKeys m ↔ ∃ v, mapGet m h = some v := by
  constructor
  · intro hm
    cases hg : mapGet m h with
    | none => exact absurd hm ((mapGet_eq_none_iff m h).1 hg)
    | some v => exact ⟨v, rfl⟩
  · rintro ⟨v, hv⟩
    by_contra hn
    rw [(mapGet_eq_none_iff m h).2 hn] at hv
    cases hv

theorem mapKeys_mapSet_nodup {V : Type} (m : GoMap V) (k : String) (v : V)
    (hm : (mapKeys m).Nodup) : (mapKeys (mapSet m k v)).Nodup := by
  induction m with
  | nil => simp [mapSet, mapKeys]
  | cons kv t ih =>
    obtain ⟨k', v'⟩ := kv
    simp only [mapKeys, List.map_cons, List.nodup_cons] at hm
    by_cases hk : k' = k
    · subst hk
      simpa [mapSet, mapKeys] using hm
    · have ih2 := ih hm.2
      have hnot : k' ∉ mapKeys (mapSet t k v) := by
        intro hmem
        obtain ⟨w, hw⟩ := (mem_mapKeys_iff _ _).1 hmem
        rw [mapGet_mapSet_ne t k k' v hk] at hw
        exact hm.1 ((mem_mapKeys_iff t k').2 ⟨w, hw⟩)
      simp only [mapSet, hk, if_false, mapKeys, List.map_cons, List.nodup_cons]
      exact ⟨hnot, ih2⟩

theorem Contains_iff (l : List String) (e : String) : Contains l e = true ↔ e ∈ l := by
  induction l with
  | nil => simp [Contains]
  | cons v s ih =>
    by_cases hv : e = v
    · simp [Contains, hv]
    · simp [Contains, hv, ih]

/-! ## Lemmas on target resolution -/

theorem targetMapStep_get_self (tl : List String) (p : String) (tm : GoMap TargetConnectMap)
    (k : String) (c : SftpConnect) (hc : Contains tl k = true) :
    mapGet (targetMapStep tl p tm (k, c)) k = some (resolvedEntry c p (mapGet tm k)) := by
  cases hg : mapGet tm k with
  | none =>
    simp [targetMapStep, hc, hg, mapGet_mapSet_self, resolvedEntry]
  | some e =>
    simp [targetMapStep, hc, hg, mapGet_mapSet_self, resolvedEntry]

theorem targetMapStep_get_ne (tl : List String) (p : String) (tm : GoMap TargetConnectMap)
    (k h : String) (c : SftpConnect) (hne : h ≠ k) :
    mapGet (targetMapStep tl p tm (k, c)) h = mapGet tm h := by
  unfold targetMapStep
  by_cases hc : Contains tl k = true
  · cases hg : mapGet tm k with
    | none => simp [hc, hg, mapGet_mapSet_self, mapGet_mapSet_ne _ _ _ _ hne]
    | some e => simp [hc, hg, mapGet_mapSet_ne _ _ _ _ hne]
  · simp [hc]

theorem targetMapStep_skip (tl : List String) (p : String) (tm : GoMap TargetConnectMap)
    (sc : String × SftpConnect) (hc : Contains tl sc.1 = false) :
    targetMapStep tl p tm sc = tm := by
  simp [targetMapStep, hc]

theorem foldl_targetMapStep_get (tl : List String) (p : String) :
    ∀ (Client : GoMap SftpConnect) (tm : GoMap TargetConnectMap) (h : String),
      (mapKeys Client).Nodup →
      mapGet (Client.foldl (targetMapStep tl p) tm) h =
        match mapGet Client h with
        | some c => if Contains tl h then some (resolvedEntry c p (mapGet tm h)) else mapGet tm h
        | none => mapGet tm h := by
  intro Client
  induction Client with
  | nil => intro tm h _; simp [mapGet]
  | cons kc t ih =>
    intro tm h hnd
    obtain ⟨k, c⟩ := kc
    simp only [mapKeys, List.map_cons, List.nodup_cons] at hnd
    have hnd2 : (mapKeys t).Nodup := hnd.2
    rw [List.foldl_cons, ih _ h hnd2]
    by_cases hk : k = h
    · subst hk
      have hnone : mapGet t k = none := (mapGet_eq_none_iff t k).2 hnd.1
      simp only [hnone, mapGet, if_true]
      by_cases hc : Contains tl k = true
      · simp [hc, targetMapStep_get_self]
      · have hc2 : Contains tl k = false := by simpa using hc
        simp [hc2, targetMapStep_skip tl p tm (k, c) hc2]
    · have hne : h ≠ k := fun e => hk e.symm
      simp only [mapGet, hk, if_false, targetMapStep_get_ne tl p tm k h c hne]

theorem createTargetMap_get (ParseHostPath : String → List String × String)
    (Client : GoMap SftpConnect) (src : GoMap TargetConnectMap) (pathline : String)
    (hpool : (mapKeys Client).Nodup) (h : String) :
    mapGet (createTargetMap ParseHostPath Client src pathline).1 h =
      match mapGet Client h with
      | some c =>
        if (ParseHostPath pathline).1 = [] ∨ h ∈ (ParseHostPath pathline).1 then
          some (resolvedEntry c (ParseHostPath pathline).2 (mapGet src h))
        else mapGet src h
      | none => mapGet src h := by
  simp only [createTargetMap]
  rw [foldl_targetMapStep_get _ _ Client src h hpool]
  cases hg : mapGet Client h with
  | none => rfl
  | some c =>
    have hmem : h ∈ mapKeys Client := (mem_mapKeys_iff Client h).2 ⟨c, hg⟩
    by_cases hl : (ParseHostPath pathline).1 = []
    · have hc : Contains (mapKeys Client) h = true := (Contains_iff _ _).2 hmem
      simp [hl, hc]
    · have hlen : ¬ (ParseHostPath pathline).1.length = 0 := by
        simpa [List.length_eq_zero] using hl
      by_cases hin : h ∈ (ParseHostPath pathline).1
      · have hc : Contains (ParseHostPath pathline).1 h = true := (Contains_iff _ _).2 hin
        simp [hlen, hl, hin, hc]
      · have hc : Contains (ParseHostPath pathline).1 h = false := by
          cases hb : Contains (ParseHostPath pathline).1 h with
          | false => rfl
          | true => exact absurd ((Contains_iff _ _).1 hb) hin
        simp [hlen, hl, hin, hc]

theorem checkExistServer_eq (servers : List String) (targetList : List String) :
    checkExistServer servers targetList =
      (targetList.filter (fun t => !Contains servers t)).map
        (fun t => "Error: host " ++ t ++ " not found.\n") := by
  induction targetList with
  | nil => simp [checkExistServer]
  | cons t rest ih =>
    cases hc : Contains servers t with
    | false => simp [checkExistServer, hc, ih]
    | true => simp [checkExistServer, hc, ih]

/-- C1: a target spec that `ParseHostPath` splits into a non-empty host list
and a path `p`, resolved from the empty target map, gives a map whose keys are
exactly the listed hosts that are in the pool, each with the session of the
pool and the one-element path list `[p]`; every other host is absent. -/
theorem createTargetMap_listed_hosts (ParseHostPath : String → List String × String)
    (Client : GoMap SftpConnect) (pathline : String) (hosts : List String) (p : String)
    (hpool : (mapKeys Client).Nodup) (hparse : ParseHostPath pathline = (hosts, p))
    (hne : hosts ≠ []) :
    (∀ h, h ∈ mapKeys (createTargetMap ParseHostPath Client [] pathline).1 ↔
        (h ∈ hosts ∧ h ∈ mapKeys Client)) ∧
    (∀ h c, h ∈ hosts → mapGet Client h = some c →
        mapGet (createTargetMap ParseHostPath Client [] pathline).1 h =
          some { toSftpConnect := c, Path := [p] }) ∧
    (∀ h, ¬ (h ∈ hosts ∧ h ∈ mapKeys Client) →
        mapGet (createTargetMap ParseHostPath Client [] pathline).1 h = none) := by
  have key : ∀ h, mapGet (createTargetMap ParseHostPath Client [] pathline).1 h =
      match mapGet Client h with
      | some c => if h ∈ hosts then some { toSftpConnect := c, Path := [p] } else none
      | none => none := by
    intro h
    rw [createTargetMap_get ParseHostPath Client [] pathline hpool h, hparse]
    cases mapGet Client h with
    | none => simp [mapGet]
    | some c => simp [hne, mapGet, resolvedEntry]
  refine ⟨?_, ?_, ?_⟩
  · intro h
    rw [mem_mapKeys_iff, mem_mapKeys_iff, key h]
    cases hg : mapGet Client h with
    | none => simp
    | some c =>
      by_cases hin : h ∈ hosts
      · simp [hin]
      · simp [hin]
  · intro h c hin hg
    rw [key h, hg]
    simp [hin]
  · intro h hnot
    rw [key h]
    cases hg : mapGet Client h with
    | none => rfl
    | some c =>
      have hmem : h ∈ mapKeys Client := (mem_mapKeys_iff Client h).2 ⟨c, hg⟩
      have hin : h ∉ hosts := fun hin => hnot ⟨hin, hmem⟩
      simp [hin]

/-- C2: a target spec with no host segment, resolved from the empty target
map, gives a map whose keys are exactly all hosts of the pool, each with the
session of the pool and the path list `[p]`. -/
theorem createTargetMap_no_host_segment (ParseHostPath : String → List String × String)
    (Client : GoMap SftpConnect) (pathline : String) (p : String)
    (hpool : (mapKeys Client).Nodup) (hparse : ParseHostPath pathline = ([], p)) :
    (∀ h, h ∈ mapKeys (createTargetMap ParseHostPath Client [] pathline).1 ↔
        h ∈ mapKeys Client) ∧
    (∀ h c, mapGet Client h = some c →
        mapGet (createTargetMap ParseHostPath Client [] pathline).1 h =
          some { toSftpConnect := c, Path := [p] }) := by
  have key : ∀ h, mapGet (createTargetMap ParseHostPath Client [] pathline).1 h =
      match mapGet Client h with
      | some c => some { toSftpConnect := c, Path := [p] }
      | none => none := by
    intro h
    rw [createTargetMap_get ParseHostPath Client [] pathline hpool h, hparse]
    cases mapGet Client h with
    | none => simp [mapGet]
    | some c => simp [mapGet, resolvedEntry]
  refine ⟨?_, ?_⟩
  · intro h
    rw [mem_mapKeys_iff, mem_mapKeys_iff, key h]
    cases hg : mapGet Client h with
    | none => simp
    | some c => simp
  · intro h c hg
    rw [key h, hg]

/-- C1, at the pool `{h1, h2, h3}` and the input `h1,h2:/tmp`. -/
theorem createTargetMap_listed_hosts_witness :
    (mapKeys examplePool).Nodup ∧
    parseAs ["h1", "h2"] "/tmp" "h1,h2:/tmp" = (["h1", "h2"], "/tmp") ∧
    ["h1", "h2"] ≠ ([] : List String) ∧
    ((∀ h, h ∈ mapKeys (createTargetMap (parseAs ["h1", "h2"] "/tmp") examplePool []
          "h1,h2:/tmp").1 ↔ (h ∈ ["h1", "h2"] ∧ h ∈ mapKeys examplePool)) ∧
      (∀ h c, h ∈ ["h1", "h2"] → mapGet examplePool h = some c →
        mapGet (createTargetMap (parseAs ["h1", "h2"] "/tmp") examplePool [] "h1,h2:/tmp").1 h =
          some { toSftpConnect := c, Path := ["/tmp"] }) ∧
      (∀ h, ¬ (h ∈ ["h1", "h2"] ∧ h ∈ mapKeys examplePool) →
        mapGet (createTargetMap (parseAs ["h1", "h2"] "/tmp") examplePool [] "h1,h2:/tmp").1 h =
          none)) :=
  ⟨by decide, rfl, by decide,
    createTargetMap_listed_hosts (parseAs ["h1", "h2"] "/tmp") examplePool "h1,h2:/tmp"
      ["h1", "h2"] "/tmp" (by decide) rfl (by decide)⟩

/-- C2, at the pool `{h1, h2, h3}` and the input `/tmp`. -/
theorem createTargetMap_no_host_segment_witness :
    (mapKeys examplePool).Nodup ∧ parseAs [] "/tmp" "/tmp" = ([], "/tmp") ∧
    ((∀ h, h ∈ mapKeys (createTargetMap (parseAs [] "/tmp") examplePool [] "/tmp").1 ↔
        h ∈ mapKeys examplePool) ∧
      (∀ h c, mapGet examplePool h = some c →
        mapGet (createTargetMap (parseAs [] "/tmp") examplePool [] "/tmp").1 h =
          some { toSftpConnect := c, Path := ["/tmp"] })) :=
  ⟨by decide, rfl,
    createTargetMap_no_host_segment (parseAs [] "/tmp") examplePool "/tmp" "/tmp"
      (by decide) rfl⟩

/-- C3: resolution is additive. A host of the pool that the spec targets (the
spec lists it, or has no host segment) ends with its previous entry and the
new path appended to the previous path list, or, when it had no entry, with a
fresh entry holding only the new path; the entry of every other host is as
before. -/
theorem createTargetMap_additive (ParseHostPath : String → List String × String)
    (Client : GoMap SftpConnect) (src : GoMap TargetConnectMap) (pathline : String)
    (hosts : List String) (p : String)
    (hpool : (mapKeys Client).Nodup) (hparse : ParseHostPath pathline = (hosts, p)) :
    (∀ h c e, mapGet Client h = some c → (hosts = [] ∨ h ∈ hosts) → mapGet src h = some e →
        mapGet (createTargetMap ParseHostPath Client src pathline).1 h =
          some { e with Path := e.Path ++ [p] }) ∧
    (∀ h c, mapGet Client h = some c → (hosts = [] ∨ h ∈ hosts) → mapGet src h = none →
        mapGet (createTargetMap ParseHostPath Client src pathline).1 h =
          some { toSftpConnect := c, Path := [p] }) ∧
    (∀ h, ¬ (h ∈ mapKeys Client ∧ (hosts = [] ∨ h ∈ hosts)) →
        mapGet (createTargetMap ParseHostPath Client src pathline).1 h = mapGet src h) := by
  refine ⟨?_, ?_, ?_⟩
  · intro h c e hg ht hs
    rw [createTargetMap_get ParseHostPath Client src pathline hpool h, hparse, hg, hs]
    simp [ht, resolvedEntry]
  · intro h c hg ht hs
    rw [createTargetMap_get ParseHostPath Client src pathline hpool h, hparse, hg, hs]
    simp [ht, resolvedEntry]
  · intro h hnot
    rw [createTargetMap_get ParseHostPath Client src pathline hpool h, hparse]
    cases hg : mapGet Client h with
    | none => rfl
    | some c =>
      have hmem : h ∈ mapKeys Client := (mem_mapKeys_iff Client h).2 ⟨c, hg⟩
      have ht : ¬ (hosts = [] ∨ h ∈ hosts) := fun ht => hnot ⟨hmem, ht⟩
      simp [ht]

/-- C3, at the pool `{h1, h2, h3}`, the partially built map of `h1:/a` and
the next argument `h1,h2:/tmp`. -/
theorem createTargetMap_additive_witness :
    (mapKeys examplePool).Nodup ∧
    parseAs ["h1", "h2"] "/tmp" "h1,h2:/tmp" = (["h1", "h2"], "/tmp") ∧
    mapGet (createTargetMap (parseAs ["h1", "h2"] "/tmp") examplePool
        [("h1", { toSftpConnect := exampleSession 1 "/old", Path := ["/a", "/a"] })]
        "h1,h2:/tmp").1 "h1" =
      some { toSftpConnect := exampleSession 1 "/old", Path := ["/a", "/a", "/tmp"] } ∧
    mapGet (createTargetMap (parseAs ["h1", "h2"] "/tmp") examplePool
        [("h1", { toSftpConnect := exampleSession 1 "/old", Path := ["/a", "/a"] })]
        "h1,h2:/tmp").1 "h2" =
      some { toSftpConnect := exampleSession 2 "/srv", Path := ["/tmp"] } ∧
    mapGet (createTargetMap (parseAs ["h1", "h2"] "/tmp") examplePool
        [("h1", { toSftpConnect := exampleSession 1 "/old", Path := ["/a", "/a"] })]
        "h1,h2:/tmp").1 "h3" = none :=
  ⟨by decide, rfl,
    (createTargetMap_additive (parseAs ["h1", "h2"] "/tmp") examplePool
      [("h1", { toSftpConnect := exampleSession 1 "/old", Path := ["/a", "/a"] })]
      "h1,h2:/tmp" ["h1", "h2"] "/tmp" (by decide) rfl).1 "h1" (exampleSession 1 "./")
      { toSftpConnect := exampleSession 1 "/old", Path := ["/a", "/a"] }
      (by decide) (by decide) (by decide),
    (createTargetMap_additive (parseAs ["h1", "h2"] "/tmp") examplePool
      [("h1", { toSftpConnect := exampleSession 1 "/old", Path := ["/a", "/a"] })]
      "h1,h2:/tmp" ["h1", "h2"] "/tmp" (by decide) rfl).2.1 "h2" (exampleSession 2 "/srv")
      (by decide) (by decide) (by decide),
    (createTargetMap_additive (parseAs ["h1", "h2"] "/tmp") examplePool
      [("h1", { toSftpConnect := exampleSession 1 "/old", Path := ["/a", "/a"] })]
      "h1,h2:/tmp" ["h1", "h2"] "/tmp" (by decide) rfl).2.2 "h3" (by decide)⟩

/-- C4: with a non-empty host list and a target map whose keys are pool hosts,
every key of the result is a pool host; the diagnostic stream gets one
"host not found" line for each listed name that is not in the pool, in the
order of the list, and no such name becomes a key; every listed name that is
in the pool has the path appended to its path list. -/
theorem createTargetMap_unknown_hosts (ParseHostPath : String → List String × String)
    (Client : GoMap SftpConnect) (src : GoMap TargetConnectMap) (pathline : String)
    (hosts : List String) (p : String)
    (hpool : (mapKeys Client).Nodup) (hsrc : ∀ h ∈ mapKeys src, h ∈ mapKeys Client)
    (hparse : ParseHostPath pathline = (hosts, p)) (hne : hosts ≠ []) :
    (∀ h ∈ mapKeys (createTargetMap ParseHostPath Client src pathline).1, h ∈ mapKeys Client) ∧
    (createTargetMap ParseHostPath Client src pathline).2 =
      (hosts.filter (fun t => decide (t ∉ mapKeys Client))).map
        (fun t => "Error: host " ++ t ++ " not found.\n") ∧
    (∀ t ∈ hosts, t ∉ mapKeys Client →
        t ∉ mapKeys (createTargetMap ParseHostPath Client src pathline).1) ∧
    (∀ t c, t ∈ hosts → mapGet Client t = some c →
        ∃ e, mapGet (createTargetMap ParseHostPath Client src pathline).1 t = some e ∧
          e.Path = (match mapGet src t with | some e0 => e0.Path | none => []) ++ [p]) := by
  have hkeys : ∀ h ∈ mapKeys (createTargetMap ParseHostPath Client src pathline).1,
      h ∈ mapKeys Client := by
    intro h hmem
    by_contra hnot
    obtain ⟨e, he⟩ := (mem_mapKeys_iff _ h).1 hmem
    rw [createTargetMap_get ParseHostPath Client src pathline hpool h,
      (mapGet_eq_none_iff Client h).2 hnot] at he
    exact hnot (hsrc h ((mem_mapKeys_iff src h).2 ⟨e, he⟩))
  refine ⟨hkeys, ?_, ?_, ?_⟩
  · have hlen : ¬ hosts.length = 0 := by simpa [List.length_eq_zero] using hne
    simp only [createTargetMap, hparse, hlen, if_false]
    rw [checkExistServer_eq]
    congr 1
    apply List.filter_congr
    intro t _
    cases hc : Contains (mapKeys Client) t with
    | false =>
      have : t ∉ mapKeys Client := fun hm => by
        rw [(Contains_iff _ _).2 hm] at hc; cases hc
      simp [this]
    | true => simp [(Contains_iff _ _).1 hc]
  · intro t _ hnot hmem
    exact hnot (hkeys t hmem)
  · intro t c ht hg
    rw [createTargetMap_get ParseHostPath Client src pathline hpool t, hparse, hg]
    cases hs : mapGet src t with
    | none => simp [ht, resolvedEntry]
    | some e0 => simp [ht, resolvedEntry]

/-- C4, at the pool `{h1}` and the input `hx:/tmp`: the resolution from the
empty map is empty, with one diagnostic. -/
theorem createTargetMap_unknown_hosts_witness :
    (mapKeys examplePoolOne).Nodup ∧
    (∀ h ∈ mapKeys ([] : GoMap TargetConnectMap), h ∈ mapKeys examplePoolOne) ∧
    parseAs ["hx"] "/tmp" "hx:/tmp" = (["hx"], "/tmp") ∧ ["hx"] ≠ ([] : List String) ∧
    createTargetMap (parseAs ["hx"] "/tmp") examplePoolOne [] "hx:/tmp" =
      ([], ["Error: host hx not found.\n"]) ∧
    (createTargetMap (parseAs ["hx"] "/tmp") examplePoolOne [] "hx:/tmp").2 =
      (["hx"].filter (fun t => decide (t ∉ mapKeys examplePoolOne))).map
        (fun t => "Error: host " ++ t ++ " not found.\n") :=
  ⟨by decide, by decide, rfl, by decide, by decide,
    (createTargetMap_unknown_hosts (parseAs ["hx"] "/tmp") examplePoolOne [] "hx:/tmp"
      ["hx"] "/tmp" (by decide) (by decide) rfl (by decide)).2.1⟩

/-! ## Lemmas on the keepalive sweep -/

theorem foldl_keepaliveStep_get (alive : Nat → Option String) :
    ∀ (clients : GoMap SftpConnect) (acc : GoMap SftpConnect × List String × List Nat)
      (h : String), (mapKeys clients).Nodup →
      mapGet (clients.foldl (keepaliveStep alive) acc).1 h =
        match mapGet clients h with
        | some c => if alive c.SshConnect = none then some c else mapGet acc.1 h
        | none => mapGet acc.1 h := by
  intro clients
  induction clients with
  | nil => intro acc h _; simp [mapGet]
  | cons kc t ih =>
    intro acc h hnd
    obtain ⟨k, c⟩ := kc
    simp only [mapKeys, List.map_cons, List.nodup_cons] at hnd
    have hnd2 : (mapKeys t).Nodup := hnd.2
    rw [List.foldl_cons, ih _ h hnd2]
    by_cases hk : k = h
    · subst hk
      have hnone : mapGet t k = none := (mapGet_eq_none_iff t k).2 hnd.1
      simp only [hnone, mapGet, if_true]
      cases ha : alive c.SshConnect with
      | none => simp [keepaliveStep, ha, mapGet_mapSet_self]
      | some err => simp [keepaliveStep, ha]
    · have hne : h ≠ k := fun e => hk e.symm
      have hstep : mapGet (keepaliveStep alive acc (k, c)).1 h = mapGet acc.1 h := by
        cases ha : alive c.SshConnect with
        | none => simp [keepaliveStep, ha, mapGet_mapSet_ne _ _ _ _ hne]
        | some err => simp [keepaliveStep, ha]
      simp only [mapGet, hk, if_false, hstep]

theorem foldl_keepaliveStep_nodup (alive : Nat → Option String) :
    ∀ (clients : GoMap SftpConnect) (acc : GoMap SftpConnect × List String × List Nat),
      (mapKeys acc.1).Nodup →
      (mapKeys (clients.foldl (keepaliveStep alive) acc).1).Nodup := by
  intro clients
  induction clients with
  | nil => intro acc hacc; simpa using hacc
  | cons kc t ih =>
    intro acc hacc
    rw [List.foldl_cons]
    apply ih
    cases ha : alive kc.2.SshConnect with
    | none => simpa [keepaliveStep, ha] using mapKeys_mapSet_nodup acc.1 kc.1 kc.2 hacc
    | some err => simpa [keepaliveStep, ha] using hacc

theorem checkKeepalive_get (alive : Nat → Option String) (r : RunSftp)
    (hpool : (mapKeys r.Client).Nodup) (h : String) :
    mapGet (checkKeepalive alive r).r.Client h =
      match mapGet r.Client h with
      | some c => if alive c.SshConnect = none then some c else none
      | none => none := by
  simp only [checkKeepalive]
  rw [foldl_keepaliveStep_get alive r.Client _ h hpool]
  simp [mapGet]

theorem checkKeepalive_nodup (alive : Nat → Option String) (r : RunSftp) :
    (mapKeys (checkKeepalive alive r).r.Client).Nodup := by
  simp only [checkKeepalive]
  apply foldl_keepaliveStep_nodup
  simp [mapKeys]

/-- C5: after `checkKeepalive` the registry holds exactly the sessions whose
probe succeeded, under the same host label and as the same value (so with the
same current remote directory); it holds no host that was not in it before;
and a following resolution with no host segment, from the empty target map,
has exactly the surviving hosts as keys. -/
theorem checkKeepalive_registry (CheckClientAlive : Nat → Option String) (r : RunSftp)
    (hpool : (mapKeys r.Client).Nodup) :
    (∀ h c, mapGet (checkKeepalive CheckClientAlive r).r.Client h = some c ↔
        (mapGet r.Client h = some c ∧ CheckClientAlive c.SshConnect = none)) ∧
    (∀ h, h ∈ mapKeys (checkKeepalive CheckClientAlive r).r.Client → h ∈ mapKeys r.Client) ∧
    (mapKeys (checkKeepalive CheckClientAlive r).r.Client).Nodup ∧
    (∀ (ParseHostPath : String → List String × String) (pathline p : String),
        ParseHostPath pathline = ([], p) →
        ∀ h, h ∈ mapKeys (createTargetMap ParseHostPath
              (checkKeepalive CheckClientAlive r).r.Client [] pathline).1 ↔
          ∃ c, mapGet r.Client h = some c ∧ CheckClientAlive c.SshConnect = none) := by
  have hget : ∀ h c, mapGet (checkKeepalive CheckClientAlive r).r.Client h = some c ↔
      (mapGet r.Client h = some c ∧ CheckClientAlive c.SshConnect = none) := by
    intro h c
    rw [checkKeepalive_get CheckClientAlive r hpool h]
    cases hg : mapGet r.Client h with
    | none => simp
    | some c0 =>
      by_cases ha : CheckClientAlive c0.SshConnect = none
      · simp only [ha, if_true, Option.some.injEq]
        constructor
        · intro e; subst e; exact ⟨rfl, ha⟩
        · intro e; exact e.1
      · simp only [ha, if_false, Option.some.injEq]
        constructor
        · intro e; cases e
        · intro e; rw [← e.1] at e; exact absurd e.2 ha
  refine ⟨hget, ?_, checkKeepalive_nodup CheckClientAlive r, ?_⟩
  · intro h hmem
    obtain ⟨c, hc⟩ := (mem_mapKeys_iff _ h).1 hmem
    exact (mem_mapKeys_iff _ h).2 ⟨c, ((hget h c).1 hc).1⟩
  · intro ParseHostPath pathline p hparse h
    have hnd := checkKeepalive_nodup CheckClientAlive r
    have hkey : ∀ h, mapGet (createTargetMap ParseHostPath
        (checkKeepalive CheckClientAlive r).r.Client [] pathline).1 h =
        match mapGet (checkKeepalive CheckClientAlive r).r.Client h with
        | some c => some { toSftpConnect := c, Path := [p] }
        | none => none := by
      intro h
      rw [createTargetMap_get ParseHostPath _ [] pathline hnd h, hparse]
      cases mapGet (checkKeepalive CheckClientAlive r).r.Client h with
      | none => simp [mapGet]
      | some c => simp [mapGet, resolvedEntry]
    rw [mem_mapKeys_iff, hkey h]
    constructor
    · rintro ⟨e, he⟩
      cases hg : mapGet (checkKeepalive CheckClientAlive r).r.Client h with
      | none => rw [hg] at he; cases he
      | some c => exact ⟨c, (hget h c).1 hg⟩
    · rintro ⟨c, hc⟩
      rw [(hget h c).2 hc]
      exact ⟨_, rfl⟩

/-- C5, at the pool `{h1, h2, h3}` when the probe of `h2` fails: `h1` and `h3`
stay as they were and a resolution of `/tmp` has the keys `h1` and `h3`. -/
theorem checkKeepalive_registry_witness :
    (mapKeys examplePool).Nodup ∧
    mapGet (checkKeepalive (fun n => if n = 2 then some "EOF" else none)
        { SelectServer := [], Config := fun _ => 0, Client := examplePool,
          LocalUmask := [] }).r.Client "h3" = some (exampleSession 3 "./") ∧
    mapKeys (createTargetMap (parseAs [] "/tmp")
        (checkKeepalive (fun n => if n = 2 then some "EOF" else none)
          { SelectServer := [], Config := fun _ => 0, Client := examplePool,
            LocalUmask := [] }).r.Client [] "/tmp").1 = ["h1", "h3"] :=
  ⟨by decide,
    ((checkKeepalive_registry (fun n => if n = 2 then some "EOF" else none)
      { SelectServer := [], Config := fun _ => 0, Client := examplePool, LocalUmask := [] }
      (by decide)).1 "h3" (exampleSession 3 "./")).2 ⟨by decide, by decide⟩,
    by decide⟩

/-- C6: `exitChecker` sweeps (and closes the clients of dead sessions) exactly
when `breakline` is set; it ends the
process with status 1, having printed `Error: No valid connections`, exactly
when the registry is then empty, and it returns `false` without printing
exactly when the registry is then non-empty. -/
theorem exitChecker_exit_iff_empty (CheckClientAlive : Nat → Option String) (r : RunSftp)
    (input : String) (breakline : Bool) :
    (exitChecker CheckClientAlive r input breakline).r.Client =
        (if breakline then (checkKeepalive CheckClientAlive r).r.Client else r.Client) ∧
    (exitChecker CheckClientAlive r input breakline).closed =
        (if breakline then (checkKeepalive CheckClientAlive r).closed else []) ∧
    (((exitChecker CheckClientAlive r input breakline).control = Control.exited 1 ∧
        (exitChecker CheckClientAlive r input breakline).stdout =
          ["Error: No valid connections\n"]) ↔
      (exitChecker CheckClientAlive r input breakline).r.Client = []) ∧
    (((exitChecker CheckClientAlive r input breakline).control = Control.returned false ∧
        (exitChecker CheckClientAlive r input breakline).stdout = []) ↔
      (exitChecker CheckClientAlive r input breakline).r.Client ≠ []) := by
  cases breakline with
  | true =>
    by_cases he : (checkKeepalive CheckClientAlive r).r.Client = []
    · simp [exitChecker, he]
    · have hl : ¬ (checkKeepalive CheckClientAlive r).r.Client.length = 0 := by
        simpa [List.length_eq_zero] using he
      simp [exitChecker, he]
  | false =>
    by_cases he : r.Client = []
    · simp [exitChecker, he]
    · simp [exitChecker, he]

/-! ## Lemmas on pool construction -/

theorem connectStep_get_ne (C : String → Except String Nat) (N : Nat → Except String Nat)
    (r : RunSftp) (targets : List String) (acc : GoMap SftpConnect × List String)
    (server h : String) (hne : h ≠ server) :
    mapGet (connectStep C N r targets acc server).1 h = mapGet acc.1 h := by
  cases hC : C server with
  | error err => simp [connectStep, hC]
  | ok conn =>
    cases hN : N conn with
    | error err => simp [connectStep, hC, hN]
    | ok ftp => simp [connectStep, hC, hN, mapGet_mapSet_ne _ _ _ _ hne]

theorem connectStep_nodup (C : String → Except String Nat) (N : Nat → Except String Nat)
    (r : RunSftp) (targets : List String) (acc : GoMap SftpConnect × List String)
    (server : String) (hacc : (mapKeys acc.1).Nodup) :
    (mapKeys (connectStep C N r targets acc server).1).Nodup := by
  cases hC : C server with
  | error err => simpa [connectStep, hC] using hacc
  | ok conn =>
    cases hN : N conn with
    | error err => simpa [connectStep, hC, hN] using hacc
    | ok ftp => simpa [connectStep, hC, hN] using mapKeys_mapSet_nodup _ _ _ hacc

theorem foldl_connectStep_nodup (C : String → Except String Nat) (N : Nat → Except String Nat)
    (r : RunSftp) (targets : List String) :
    ∀ (ts : List String) (acc : GoMap SftpConnect × List String), (mapKeys acc.1).Nodup →
      (mapKeys (ts.foldl (connectStep C N r targets) acc).1).Nodup := by
  intro ts
  induction ts with
  | nil => intro acc hacc; simpa using hacc
  | cons t rest ih =>
    intro acc hacc
    rw [List.foldl_cons]
    exact ih _ (connectStep_nodup C N r targets acc t hacc)

theorem foldl_connectStep_get_ok (C : String → Except String Nat) (N : Nat → Except String Nat)
    (r : RunSftp) (targets : List String) (h : String) (conn ftp : Nat)
    (hC : C h = Except.ok conn) (hN : N conn = Except.ok ftp) :
    ∀ (ts : List String) (acc : GoMap SftpConnect × List String),
      mapGet (ts.foldl (connectStep C N r targets) acc).1 h =
        if h ∈ ts then
          some { SshConnect := conn, Connect := ftp,
                 Output := { Templete := oprompt, ServerList := targets, Conf := r.Config h,
                             AutoColor := true },
                 Pwd := "./" }
        else mapGet acc.1 h := by
  intro ts
  induction ts with
  | nil => intro acc; simp
  | cons t rest ih =>
    intro acc
    rw [List.foldl_cons, ih]
    by_cases hin : h ∈ rest
    · simp [hin]
    · by_cases ht : h = t
      · subst ht
        simp [hin, connectStep, hC, hN, mapGet_mapSet_self]
      · simp [hin, ht, connectStep_get_ne C N r targets acc t h ht]

theorem foldl_connectStep_get_fail (C : String → Except String Nat)
    (N : Nat → Except String Nat) (r : RunSftp) (targets : List String) (h : String)
    (hfail : ¬ ∃ conn ftp, C h = Except.ok conn ∧ N conn = Except.ok ftp) :
    ∀ (ts : List String) (acc : GoMap SftpConnect × List String),
      mapGet (ts.foldl (connectStep C N r targets) acc).1 h = mapGet acc.1 h := by
  intro ts
  induction ts with
  | nil => intro acc; rfl
  | cons t rest ih =>
    intro acc
    rw [List.foldl_cons, ih]
    by_cases ht : h = t
    · subst ht
      cases hC : C h with
      | error err => simp [connectStep, hC]
      | ok conn =>
        cases hN : N conn with
        | error err => simp [connectStep, hC, hN]
        | ok ftp => exact absurd ⟨conn, ftp, hC, hN⟩ hfail
    · exact connectStep_get_ne C N r targets acc t h ht

theorem foldl_connectStep_get_not_mem (C : String → Except String Nat)
    (N : Nat → Except String Nat) (r : RunSftp) (targets : List String) (h : String) :
    ∀ (ts : List String) (acc : GoMap SftpConnect × List String), h ∉ ts →
      mapGet (ts.foldl (connectStep C N r targets) acc).1 h = mapGet acc.1 h := by
  intro ts
  induction ts with
  | nil => intro acc _; rfl
  | cons t rest ih =>
    intro acc hnot
    have h1 : h ≠ t := fun e => hnot (by simp [e])
    have h2 : h ∉ rest := fun e => hnot (by simp [e])
    rw [List.foldl_cons, ih _ h2]
    exact connectStep_get_ne C N r targets acc t h h1

theorem createSftpConnect_umask (C : String → Except String Nat) (N : Nat → Except String Nat)
    (r : RunSftp) (u : List String) (targets : List String) :
    createSftpConnect C N { r with LocalUmask := u } targets = createSftpConnect C N r targets :=
  rfl

/-- C8: the registry built by `createSftpConnect` has exactly the requested
hosts for which the connection and the handshake both succeeded as keys; each
of them has the session made of its own connection and client, with current
remote directory `./`, whatever the outcome of the other hosts; every session
of the registry has current remote directory `./`. -/
theorem createSftpConnect_registry (CreateSshConnect : String → Except String Nat)
    (NewClient : Nat → Except String Nat) (r : RunSftp) (targets : List String) :
    (∀ h, h ∈ mapKeys (createSftpConnect CreateSshConnect NewClient r targets).1 ↔
        (h ∈ targets ∧
          ∃ conn ftp, CreateSshConnect h = Except.ok conn ∧ NewClient conn = Except.ok ftp)) ∧
    (∀ h conn ftp, h ∈ targets → CreateSshConnect h = Except.ok conn →
        NewClient conn = Except.ok ftp →
        mapGet (createSftpConnect CreateSshConnect NewClient r targets).1 h =
          some { SshConnect := conn, Connect := ftp,
                 Output := { Templete := oprompt, ServerList := targets, Conf := r.Config h,
                             AutoColor := true },
                 Pwd := "./" }) ∧
    (∀ h c, mapGet (createSftpConnect CreateSshConnect NewClient r targets).1 h = some c →
        c.Pwd = "./") ∧
    (mapKeys (createSftpConnect CreateSshConnect NewClient r targets).1).Nodup := by
  have hok : ∀ h conn ftp, h ∈ targets → CreateSshConnect h = Except.ok conn →
      NewClient conn = Except.ok ftp →
      mapGet (createSftpConnect CreateSshConnect NewClient r targets).1 h =
        some { SshConnect := conn, Connect := ftp,
               Output := { Templete := oprompt, ServerList := targets, Conf := r.Config h,
                           AutoColor := true },
               Pwd := "./" } := by
    intro h conn ftp hin hC hN
    simp only [createSftpConnect]
    rw [foldl_connectStep_get_ok CreateSshConnect NewClient r targets h conn ftp hC hN]
    simp [hin]
  have hnone : ∀ h, ¬ (h ∈ targets ∧
      ∃ conn ftp, CreateSshConnect h = Except.ok conn ∧ NewClient conn = Except.ok ftp) →
      mapGet (createSftpConnect CreateSshConnect NewClient r targets).1 h = none := by
    intro h hnot
    simp only [createSftpConnect]
    by_cases hin : h ∈ targets
    · rw [foldl_connectStep_get_fail CreateSshConnect NewClient r targets h
        (fun hex => hnot ⟨hin, hex⟩)]
      rfl
    · rw [foldl_connectStep_get_not_mem CreateSshConnect NewClient r targets h _ _ hin]
      rfl
  refine ⟨?_, hok, ?_, ?_⟩
  · intro h
    constructor
    · intro hmem
      by_contra hnot
      exact ((mapGet_eq_none_iff _ h).1 (hnone h hnot)) hmem
    · rintro ⟨hin, conn, ftp, hC, hN⟩
      exact (mem_mapKeys_iff _ h).2 ⟨_, hok h conn ftp hin hC hN⟩
  · intro h c hg
    by_cases hex : h ∈ targets ∧
        ∃ conn ftp, CreateSshConnect h = Except.ok conn ∧ NewClient conn = Except.ok ftp
    · obtain ⟨hin, conn, ftp, hC, hN⟩ := hex
      rw [hok h conn ftp hin hC hN] at hg
      cases hg
      rfl
    · rw [hnone h hex] at hg
      cases hg
  · simp only [createSftpConnect]
    apply foldl_connectStep_nodup
    simp [mapKeys]

/-- C7: the code at a failing input. When the only requested host cannot be
connected the registry is empty; `Start` writes the error and returns to its
caller: it does not end the process with a non-zero status. For the same
empty registry `exitChecker` ends the process with status 1. -/
theorem Start_empty_pool_returns :
    (createSftpConnect (fun _ => Except.error "refused") (fun n => Except.ok n)
        { SelectServer := ["h1"], Config := fun _ => 0, Client := [], LocalUmask := [] }
        ["h1"]).1 = [] ∧
    (Start (fun _ => Except.error "refused") (fun n => Except.ok n)
        (fun _ => Control.exited 0)
        { SelectServer := ["h1"], Config := fun _ => 0, Client := [], LocalUmask := [] }).stderr =
      ["h1 connect error: refused\n", "Error: No server to connect.\n"] ∧
    (Start (fun _ => Except.error "refused") (fun n => Except.ok n)
        (fun _ => Control.exited 0)
        { SelectServer := ["h1"], Config := fun _ => 0, Client := [],
          LocalUmask := [] }).control = Control.returned () ∧
    (exitChecker (fun _ => none)
        { SelectServer := ["h1"], Config := fun _ => 0, Client := [], LocalUmask := [] }
        "" false).control = Control.exited 1 ∧
    ¬ ∃ code, code ≠ 0 ∧
      (Start (fun _ => Except.error "refused") (fun n => Except.ok n)
        (fun _ => Control.exited 0)
        { SelectServer := ["h1"], Config := fun _ => 0, Client := [],
          LocalUmask := [] }).control = Control.exited code := by
  refine ⟨by decide, by decide, by decide, by decide, ?_⟩
  rintro ⟨code, _, hc⟩
  have hret : (Start (fun _ => Except.error "refused") (fun n => Except.ok n)
      (fun _ => Control.exited 0)
      { SelectServer := ["h1"], Config := fun _ => 0, Client := [],
        LocalUmask := [] }).control = Control.returned () := by decide
  rw [hret] at hc
  cases hc

/-- What `Start` does on an empty registry, for every input: it writes
`Error: No server to connect.` to the diagnostic stream after the connection
errors, starts neither the keepalive loop nor the interactive shell, and
returns to its caller. -/
theorem Start_empty_pool (CreateSshConnect : String → Except String Nat)
    (NewClient : Nat → Except String Nat) (shell : RunSftp → Control Unit) (r : RunSftp)
    (hempty : (createSftpConnect CreateSshConnect NewClient r r.SelectServer).1 = []) :
    (Start CreateSshConnect NewClient shell r).stderr =
        (createSftpConnect CreateSshConnect NewClient r r.SelectServer).2 ++
          ["Error: No server to connect.\n"] ∧
    (Start CreateSshConnect NewClient shell r).keepaliveStarted = false ∧
    (Start CreateSshConnect NewClient shell r).shellStarted = false ∧
    (Start CreateSshConnect NewClient shell r).control = Control.returned () ∧
    (Start CreateSshConnect NewClient shell r).r.Client = [] := by
  simp [Start, createSftpConnect_umask, hempty]

/-- The empty registry when the only requested host cannot be connected: the
interactive shell is not started. -/
theorem Start_empty_pool_witness :
    (createSftpConnect (fun _ => Except.error "refused") (fun n => Except.ok n)
        { SelectServer := ["h1"], Config := fun _ => 0, Client := [], LocalUmask := [] }
        ["h1"]).1 = [] ∧
    (Start (fun _ => Except.error "refused") (fun n => Except.ok n)
        (fun _ => Control.exited 0)
        { SelectServer := ["h1"], Config := fun _ => 0, Client := [],
          LocalUmask := [] }).shellStarted = false :=
  ⟨by decide,
    (Start_empty_pool (fun _ => Except.error "refused") (fun n => Except.ok n)
      (fun _ => Control.exited 0)
      { SelectServer := ["h1"], Config := fun _ => 0, Client := [], LocalUmask := [] }
      (by decide)).2.2.1⟩

/-! ## Lemmas on the remote listing -/

theorem rgxMatchString_iff (name : String) :
    rgxMatchString name = true ↔ name.data.head? = some '.' := by
  unfold rgxMatchString
  cases hd : name.data with
  | nil => simp
  | cons ch rest =>
    by_cases hc : ch = '.'
    · subst hc; simp
    · simp only [List.head?_cons, Option.some.injEq, hc, iff_false]
      split
      · rename_i heq
        simp only [List.cons.injEq] at heq
        exact absurd heq.1 hc
      · simp

theorem hiddenDelete_eq (c : String → Bool) :
    ∀ (files hddata : List sftpFileInfo),
      hiddenDelete c hddata files =
        hddata ++ (if c "a" then files
          else files.filter (fun f => decide (f.Name.data.head? ≠ some '.'))) := by
  intro files
  induction files with
  | nil => intro hddata; cases c "a" <;> simp [hiddenDelete]
  | cons f rest ih =>
    intro hddata
    cases ha : c "a" with
    | true => simp [hiddenDelete, ha, ih]
    | false =>
      cases hm : rgxMatchString f.Name with
      | true =>
        have hh : f.Name.data.head? = some '.' := (rgxMatchString_iff _).1 hm
        simp [hiddenDelete, ha, hm, ih, hh]
      | false =>
        have hh : ¬ f.Name.data.head? = some '.' := fun e => by
          rw [(rgxMatchString_iff _).2 e] at hm; cases hm
        simp [hiddenDelete, ha, hm, ih, hh]

theorem getRemoteLsData_client (env : LsEnv) (client : TargetConnectMap)
    (hok : (getRemoteLsData env client).err = none) :
    (getRemoteLsData env client).lsdata.Client = some client := by
  unfold getRemoteLsData at hok ⊢
  cases h1 : (env.sftp client.Connect).Open "/etc/passwd" with
  | error e => simp [h1] at hok
  | ok passwdFile =>
    cases h2 : (env.sftp client.Connect).ReadAll passwdFile with
    | error e => simp [h1, h2] at hok
    | ok passwd =>
      cases h3 : (env.sftp client.Connect).Open "/etc/group" with
      | error e => simp [h1, h2, h3] at hok
      | ok groupFile =>
        cases h4 : (env.sftp client.Connect).ReadAll groupFile with
        | error e => simp [h1, h2, h3, h4] at hok
        | ok groups => simp [h1, h2, h3, h4]

theorem lsHost_data_iff (env : LsEnv) (c : String → Bool) (client : TargetConnectMap) :
    (lsHost env c client).data ≠ none ↔
      (getRemoteLsData env
        (if client.Path.length > 0 then client
          else { client with Path := client.Path ++ [client.Pwd] })).err = none := by
  unfold lsHost
  cases he : (getRemoteLsData env
        (if client.Path.length > 0 then client
          else { client with Path := client.Path ++ [client.Pwd] })).err with
  | none => simp [he]
  | some err => simp [he]

theorem lsHost_data_client (env : LsEnv) (c : String → Bool) (client : TargetConnectMap)
    (data : sftpLs) (hd : (lsHost env c client).data = some data) :
    ∃ cl, data.Client = some cl ∧ cl.Output = client.Output := by
  unfold lsHost at hd
  cases he : (getRemoteLsData env
        (if client.Path.length > 0 then client
          else { client with Path := client.Path ++ [client.Pwd] })).err with
  | some err => simp [he] at hd
  | none =>
    simp only [he, Option.some.injEq] at hd
    have hcl := getRemoteLsData_client env _ he
    refine ⟨if client.Path.length > 0 then client
        else { client with Path := client.Path ++ [client.Pwd] }, ?_, ?_⟩
    · rw [← hd]; exact hcl
    · by_cases hp : client.Path.length > 0
      · simp [hp]
      · simp [hp]

theorem lsFetch_get (env : LsEnv) (c : String → Bool) :
    ∀ (clients : GoMap TargetConnectMap) (acc : GoMap sftpLs × List (String × List String))
      (h : String), (mapKeys clients).Nodup →
      mapGet (lsFetch env c acc clients).1 h =
        match mapGet clients h with
        | some cl =>
          (match (lsHost env c cl).data with
           | some data => some data
           | none => mapGet acc.1 h)
        | none => mapGet acc.1 h := by
  intro clients
  induction clients with
  | nil => intro acc h _; simp [lsFetch, mapGet]
  | cons kc t ih =>
    intro acc h hnd
    obtain ⟨k, cl⟩ := kc
    simp only [mapKeys, List.map_cons, List.nodup_cons] at hnd
    have hnd2 : (mapKeys t).Nodup := hnd.2
    simp only [lsFetch]
    rw [ih _ h hnd2]
    by_cases hk : k = h
    · subst hk
      have hnone : mapGet t k = none := (mapGet_eq_none_iff t k).2 hnd.1
      simp only [hnone, mapGet, if_true]
      cases hdata : (lsHost env c cl).data with
      | none => rfl
      | some data => simp [mapGet_mapSet_self]
    · have hne : h ≠ k := fun e => hk e.symm
      simp only [mapGet, hk, if_false]
      cases hdata : (lsHost env c cl).data with
      | none => rfl
      | some data => simp [mapGet_mapSet_ne _ _ _ _ hne]

theorem lsFetch_nodup (env : LsEnv) (c : String → Bool) :
    ∀ (clients : GoMap TargetConnectMap) (acc : GoMap sftpLs × List (String × List String)),
      (mapKeys acc.1).Nodup → (mapKeys (lsFetch env c acc clients).1).Nodup := by
  intro clients
  induction clients with
  | nil => intro acc hacc; simpa [lsFetch] using hacc
  | cons kc t ih =>
    intro acc hacc
    obtain ⟨k, cl⟩ := kc
    simp only [lsFetch]
    apply ih
    cases hdata : (lsHost env c cl).data with
    | none => simpa using hacc
    | some data => simpa using mapKeys_mapSet_nodup acc.1 k data hacc

theorem mapGet_of_mem {V : Type} (m : GoMap V) (k : String) (v : V)
    (hnd : (mapKeys m).Nodup) (hmem : (k, v) ∈ m) : mapGet m k = some v := by
  induction m with
  | nil => cases hmem
  | cons kv t ih =>
    obtain ⟨k', v'⟩ := kv
    simp only [mapKeys, List.map_cons, List.nodup_cons] at hnd
    rcases List.mem_cons.1 hmem with heq | htail
    · cases heq
      simp [mapGet]
    · have hk : k' ≠ k := by
        intro e
        subst e
        exact hnd.1 (List.mem_map.2 ⟨(k', v), htail, rfl⟩)
      simp only [mapGet, hk, if_false]
      exact ih hnd.2 htail

theorem mem_of_mapGet {V : Type} (m : GoMap V) (k : String) (v : V)
    (hg : mapGet m k = some v) : (k, v) ∈ m := by
  induction m with
  | nil => cases hg
  | cons kv t ih =>
    obtain ⟨k', v'⟩ := kv
    by_cases hk : k' = k
    · subst hk
      simp only [mapGet, if_true, Option.some.injEq] at hg
      subst hg
      exact List.mem_cons_self _ _
    · simp only [mapGet, hk, if_false] at hg
      exact List.mem_cons_of_mem _ (ih hg)

theorem lsLongFiles_mem (env : LsEnv) (c : String → Bool) (count w : Nat) (prompt : String)
    (data : sftpLs) (row : String) :
    ∀ (files : List sftpFileInfo) (rows : List String),
      row ∈ lsLongFiles env c count w prompt data rows files ↔
        (row ∈ rows ∨ ∃ f ∈ files,
          row = if count = 1 then rowPlain w (lsRowData env c data f)
                else rowTagged prompt w (lsRowData env c data f)) := by
  intro files
  induction files with
  | nil => intro rows; simp [lsLongFiles]
  | cons f rest ih =>
    intro rows
    have step : lsLongFiles env c count w prompt data rows (f :: rest) =
        lsLongFiles env c count w prompt data
          (rows ++ [if count = 1 then rowPlain w (lsRowData env c data f)
                    else rowTagged prompt w (lsRowData env c data f)]) rest := by
      by_cases hc : count = 1
      · simp [lsLongFiles, hc]
      · simp [lsLongFiles, hc]
    rw [step, ih]
    simp only [List.mem_append, List.mem_singleton, List.mem_cons, exists_eq_or_imp]
    tauto

theorem lsLongHosts_mem (env : LsEnv) (c : String → Bool) (count w : Nat) (row : String) :
    ∀ (lsdata : GoMap sftpLs) (rows : List String),
      (∀ sd ∈ lsdata, sd.2.Client ≠ none) →
      (row ∈ lsLongHosts env c count w rows lsdata ↔
        (row ∈ rows ∨ ∃ sd ∈ lsdata, ∃ cl, sd.2.Client = some cl ∧ ∃ f ∈ sd.2.Files,
          row = if count = 1 then rowPlain w (lsRowData env c sd.2 f)
                else rowTagged (env.GetPrompt cl.Output sd.1) w (lsRowData env c sd.2 f))) := by
  intro lsdata
  induction lsdata with
  | nil => intro rows _; simp [lsLongHosts]
  | cons sd rest ih =>
    intro rows hall
    obtain ⟨server, data⟩ := sd
    have hrest : ∀ sd ∈ rest, sd.2.Client ≠ none :=
      fun sd hsd => hall sd (List.mem_cons_of_mem _ hsd)
    cases hcl : data.Client with
    | none => exact absurd hcl (hall (server, data) (List.mem_cons_self _ _))
    | some cl =>
      have step : lsLongHosts env c count w rows ((server, data) :: rest) =
          lsLongHosts env c count w
            (lsLongFiles env c count w (env.GetPrompt cl.Output server) data rows data.Files)
            rest := by
        simp [lsLongHosts, hcl]
      rw [step, ih _ hrest, lsLongFiles_mem]
      constructor
      · rintro ((hr | ⟨f, hf, hrow⟩) | ⟨sd, hsd, cl2, hcl2, f, hf, hrow⟩)
        · exact Or.inl hr
        · exact Or.inr ⟨(server, data), List.mem_cons_self _ _, cl, hcl, f, hf, hrow⟩
        · exact Or.inr ⟨sd, List.mem_cons_of_mem _ hsd, cl2, hcl2, f, hf, hrow⟩
      · rintro (hr | ⟨sd, hsd, cl2, hcl2, f, hf, hrow⟩)
        · exact Or.inl (Or.inl hr)
        · rcases List.mem_cons.1 hsd with heq | htail
          · subst heq
            have hsame : cl2 = cl := by
              have h2 : some cl2 = some cl := hcl2.symm.trans hcl
              exact Option.some.inj h2
            subst hsame
            exact Or.inl (Or.inr ⟨f, hf, hrow⟩)
          · exact Or.inr ⟨sd, htail, cl2, hcl2, f, hf, hrow⟩

theorem rowTagged_eq (prompt : String) (w : Nat) (d : sftpLsData) :
    rowTagged prompt w d = prompt ++ "\t" ++ rowPlain w d := by
  simp [rowTagged, rowPlain, String.append_assoc]

theorem lsHost_ok (env : LsEnv) (c : String → Bool) (client : TargetConnectMap)
    (got : LsDataResult)
    (hgot : getRemoteLsData env
      (if client.Path.length > 0 then client
        else { client with Path := client.Path ++ [client.Pwd] }) = got)
    (herr : got.err = none) :
    (lsHost env c client).handedToSort = some (hiddenDelete c [] got.lsdata.Files) ∧
    (lsHost env c client).data =
      some { got.lsdata with Files := env.SortLsData c (hiddenDelete c [] got.lsdata.Files) } := by
  simp [lsHost, hgot, herr]

/-- C9: for a targeted host whose entries were fetched, the list handed to
`SortLsData` is the fetched list when `a` is set and otherwise the fetched
entries whose name does not begin with a dot, in fetched order; it is a
subsequence of the fetched list; and the value stored for the host, which the
output is made from, has as its files the result of `SortLsData` on that
list. -/
theorem executeRemoteLs_hidden_filter (env : LsEnv) (c : String → Bool)
    (clients : GoMap TargetConnectMap) (server : String) (client : TargetConnectMap)
    (got : LsDataResult) (hnd : (mapKeys clients).Nodup)
    (hcl : mapGet clients server = some client)
    (hgot : getRemoteLsData env
      (if client.Path.length > 0 then client
        else { client with Path := client.Path ++ [client.Pwd] }) = got)
    (herr : got.err = none) :
    (lsHost env c client).handedToSort =
        some (if c "a" then got.lsdata.Files
          else got.lsdata.Files.filter (fun f => decide (f.Name.data.head? ≠ some '.'))) ∧
    List.Sublist
        (if c "a" then got.lsdata.Files
          else got.lsdata.Files.filter (fun f => decide (f.Name.data.head? ≠ some '.')))
        got.lsdata.Files ∧
    mapGet (lsFetch env c ([], []) clients).1 server =
        some { got.lsdata with
          Files := env.SortLsData c
            (if c "a" then got.lsdata.Files
              else got.lsdata.Files.filter (fun f => decide (f.Name.data.head? ≠ some '.'))) } := by
  have hh := lsHost_ok env c client got hgot herr
  have hd : hiddenDelete c [] got.lsdata.Files =
      (if c "a" then got.lsdata.Files
        else got.lsdata.Files.filter (fun f => decide (f.Name.data.head? ≠ some '.'))) := by
    rw [hiddenDelete_eq]; simp
  rw [hd] at hh
  refine ⟨hh.1, ?_, ?_⟩
  · cases c "a" with
    | true => simp
    | false => simp
  · rw [lsFetch_get env c clients _ server hnd, hcl]
    simp only [hh.2]

/-- C9, in the example world of the listing, where the fetched entries of `h1`
are `f`, `.profile`, `srv` and `f`: without `a` the list handed to the sort is
`f`, `srv`, `f`, and with `a` it is all four entries. -/
theorem executeRemoteLs_hidden_filter_witness :
    (mapKeys [("h1", exampleTreeClient)]).Nodup ∧
    mapGet [("h1", exampleTreeClient)] "h1" = some exampleTreeClient ∧
    (getRemoteLsData exampleTreeEnv exampleTreeClient).err = none ∧
    (getRemoteLsData exampleTreeEnv exampleTreeClient).lsdata.Files.map (fun f => f.Name) =
      ["f", ".profile", "srv", "f"] ∧
    (lsHost exampleTreeEnv flagsLong exampleTreeClient).handedToSort.map
        (fun files => files.map (fun f => f.Name)) = some ["f", "srv", "f"] ∧
    (lsHost exampleTreeEnv flagsAll exampleTreeClient).handedToSort.map
        (fun files => files.map (fun f => f.Name)) = some ["f", ".profile", "srv", "f"] ∧
    (lsHost exampleTreeEnv flagsLong exampleTreeClient).handedToSort =
      some (if flagsLong "a" then
          (getRemoteLsData exampleTreeEnv exampleTreeClient).lsdata.Files
        else
          (getRemoteLsData exampleTreeEnv exampleTreeClient).lsdata.Files.filter
            (fun f => decide (f.Name.data.head? ≠ some '.'))) ∧
    (lsHost exampleTreeEnv flagsAll exampleTreeClient).handedToSort =
      some (if flagsAll "a" then
          (getRemoteLsData exampleTreeEnv exampleTreeClient).lsdata.Files
        else
          (getRemoteLsData exampleTreeEnv exampleTreeClient).lsdata.Files.filter
            (fun f => decide (f.Name.data.head? ≠ some '.'))) :=
  ⟨by decide, by decide, by decide, by decide, by decide, by decide,
    (executeRemoteLs_hidden_filter exampleTreeEnv flagsLong [("h1", exampleTreeClient)] "h1"
      exampleTreeClient (getRemoteLsData exampleTreeEnv exampleTreeClient)
      (by decide) (by decide) rfl (by decide)).1,
    (executeRemoteLs_hidden_filter exampleTreeEnv flagsAll [("h1", exampleTreeClient)] "h1"
      exampleTreeClient (getRemoteLsData exampleTreeEnv exampleTreeClient)
      (by decide) (by decide) rfl (by decide)).1⟩

/-- C10 as stated fails: two hosts are targeted, the listing data of `h2`
cannot be fetched, and the row of `h1` is printed without the tag of `h1`. -/
theorem executeRemoteLs_two_hosts_untagged :
    (mapKeys exampleTargets).length = 2 ∧
    (executeRemoteLs exampleEnv flagsLong exampleTargets).stdout =
      ["-rw-r--r--\troot\troot\t5\t1970 01-01 00:00:00\t/tmp/f\n"] ∧
    exampleEnv.GetPrompt (exampleSession 1 "./").Output "h1" = "h1 :: " ∧
    ¬ ("h1 :: ".data <+: "-rw-r--r--\troot\troot\t5\t1970 01-01 00:00:00\t/tmp/f\n".data) := by
  refine ⟨by decide, by decide, by decide, by decide⟩

/-- C10, amended: in the long format the hosts that have rows are the targeted
hosts whose listing data was fetched without error; every printed row is the
row of one file of one such host, and every such file has its row; when the
number of these hosts is one the row is printed without the output tag, and
otherwise it is the host's output tag, a tab and that same row. If no targeted
host fails, the number of these hosts is the number of targeted hosts. -/
theorem executeRemoteLs_long_tag (env : LsEnv) (c : String → Bool)
    (clients : GoMap TargetConnectMap) (hl : c "l" = true)
    (hnd : (mapKeys clients).Nodup) :
    (∀ server, server ∈ mapKeys (lsFetch env c ([], []) clients).1 ↔
        ∃ client, mapGet clients server = some client ∧
          (getRemoteLsData env
            (if client.Path.length > 0 then client
              else { client with Path := client.Path ++ [client.Pwd] })).err = none) ∧
    (mapKeys (lsFetch env c ([], []) clients).1).Nodup ∧
    (∀ row, row ∈ (executeRemoteLs env c clients).stdout ↔
        ∃ server client data f, mapGet clients server = some client ∧
          mapGet (lsFetch env c ([], []) clients).1 server = some data ∧ f ∈ data.Files ∧
          row =
            if (lsFetch env c ([], []) clients).1.length = 1 then
              rowPlain (maxSizeWidthOf env c 0 (lsFetch env c ([], []) clients).1)
                (lsRowData env c data f)
            else
              env.GetPrompt client.Output server ++ "\t" ++
                rowPlain (maxSizeWidthOf env c 0 (lsFetch env c ([], []) clients).1)
                  (lsRowData env c data f)) ∧
    ((∀ server client, mapGet clients server = some client →
          (getRemoteLsData env
            (if client.Path.length > 0 then client
              else { client with Path := client.Path ++ [client.Pwd] })).err = none) →
      (lsFetch env c ([], []) clients).1.length = clients.length) := by
  have hget : ∀ server, mapGet (lsFetch env c ([], []) clients).1 server =
      match mapGet clients server with
      | some cl => (lsHost env c cl).data
      | none => none := by
    intro server
    rw [lsFetch_get env c clients _ server hnd]
    cases mapGet clients server with
    | none => simp [mapGet]
    | some cl =>
      cases hd : (lsHost env c cl).data with
      | none => simp [hd, mapGet]
      | some data => simp [hd]
  have hkeys : ∀ server, server ∈ mapKeys (lsFetch env c ([], []) clients).1 ↔
      ∃ client, mapGet clients server = some client ∧
        (getRemoteLsData env
          (if client.Path.length > 0 then client
            else { client with Path := client.Path ++ [client.Pwd] })).err = none := by
    intro server
    rw [mem_mapKeys_iff, hget server]
    constructor
    · rintro ⟨data, hdata⟩
      cases hcl : mapGet clients server with
      | none => simp [hcl] at hdata
      | some cl =>
        simp only [hcl] at hdata
        refine ⟨cl, rfl, (lsHost_data_iff env c cl).1 ?_⟩
        rw [hdata]; simp
    · rintro ⟨cl, hcl, herr⟩
      simp only [hcl]
      have hne := (lsHost_data_iff env c cl).2 herr
      cases hd : (lsHost env c cl).data with
      | none => exact absurd hd hne
      | some data => exact ⟨data, rfl⟩
  have hnodup : (mapKeys (lsFetch env c ([], []) clients).1).Nodup := by
    apply lsFetch_nodup
    simp [mapKeys]
  have hclient : ∀ sd ∈ (lsFetch env c ([], []) clients).1, ∃ client cl,
      mapGet clients sd.1 = some client ∧ sd.2.Client = some cl ∧
        cl.Output = client.Output := by
    intro sd hsd
    have hg := mapGet_of_mem _ sd.1 sd.2 hnodup hsd
    rw [hget sd.1] at hg
    cases hcl : mapGet clients sd.1 with
    | none => simp [hcl] at hg
    | some client =>
      simp only [hcl] at hg
      obtain ⟨cl, h1, h2⟩ := lsHost_data_client env c client sd.2 hg
      exact ⟨client, cl, rfl, h1, h2⟩
  refine ⟨hkeys, hnodup, ?_, ?_⟩
  · intro row
    have hall : ∀ sd ∈ (lsFetch env c ([], []) clients).1, sd.2.Client ≠ none := by
      intro sd hsd
      obtain ⟨_, cl, _, h1, _⟩ := hclient sd hsd
      rw [h1]; simp
    simp only [executeRemoteLs, hl, if_true]
    rw [lsLongHosts_mem env c _ _ row _ [] hall]
    constructor
    · rintro (hr | ⟨sd, hsd, cl, hcl, f, hf, hrow⟩)
      · cases hr
      · obtain ⟨client, cl2, hc1, hc2, hc3⟩ := hclient sd hsd
        have hsame : cl2 = cl := Option.some.inj (hc2.symm.trans hcl)
        subst hsame
        refine ⟨sd.1, client, sd.2, f, hc1, mapGet_of_mem _ sd.1 sd.2 hnodup hsd, hf, ?_⟩
        rw [hrow, rowTagged_eq, hc3]
    · rintro ⟨server, client, data, f, hc1, hdata, hf, hrow⟩
      have hsd := mem_of_mapGet _ server data hdata
      obtain ⟨client2, cl, hc2, hc3, hc4⟩ := hclient (server, data) hsd
      have hsame : client2 = client := Option.some.inj (hc2.symm.trans hc1)
      subst hsame
      refine Or.inr ⟨(server, data), hsd, cl, hc3, f, hf, ?_⟩
      rw [hrow, rowTagged_eq, hc4]
  · intro hallok
    have hperm : List.Perm (mapKeys (lsFetch env c ([], []) clients).1) (mapKeys clients) := by
      rw [List.perm_ext_iff_of_nodup hnodup hnd]
      intro server
      rw [hkeys server, mem_mapKeys_iff]
      constructor
      · rintro ⟨client, hcl, _⟩; exact ⟨client, hcl⟩
      · rintro ⟨client, hcl⟩; exact ⟨client, hcl, hallok server client hcl⟩
    have hlen := hperm.length_eq
    simpa [mapKeys] using hlen

/-- C10, amended, at the target set `{h1, h2}` of the example world: only `h1`
has listing data. -/
theorem executeRemoteLs_long_tag_witness :
    flagsLong "l" = true ∧ (mapKeys exampleTargets).Nodup ∧
    (mapKeys (lsFetch exampleEnv flagsLong ([], []) exampleTargets).1).Nodup ∧
    mapKeys (lsFetch exampleEnv flagsLong ([], []) exampleTargets).1 = ["h1"] :=
  ⟨by decide, by decide,
    (executeRemoteLs_long_tag exampleEnv flagsLong exampleTargets (by decide) (by decide)).2.1,
    by decide⟩

/-! ## Lemmas on the size column -/

theorem maxSizeWidthFiles_ge (env : LsEnv) (c : String → Bool) :
    ∀ (files : List sftpFileInfo) (w : Nat), w ≤ maxSizeWidthFiles env c w files := by
  intro files
  induction files with
  | nil => intro w; simp [maxSizeWidthFiles]
  | cons f rest ih =>
    intro w
    by_cases h : w < (sizeString env c (toUint64 f.Size)).utf8ByteSize
    · simp only [maxSizeWidthFiles, h, if_true]
      exact le_trans (Nat.le_of_lt h) (ih _)
    · simp only [maxSizeWidthFiles, h, if_false]
      exact ih _

theorem maxSizeWidthFiles_bound (env : LsEnv) (c : String → Bool) :
    ∀ (files : List sftpFileInfo) (w : Nat), ∀ f ∈ files,
      (sizeString env c (toUint64 f.Size)).utf8ByteSize ≤ maxSizeWidthFiles env c w files := by
  intro files
  induction files with
  | nil => intro w f hf; cases hf
  | cons g rest ih =>
    intro w f hf
    rcases List.mem_cons.1 hf with heq | htail
    · subst heq
      by_cases h : w < (sizeString env c (toUint64 f.Size)).utf8ByteSize
      · simp only [maxSizeWidthFiles, h, if_true]
        exact maxSizeWidthFiles_ge env c rest _
      · simp only [maxSizeWidthFiles, h, if_false]
        exact le_trans (Nat.le_of_not_lt h) (maxSizeWidthFiles_ge env c rest _)
    · by_cases h : w < (sizeString env c (toUint64 g.Size)).utf8ByteSize
      · simp only [maxSizeWidthFiles, h, if_true]
        exact ih _ f htail
      · simp only [maxSizeWidthFiles, h, if_false]
        exact ih _ f htail

theorem maxSizeWidthFiles_attained (env : LsEnv) (c : String → Bool) :
    ∀ (files : List sftpFileInfo) (w : Nat),
      maxSizeWidthFiles env c w files = w ∨
        ∃ f ∈ files,
          (sizeString env c (toUint64 f.Size)).utf8ByteSize = maxSizeWidthFiles env c w files := by
  intro files
  induction files with
  | nil => intro w; left; simp [maxSizeWidthFiles]
  | cons g rest ih =>
    intro w
    by_cases h : w < (sizeString env c (toUint64 g.Size)).utf8ByteSize
    · simp only [maxSizeWidthFiles, h, if_true]
      rcases ih (sizeString env c (toUint64 g.Size)).utf8ByteSize with heq | ⟨f, hf, hfe⟩
      · right
        exact ⟨g, List.mem_cons_self _ _, heq.symm⟩
      · right
        exact ⟨f, List.mem_cons_of_mem _ hf, hfe⟩
    · simp only [maxSizeWidthFiles, h, if_false]
      rcases ih w with heq | ⟨f, hf, hfe⟩
      · left; exact heq
      · right
        exact ⟨f, List.mem_cons_of_mem _ hf, hfe⟩

theorem maxSizeWidthOf_ge (env : LsEnv) (c : String → Bool) :
    ∀ (lsdata : GoMap sftpLs) (w : Nat), w ≤ maxSizeWidthOf env c w lsdata := by
  intro lsdata
  induction lsdata with
  | nil => intro w; simp [maxSizeWidthOf]
  | cons sd rest ih =>
    intro w
    obtain ⟨server, data⟩ := sd
    simp only [maxSizeWidthOf]
    exact le_trans (maxSizeWidthFiles_ge env c data.Files w) (ih _)

theorem maxSizeWidthOf_bound (env : LsEnv) (c : String → Bool) :
    ∀ (lsdata : GoMap sftpLs) (w : Nat), ∀ sd ∈ lsdata, ∀ f ∈ sd.2.Files,
      (sizeString env c (toUint64 f.Size)).utf8ByteSize ≤ maxSizeWidthOf env c w lsdata := by
  intro lsdata
  induction lsdata with
  | nil => intro w sd hsd; cases hsd
  | cons sd0 rest ih =>
    intro w sd hsd f hf
    obtain ⟨server, data⟩ := sd0
    simp only [maxSizeWidthOf]
    rcases List.mem_cons.1 hsd with heq | htail
    · subst heq
      exact le_trans (maxSizeWidthFiles_bound env c data.Files w f hf) (maxSizeWidthOf_ge env c rest _)
    · exact ih _ sd htail f hf

theorem maxSizeWidthOf_attained (env : LsEnv) (c : String → Bool) :
    ∀ (lsdata : GoMap sftpLs) (w : Nat),
      maxSizeWidthOf env c w lsdata = w ∨
        ∃ sd ∈ lsdata, ∃ f ∈ sd.2.Files,
          (sizeString env c (toUint64 f.Size)).utf8ByteSize = maxSizeWidthOf env c w lsdata := by
  intro lsdata
  induction lsdata with
  | nil => intro w; left; simp [maxSizeWidthOf]
  | cons sd0 rest ih =>
    intro w
    obtain ⟨server, data⟩ := sd0
    simp only [maxSizeWidthOf]
    rcases ih (maxSizeWidthFiles env c w data.Files) with heq | ⟨sd, hsd, f, hf, hfe⟩
    · rcases maxSizeWidthFiles_attained env c data.Files w with heq2 | ⟨f, hf, hfe⟩
      · left; rw [heq, heq2]
      · right
        exact ⟨(server, data), List.mem_cons_self _ _, f, hf, by rw [heq]; exact hfe⟩
    · right
      exact ⟨sd, List.mem_cons_of_mem _ hsd, f, hf, hfe⟩

theorem utf8ByteSize_go_ge (cs : List Char) : cs.length ≤ String.utf8ByteSize.go cs := by
  induction cs with
  | nil => simp [String.utf8ByteSize.go]
  | cons ch rest ih =>
    simp only [String.utf8ByteSize.go, List.length_cons]
    have hpos : 0 < ch.utf8Size := Char.utf8Size_pos ch
    omega

theorem length_le_utf8ByteSize (s : String) : s.length ≤ s.utf8ByteSize := by
  cases s with
  | mk cs => exact utf8ByteSize_go_ge cs

theorem padLeft_length (width : Nat) (s : String) (h : s.length ≤ width) :
    (padLeft width s).length = width := by
  have h1 : (padLeft width s).length =
      (List.replicate (width - s.length) ' ').length + s.length := by
    unfold padLeft
    rw [String.length_append]
    rfl
  rw [h1, List.length_replicate]
  omega

theorem sizeString_toUint64 (env : LsEnv) (c : String → Bool) (x : Int) :
    sizeString env c (toUint64 x) =
      if c "h" then env.humanizeBytes (x % 18446744073709551616).toNat
      else toString (x % 18446744073709551616).toNat := rfl

theorem lsRowData_Size (env : LsEnv) (c : String → Bool) (data : sftpLs) (f : sftpFileInfo) :
    (lsRowData env c data f).Size =
      if c "h" then
        env.humanizeBytes (match f.Sys with
          | some stat => stat.Size
          | none => 0)
      else
        toString (match f.Sys with
          | some stat => stat.Size
          | none => 0) := by
  cases hs : f.Sys <;> simp [lsRowData, sizeString, hs]

theorem mem_mapSet {V : Type} (m : GoMap V) (k : String) (v : V) (x : String × V)
    (hx : x ∈ mapSet m k v) : x ∈ m ∨ x = (k, v) := by
  induction m with
  | nil =>
    simp only [mapSet, List.mem_singleton] at hx
    exact Or.inr hx
  | cons kv t ih =>
    obtain ⟨k2, v2⟩ := kv
    by_cases hk : k2 = k
    · simp only [mapSet, hk, if_true, List.mem_cons] at hx
      rcases hx with h | h
      · exact Or.inr h
      · exact Or.inl (List.mem_cons_of_mem _ h)
    · simp only [mapSet, hk, if_false, List.mem_cons] at hx
      rcases hx with h | h
      · exact Or.inl (h ▸ List.mem_cons_self _ _)
      · rcases ih h with h2 | h2
        · exact Or.inl (List.mem_cons_of_mem _ h2)
        · exact Or.inr h2

theorem lsFetch_mem (env : LsEnv) (c : String → Bool) :
    ∀ (clients : GoMap TargetConnectMap) (acc : GoMap sftpLs × List (String × List String))
      (sd : String × sftpLs), sd ∈ (lsFetch env c acc clients).1 →
      sd ∈ acc.1 ∨ ∃ cl, (lsHost env c cl).data = some sd.2 := by
  intro clients
  induction clients with
  | nil => intro acc sd h; exact Or.inl (by simpa [lsFetch] using h)
  | cons kc rest ih =>
    intro acc sd h
    obtain ⟨k, cl⟩ := kc
    simp only [lsFetch] at h
    rcases ih _ sd h with hacc | hnew
    · cases hd : (lsHost env c cl).data with
      | none =>
        simp only [hd] at hacc
        exact Or.inl hacc
      | some data =>
        simp only [hd] at hacc
        rcases mem_mapSet _ _ _ _ hacc with h1 | h2
        · exact Or.inl h1
        · exact Or.inr ⟨cl, by rw [hd, h2]⟩
    · exact Or.inr hnew

theorem lsPathItems_from (env : LsEnv) (client : TargetConnectMap) (P : FileInfo → Prop)
    (hL : ∀ n p fi, (env.sftp n).Lstat p = Except.ok fi → P fi)
    (hR : ∀ n p entries, (env.sftp n).ReadDir p = Except.ok entries → ∀ fi ∈ entries, P fi)
    (path : String) : ∀ f ∈ (lsPathItems env client path).1, P f.toFileInfo := by
  intro f hf
  obtain ⟨q, hq⟩ : ∃ q, (match (env.sftp client.Connect).ReadLink path with
      | Except.ok t => t
      | Except.error _ => path) = q := ⟨_, rfl⟩
  cases hst : (env.sftp client.Connect).Lstat q with
  | error e =>
    simp only [lsPathItems, hq, hst] at hf
    cases hf
  | ok lstat =>
    by_cases hdir : lstat.IsDir = true
    · cases hrd : (env.sftp client.Connect).ReadDir q with
      | error e =>
        simp only [lsPathItems, hq, hst, hdir, hrd, if_true] at hf
        cases hf
      | ok entries =>
        simp only [lsPathItems, hq, hst, hdir, hrd, if_true] at hf
        rcases List.mem_append.1 hf with h | h
        · by_cases he : entries.length = 0
          · simp only [he, if_true, List.mem_singleton] at h
            rw [h]
            exact hL _ _ _ hst
          · simp only [he, if_false] at h
            cases h
        · obtain ⟨d, hd, hfd⟩ := List.mem_map.1 h
          rw [← hfd]
          exact hR _ _ _ hrd d hd
    · simp only [lsPathItems, hq, hst, hdir, if_false, Bool.false_eq_true,
        List.mem_singleton] at hf
      rw [hf]
      exact hL _ _ _ hst

theorem lsExpandedLoop_from (env : LsEnv) (client : TargetConnectMap) (P : FileInfo → Prop)
    (hL : ∀ n p fi, (env.sftp n).Lstat p = Except.ok fi → P fi)
    (hR : ∀ n p entries, (env.sftp n).ReadDir p = Except.ok entries → ∀ fi ∈ entries, P fi) :
    ∀ (epath : List String) (acc : List sftpFileInfo × List String),
      (∀ f ∈ acc.1, P f.toFileInfo) →
      ∀ f ∈ (lsExpandedLoop env client acc epath).1, P f.toFileInfo := by
  intro epath
  induction epath with
  | nil => intro acc hacc f hf; exact hacc f (by simpa [lsExpandedLoop] using hf)
  | cons p rest ih =>
    intro acc hacc f hf
    simp only [lsExpandedLoop] at hf
    refine ih _ ?_ f hf
    intro g hg
    rcases List.mem_append.1 hg with h | h
    · exact hacc g h
    · exact lsPathItems_from env client P hL hR p g h

theorem lsPathLoop_from (env : LsEnv) (client : TargetConnectMap) (P : FileInfo → Prop)
    (hL : ∀ n p fi, (env.sftp n).Lstat p = Except.ok fi → P fi)
    (hR : ∀ n p entries, (env.sftp n).ReadDir p = Except.ok entries → ∀ fi ∈ entries, P fi) :
    ∀ (paths : List String) (acc : List sftpFileInfo × List String),
      (∀ f ∈ acc.1, P f.toFileInfo) →
      ∀ f ∈ (lsPathLoop env client acc paths).1, P f.toFileInfo := by
  intro paths
  induction paths with
  | nil => intro acc hacc f hf; exact hacc f (by simpa [lsPathLoop] using hf)
  | cons ep rest ih =>
    intro acc hacc f hf
    cases hx : env.ExpandRemotePath client (trimTrailingSlash ep) with
    | error e =>
      simp only [lsPathLoop, hx] at hf
      exact ih (acc.1, acc.2 ++ ["Error: " ++ e ++ "\n"]) hacc f hf
    | ok epath =>
      by_cases hlen : epath.length = 0
      · simp only [lsPathLoop, hx, hlen, if_true] at hf
        exact ih (acc.1, acc.2 ++ ["Error: " ++ trimTrailingSlash ep ++ " not found.\n"]) hacc
          f hf
      · simp only [lsPathLoop, hx, hlen, if_false] at hf
        exact ih _ (lsExpandedLoop_from env client P hL hR epath acc hacc) f hf

theorem getRemoteLsData_from (env : LsEnv) (client : TargetConnectMap) (P : FileInfo → Prop)
    (hL : ∀ n p fi, (env.sftp n).Lstat p = Except.ok fi → P fi)
    (hR : ∀ n p entries, (env.sftp n).ReadDir p = Except.ok entries → ∀ fi ∈ entries, P fi) :
    ∀ f ∈ (getRemoteLsData env client).lsdata.Files, P f.toFileInfo := by
  have hloop := lsPathLoop_from env client P hL hR client.Path ([], [])
    (fun f hf => by cases hf)
  intro f hf
  unfold getRemoteLsData at hf
  cases h1 : (env.sftp client.Connect).Open "/etc/passwd" with
  | error e => simp [h1, sftpLsZero] at hf
  | ok passwdFile =>
    cases h2 : (env.sftp client.Connect).ReadAll passwdFile with
    | error e => simp [h1, h2, sftpLsZero] at hf
    | ok passwd =>
      cases h3 : (env.sftp client.Connect).Open "/etc/group" with
      | error e => simp [h1, h2, h3, sftpLsZero] at hf
      | ok groupFile =>
        cases h4 : (env.sftp client.Connect).ReadAll groupFile with
        | error e => simp [h1, h2, h3, h4, sftpLsZero] at hf
        | ok groups =>
          simp only [h1, h2, h3, h4] at hf
          exact hloop f hf

theorem lsHost_from (env : LsEnv) (c : String → Bool) (P : FileInfo → Prop)
    (hL : ∀ n p fi, (env.sftp n).Lstat p = Except.ok fi → P fi)
    (hR : ∀ n p entries, (env.sftp n).ReadDir p = Except.ok entries → ∀ fi ∈ entries, P fi)
    (hsort : ∀ files, ∀ f ∈ env.SortLsData c files, f ∈ files)
    (client : TargetConnectMap) (data : sftpLs) (hd : (lsHost env c client).data = some data) :
    ∀ f ∈ data.Files, P f.toFileInfo := by
  intro f hf
  unfold lsHost at hd
  cases he : (getRemoteLsData env
        (if client.Path.length > 0 then client
          else { client with Path := client.Path ++ [client.Pwd] })).err with
  | some err => simp [he] at hd
  | none =>
    simp only [he, Option.some.injEq] at hd
    rw [← hd] at hf
    have h1 := hsort _ f hf
    rw [hiddenDelete_eq] at h1
    refine getRemoteLsData_from env
      (if client.Path.length > 0 then client
        else { client with Path := client.Path ++ [client.Pwd] }) P hL hR f ?_
    cases ha : c "a" with
    | true => simpa [ha] using h1
    | false =>
      simp only [ha, List.nil_append, Bool.false_eq_true, if_false] at h1
      exact (List.mem_filter.1 h1).1

/-- C11: in the long format every printed row holds the size string of its
entry (the decimal number of the size that `Sys` carries, or its human-scaled
string under `h`) padded on the left to the width. The width is at least the
byte length of the size string that the width loop renders for every listed
entry of every host (the decimal number of `uint64(Size())`, or its
human-scaled string under `h`), it is the length of one of them when there is
an entry, and it is 0 when there is none. For an entry whose `Sys` carries the
size of `Size()` the printed string is the one of the width loop, so it is not
longer than the width and the padded column is exactly that wide. When every
entry that the sftp client returns from `Lstat` and `ReadDir` is such an
entry, as the sftp library makes them, and the sort returns only entries it
was given, this holds for the size string of every printed row. -/
theorem executeRemoteLs_size_width (env : LsEnv) (c : String → Bool)
    (clients : GoMap TargetConnectMap) (hl : c "l" = true) :
    (∀ row ∈ (executeRemoteLs env c clients).stdout,
        ∃ sd ∈ (lsFetch env c ([], []) clients).1, ∃ f ∈ sd.2.Files, ∃ front back,
          row = front ++
            padLeft (maxSizeWidthOf env c 0 (lsFetch env c ([], []) clients).1)
              (if c "h" then
                env.humanizeBytes (match f.Sys with
                  | some stat => stat.Size
                  | none => 0)
              else
                toString (match f.Sys with
                  | some stat => stat.Size
                  | none => 0)) ++ back) ∧
    (∀ sd ∈ (lsFetch env c ([], []) clients).1, ∀ f ∈ sd.2.Files,
        (if c "h" then env.humanizeBytes (f.Size % 18446744073709551616).toNat
          else toString (f.Size % 18446744073709551616).toNat).utf8ByteSize ≤
          maxSizeWidthOf env c 0 (lsFetch env c ([], []) clients).1) ∧
    ((∀ sd ∈ (lsFetch env c ([], []) clients).1, sd.2.Files = []) →
        maxSizeWidthOf env c 0 (lsFetch env c ([], []) clients).1 = 0) ∧
    ((∃ sd ∈ (lsFetch env c ([], []) clients).1, sd.2.Files ≠ []) →
        ∃ sd ∈ (lsFetch env c ([], []) clients).1, ∃ f ∈ sd.2.Files,
          (if c "h" then env.humanizeBytes (f.Size % 18446744073709551616).toNat
            else toString (f.Size % 18446744073709551616).toNat).utf8ByteSize =
            maxSizeWidthOf env c 0 (lsFetch env c ([], []) clients).1) ∧
    (∀ sd ∈ (lsFetch env c ([], []) clients).1, ∀ f ∈ sd.2.Files, ∀ stat,
        f.Sys = some stat → stat.Size = (f.Size % 18446744073709551616).toNat →
        (if c "h" then env.humanizeBytes stat.Size else toString stat.Size).utf8ByteSize ≤
          maxSizeWidthOf env c 0 (lsFetch env c ([], []) clients).1 ∧
        (padLeft (maxSizeWidthOf env c 0 (lsFetch env c ([], []) clients).1)
          (if c "h" then env.humanizeBytes stat.Size else toString stat.Size)).length =
          maxSizeWidthOf env c 0 (lsFetch env c ([], []) clients).1) ∧
    ((∀ n p fi, (env.sftp n).Lstat p = Except.ok fi →
        ∃ stat, fi.Sys = some stat ∧ stat.Size = (fi.Size % 18446744073709551616).toNat) →
      (∀ n p entries, (env.sftp n).ReadDir p = Except.ok entries → ∀ fi ∈ entries,
        ∃ stat, fi.Sys = some stat ∧ stat.Size = (fi.Size % 18446744073709551616).toNat) →
      (∀ files, ∀ f ∈ env.SortLsData c files, f ∈ files) →
      ∀ row ∈ (executeRemoteLs env c clients).stdout,
        ∃ sd ∈ (lsFetch env c ([], []) clients).1, ∃ f ∈ sd.2.Files, ∃ stat front back,
          f.Sys = some stat ∧
          row = front ++
            padLeft (maxSizeWidthOf env c 0 (lsFetch env c ([], []) clients).1)
              (if c "h" then env.humanizeBytes stat.Size else toString stat.Size) ++ back ∧
          (if c "h" then env.humanizeBytes stat.Size else toString stat.Size).utf8ByteSize ≤
            maxSizeWidthOf env c 0 (lsFetch env c ([], []) clients).1 ∧
          (padLeft (maxSizeWidthOf env c 0 (lsFetch env c ([], []) clients).1)
            (if c "h" then env.humanizeBytes stat.Size else toString stat.Size)).length =
            maxSizeWidthOf env c 0 (lsFetch env c ([], []) clients).1) := by
  have hbound : ∀ sd ∈ (lsFetch env c ([], []) clients).1, ∀ f ∈ sd.2.Files,
      (if c "h" then env.humanizeBytes (f.Size % 18446744073709551616).toNat
        else toString (f.Size % 18446744073709551616).toNat).utf8ByteSize ≤
        maxSizeWidthOf env c 0 (lsFetch env c ([], []) clients).1 := by
    intro sd hsd f hf
    rw [← sizeString_toUint64]
    exact maxSizeWidthOf_bound env c _ 0 sd hsd f hf
  have hrows : ∀ row ∈ (executeRemoteLs env c clients).stdout,
      ∃ sd ∈ (lsFetch env c ([], []) clients).1, ∃ f ∈ sd.2.Files, ∃ front back,
        row = front ++
          padLeft (maxSizeWidthOf env c 0 (lsFetch env c ([], []) clients).1)
            (if c "h" then
              env.humanizeBytes (match f.Sys with
                | some stat => stat.Size
                | none => 0)
            else
              toString (match f.Sys with
                | some stat => stat.Size
                | none => 0)) ++ back := by
    intro row hrow
    have hall : ∀ sd ∈ (lsFetch env c ([], []) clients).1, sd.2.Client ≠ none := by
      intro sd hsd
      rcases lsFetch_mem env c clients _ sd hsd with h | ⟨cl, hcl⟩
      · cases h
      · obtain ⟨cl2, h1, _⟩ := lsHost_data_client env c cl sd.2 hcl
        rw [h1]
        simp
    simp only [executeRemoteLs, hl, if_true] at hrow
    rw [lsLongHosts_mem env c _ _ row _ [] hall] at hrow
    rcases hrow with h | ⟨sd, hsd, cl, _, f, hf, hrow⟩
    · cases h
    · refine ⟨sd, hsd, f, hf, ?_⟩
      rw [← lsRowData_Size env c sd.2 f]
      by_cases hone : (lsFetch env c ([], []) clients).1.length = 1
      · rw [if_pos hone] at hrow
        exact ⟨(lsRowData env c sd.2 f).Mode ++ "\t" ++ (lsRowData env c sd.2 f).User ++ "\t" ++
            (lsRowData env c sd.2 f).Group ++ "\t",
          "\t" ++ (lsRowData env c sd.2 f).Time ++ "\t" ++ (lsRowData env c sd.2 f).Path ++ "\n",
          by rw [hrow]; simp [rowPlain, String.append_assoc]⟩
      · rw [if_neg hone] at hrow
        exact ⟨env.GetPrompt cl.Output sd.1 ++ "\t" ++ (lsRowData env c sd.2 f).Mode ++ "\t" ++
            (lsRowData env c sd.2 f).User ++ "\t" ++ (lsRowData env c sd.2 f).Group ++ "\t",
          "\t" ++ (lsRowData env c sd.2 f).Time ++ "\t" ++ (lsRowData env c sd.2 f).Path ++ "\n",
          by rw [hrow]; simp [rowTagged, String.append_assoc]⟩
  have hsame : ∀ sd ∈ (lsFetch env c ([], []) clients).1, ∀ f ∈ sd.2.Files, ∀ stat,
      f.Sys = some stat → stat.Size = (f.Size % 18446744073709551616).toNat →
      (if c "h" then env.humanizeBytes stat.Size else toString stat.Size).utf8ByteSize ≤
        maxSizeWidthOf env c 0 (lsFetch env c ([], []) clients).1 ∧
      (padLeft (maxSizeWidthOf env c 0 (lsFetch env c ([], []) clients).1)
        (if c "h" then env.humanizeBytes stat.Size else toString stat.Size)).length =
        maxSizeWidthOf env c 0 (lsFetch env c ([], []) clients).1 := by
    intro sd hsd f hf stat _ hsize
    have hb := hbound sd hsd f hf
    rw [← hsize] at hb
    exact ⟨hb, padLeft_length _ _ (le_trans (length_le_utf8ByteSize _) hb)⟩
  refine ⟨hrows, hbound, ?_, ?_, hsame, ?_⟩
  · intro hempty
    rcases maxSizeWidthOf_attained env c (lsFetch env c ([], []) clients).1 0 with
      heq | ⟨sd, hsd, f, hf, _⟩
    · exact heq
    · rw [hempty sd hsd] at hf
      cases hf
  · rintro ⟨sd, hsd, hne⟩
    rcases maxSizeWidthOf_attained env c (lsFetch env c ([], []) clients).1 0 with
      heq | ⟨sd2, hsd2, f2, hf2, he2⟩
    · obtain ⟨f, hf⟩ := List.exists_mem_of_ne_nil _ hne
      have hb := hbound sd hsd f hf
      exact ⟨sd, hsd, f, hf, by omega⟩
    · exact ⟨sd2, hsd2, f2, hf2, by rw [← sizeString_toUint64]; exact he2⟩
  · intro hL hR hsort row hrow
    obtain ⟨sd, hsd, f, hf, front, back, hrow⟩ := hrows row hrow
    have hfrom : ∃ stat, f.Sys = some stat ∧
        stat.Size = (f.Size % 18446744073709551616).toNat := by
      rcases lsFetch_mem env c clients _ sd hsd with h | ⟨cl, hcl⟩
      · cases h
      · exact lsHost_from env c
          (fun fi => ∃ stat, fi.Sys = some stat ∧
            stat.Size = (fi.Size % 18446744073709551616).toNat)
          hL hR hsort cl sd.2 hcl f hf
    obtain ⟨stat, hsys, hsize⟩ := hfrom
    simp only [hsys] at hrow
    exact ⟨sd, hsd, f, hf, stat, front, back, hsys, hrow,
      (hsame sd hsd f hf stat hsys hsize).1, (hsame sd hsd f hf stat hsys hsize).2⟩

/-- C11, in the example world of the size column, where `h1` lists entries of
5 and 1234 bytes and `h2` entries of 99999 and 18446744073709551615 bytes: the
width is 20 without `h`, from an entry of the second host whose `Size()` is
the negative `int64`, and 18 with `h`; all four rows are padded to the width,
and no row holds a size string longer than the width. -/
theorem executeRemoteLs_size_width_witness :
    flagsLong "l" = true ∧ flagsLongHuman "l" = true ∧
    maxSizeWidthOf exampleSizeEnv flagsLong 0
        (lsFetch exampleSizeEnv flagsLong ([], []) exampleSizeTargets).1 = 20 ∧
    maxSizeWidthOf exampleSizeEnv flagsLongHuman 0
        (lsFetch exampleSizeEnv flagsLongHuman ([], []) exampleSizeTargets).1 = 18 ∧
    (exampleSized "d" 18446744073709551615).Size = -1 ∧
    (executeRemoteLs exampleSizeEnv flagsLong exampleSizeTargets).stdout =
      ["h1 :: \t-rw-r--r--\troot\troot\t                   5\t1970 01-01 00:00:00\t/data/a\n",
       "h1 :: \t-rw-r--r--\troot\troot\t                1234\t1970 01-01 00:00:00\t/data/b\n",
       "h2 :: \t-rw-r--r--\troot\troot\t               99999\t1970 01-01 00:00:00\t/data/c\n",
       "h2 :: \t-rw-r--r--\troot\troot\t18446744073709551615\t1970 01-01 00:00:00\t/data/d\n"] ∧
    (executeRemoteLs exampleSizeEnv flagsLongHuman exampleSizeTargets).stdout =
      ["h1 :: \t-rw-r--r--\troot\troot\t                0k\t1970 01-01 00:00:00\t/data/a\n",
       "h1 :: \t-rw-r--r--\troot\troot\t                1k\t1970 01-01 00:00:00\t/data/b\n",
       "h2 :: \t-rw-r--r--\troot\troot\t               99k\t1970 01-01 00:00:00\t/data/c\n",
       "h2 :: \t-rw-r--r--\troot\troot\t18446744073709551k\t1970 01-01 00:00:00\t/data/d\n"] ∧
    ((if flagsLong "h" then exampleSizeEnv.humanizeBytes 18446744073709551615
        else toString 18446744073709551615).utf8ByteSize ≤
        maxSizeWidthOf exampleSizeEnv flagsLong 0
          (lsFetch exampleSizeEnv flagsLong ([], []) exampleSizeTargets).1 ∧
      (padLeft (maxSizeWidthOf exampleSizeEnv flagsLong 0
          (lsFetch exampleSizeEnv flagsLong ([], []) exampleSizeTargets).1)
        (if flagsLong "h" then exampleSizeEnv.humanizeBytes 18446744073709551615
          else toString 18446744073709551615)).length =
        maxSizeWidthOf exampleSizeEnv flagsLong 0
          (lsFetch exampleSizeEnv flagsLong ([], []) exampleSizeTargets).1) ∧
    ((if flagsLongHuman "h" then exampleSizeEnv.humanizeBytes 5 else toString 5).utf8ByteSize ≤
        maxSizeWidthOf exampleSizeEnv flagsLongHuman 0
          (lsFetch exampleSizeEnv flagsLongHuman ([], []) exampleSizeTargets).1 ∧
      (padLeft (maxSizeWidthOf exampleSizeEnv flagsLongHuman 0
          (lsFetch exampleSizeEnv flagsLongHuman ([], []) exampleSizeTargets).1)
        (if flagsLongHuman "h" then exampleSizeEnv.humanizeBytes 5 else toString 5)).length =
        maxSizeWidthOf exampleSizeEnv flagsLongHuman 0
          (lsFetch exampleSizeEnv flagsLongHuman ([], []) exampleSizeTargets).1) ∧
    (∀ row ∈ (executeRemoteLs exampleSizeEnv flagsLong exampleSizeTargets).stdout,
      ∃ sd ∈ (lsFetch exampleSizeEnv flagsLong ([], []) exampleSizeTargets).1,
        ∃ f ∈ sd.2.Files, ∃ stat front back,
          f.Sys = some stat ∧
          row = front ++
            padLeft (maxSizeWidthOf exampleSizeEnv flagsLong 0
                (lsFetch exampleSizeEnv flagsLong ([], []) exampleSizeTargets).1)
              (if flagsLong "h" then exampleSizeEnv.humanizeBytes stat.Size
                else toString stat.Size) ++ back ∧
          (if flagsLong "h" then exampleSizeEnv.humanizeBytes stat.Size
            else toString stat.Size).utf8ByteSize ≤
            maxSizeWidthOf exampleSizeEnv flagsLong 0
              (lsFetch exampleSizeEnv flagsLong ([], []) exampleSizeTargets).1 ∧
          (padLeft (maxSizeWidthOf exampleSizeEnv flagsLong 0
              (lsFetch exampleSizeEnv flagsLong ([], []) exampleSizeTargets).1)
            (if flagsLong "h" then exampleSizeEnv.humanizeBytes stat.Size
              else toString stat.Size)).length =
            maxSizeWidthOf exampleSizeEnv flagsLong 0
              (lsFetch exampleSizeEnv flagsLong ([], []) exampleSizeTargets).1) :=
  ⟨by decide, by decide, by decide, by decide, by decide, by decide, by decide,
    (executeRemoteLs_size_width exampleSizeEnv flagsLong exampleSizeTargets (by decide)).2.2.2.2.1
      ("h2",
        { Client := some { toSftpConnect := exampleSession 2 "./", Path := ["/data"] },
          Files := [{ toFileInfo := exampleSized "c" 99999, Dir := "/data" },
                    { toFileInfo := exampleSized "d" 18446744073709551615, Dir := "/data" }],
          Passwd := "", Groups := "" })
      (by decide)
      { toFileInfo := exampleSized "d" 18446744073709551615, Dir := "/data" } (by decide)
      { Size := 18446744073709551615, Mode := 420, Mtime := 0, Atime := 0, UID := 0, GID := 0 }
      (by decide) (by decide),
    (executeRemoteLs_size_width exampleSizeEnv flagsLongHuman exampleSizeTargets
      (by decide)).2.2.2.2.1
      ("h1",
        { Client := some { toSftpConnect := exampleSession 1 "./", Path := ["/data"] },
          Files := [{ toFileInfo := exampleSized "a" 5, Dir := "/data" },
                    { toFileInfo := exampleSized "b" 1234, Dir := "/data" }],
          Passwd := "", Groups := "" })
      (by decide)
      { toFileInfo := exampleSized "a" 5, Dir := "/data" } (by decide)
      { Size := 5, Mode := 420, Mtime := 0, Atime := 0, UID := 0, GID := 0 }
      (by decide) (by decide),
    (executeRemoteLs_size_width exampleSizeEnv flagsLong exampleSizeTargets (by decide)).2.2.2.2.2
      (fun _ _ fi h => by
        cases h
        exact ⟨_, rfl, by decide⟩)
      (fun n _ entries h fi hfi => by
        by_cases hn : n = 11
        · simp only [exampleSizeEnv, hn, if_true, Except.ok.injEq] at h
          subst h
          simp only [List.mem_cons, List.mem_singleton, List.not_mem_nil, or_false] at hfi
          rcases hfi with h1 | h1 <;> subst h1 <;> exact ⟨_, rfl, by decide⟩
        · simp only [exampleSizeEnv, hn, if_false, Except.ok.injEq] at h
          subst h
          simp only [List.mem_cons, List.mem_singleton, List.not_mem_nil, or_false] at hfi
          rcases hfi with h1 | h1 <;> subst h1 <;> exact ⟨_, rfl, by decide⟩)
      (fun _ _ h => h)⟩

/-! ## Lemmas on `getRemoteLsData` -/

theorem lsExpandedLoop_eq (env : LsEnv) (client : TargetConnectMap) :
    ∀ (epath : List String) (acc : List sftpFileInfo × List String),
      lsExpandedLoop env client acc epath =
        (acc.1 ++ epath.flatMap (fun p => (lsPathItems env client p).1),
          acc.2 ++ epath.flatMap (fun p => (lsPathItems env client p).2)) := by
  intro epath
  induction epath with
  | nil => intro acc; simp [lsExpandedLoop]
  | cons p rest ih =>
    intro acc
    simp [lsExpandedLoop, ih, List.flatMap_cons, List.append_assoc]

theorem lsPathLoop_eq (env : LsEnv) (client : TargetConnectMap) :
    ∀ (paths : List String) (acc : List sftpFileInfo × List String),
      lsPathLoop env client acc paths =
        (acc.1 ++ paths.flatMap (fun ep =>
            match env.ExpandRemotePath client (trimTrailingSlash ep) with
            | Except.error _ => []
            | Except.ok epath => epath.flatMap (fun p => (lsPathItems env client p).1)),
          acc.2 ++ paths.flatMap (fun ep =>
            match env.ExpandRemotePath client (trimTrailingSlash ep) with
            | Except.error err => ["Error: " ++ err ++ "\n"]
            | Except.ok epath =>
              if epath.length = 0 then ["Error: " ++ trimTrailingSlash ep ++ " not found.\n"]
              else epath.flatMap (fun p => (lsPathItems env client p).2))) := by
  intro paths
  induction paths with
  | nil => intro acc; simp [lsPathLoop]
  | cons ep rest ih =>
    intro acc
    cases hex : env.ExpandRemotePath client (trimTrailingSlash ep) with
    | error err =>
      simp [lsPathLoop, hex, ih, List.flatMap_cons, List.append_assoc]
    | ok epath =>
      by_cases hlen : epath.length = 0
      · have hnil : epath = [] := List.length_eq_zero.1 hlen
        simp [lsPathLoop, hex, ih, List.flatMap_cons, List.append_assoc, hnil]
      · have hne : ¬ epath = [] := fun e => hlen (by simp [e])
        simp [lsPathLoop, hex, hlen, hne, ih, lsExpandedLoop_eq, List.flatMap_cons,
          List.append_assoc]

theorem getRemoteLsData_out (env : LsEnv) (client : TargetConnectMap) :
    (getRemoteLsData env client).out = (lsPathLoop env client ([], []) client.Path).2 := by
  unfold getRemoteLsData
  cases h1 : (env.sftp client.Connect).Open "/etc/passwd" with
  | error e => simp [h1]
  | ok passwdFile =>
    cases h2 : (env.sftp client.Connect).ReadAll passwdFile with
    | error e => simp [h1, h2]
    | ok passwd =>
      cases h3 : (env.sftp client.Connect).Open "/etc/group" with
      | error e => simp [h1, h2, h3]
      | ok groupFile =>
        cases h4 : (env.sftp client.Connect).ReadAll groupFile with
        | error e => simp [h1, h2, h3, h4]
        | ok groups => simp [h1, h2, h3, h4]

theorem getRemoteLsData_files (env : LsEnv) (client : TargetConnectMap)
    (hok : (getRemoteLsData env client).err = none) :
    (getRemoteLsData env client).lsdata.Files =
      (lsPathLoop env client ([], []) client.Path).1 := by
  unfold getRemoteLsData at hok ⊢
  cases h1 : (env.sftp client.Connect).Open "/etc/passwd" with
  | error e => simp [h1] at hok
  | ok passwdFile =>
    cases h2 : (env.sftp client.Connect).ReadAll passwdFile with
    | error e => simp [h1, h2] at hok
    | ok passwd =>
      cases h3 : (env.sftp client.Connect).Open "/etc/group" with
      | error e => simp [h1, h2, h3] at hok
      | ok groupFile =>
        cases h4 : (env.sftp client.Connect).ReadAll groupFile with
        | error e => simp [h1, h2, h3, h4] at hok
        | ok groups => simp [h1, h2, h3, h4]

theorem getRemoteLsData_err_iff (env : LsEnv) (client : TargetConnectMap) :
    (getRemoteLsData env client).err = none ↔
      ∃ passwdFile passwd groupFile groups,
        (env.sftp client.Connect).Open "/etc/passwd" = Except.ok passwdFile ∧
        (env.sftp client.Connect).ReadAll passwdFile = Except.ok passwd ∧
        (env.sftp client.Connect).Open "/etc/group" = Except.ok groupFile ∧
        (env.sftp client.Connect).ReadAll groupFile = Except.ok groups := by
  unfold getRemoteLsData
  cases h1 : (env.sftp client.Connect).Open "/etc/passwd" with
  | error e => simp [h1]
  | ok passwdFile =>
    cases h2 : (env.sftp client.Connect).ReadAll passwdFile with
    | error e => simp [h1, h2]
    | ok passwd =>
      cases h3 : (env.sftp client.Connect).Open "/etc/group" with
      | error e => simp [h1, h2, h3]
      | ok groupFile =>
        cases h4 : (env.sftp client.Connect).ReadAll groupFile with
        | error e => simp [h1, h2, h3, h4]
        | ok groups => simp [h1, h2, h3, h4]

theorem getRemoteLsData_err_zero (env : LsEnv) (client : TargetConnectMap)
    (herr : (getRemoteLsData env client).err ≠ none) :
    (getRemoteLsData env client).lsdata = sftpLsZero := by
  unfold getRemoteLsData at herr ⊢
  cases h1 : (env.sftp client.Connect).Open "/etc/passwd" with
  | error e => simp [h1]
  | ok passwdFile =>
    cases h2 : (env.sftp client.Connect).ReadAll passwdFile with
    | error e => simp [h1, h2]
    | ok passwd =>
      cases h3 : (env.sftp client.Connect).Open "/etc/group" with
      | error e => simp [h1, h2, h3]
      | ok groupFile =>
        cases h4 : (env.sftp client.Connect).ReadAll groupFile with
        | error e => simp [h1, h2, h3, h4]
        | ok groups => simp [h1, h2, h3, h4] at herr

/-- C12: the lines `getRemoteLsData` writes to the host's output and, when it
returns no error, the entries it returns are the concatenations, in the order
of the supplied paths and of their expansions, of what each expanded path
gives. A supplied path whose expansion fails or is empty gives no item and one
error line; an expanded path whose stat or whose directory listing fails gives
no item and one error line; the later paths are processed all the same. -/
theorem getRemoteLsData_collects (env : LsEnv) (client : TargetConnectMap) :
    (getRemoteLsData env client).out =
        client.Path.flatMap (fun ep =>
          match env.ExpandRemotePath client (trimTrailingSlash ep) with
          | Except.error err => ["Error: " ++ err ++ "\n"]
          | Except.ok epath =>
            if epath.length = 0 then ["Error: " ++ trimTrailingSlash ep ++ " not found.\n"]
            else epath.flatMap (fun p => (lsPathItems env client p).2)) ∧
    ((getRemoteLsData env client).err = none →
      (getRemoteLsData env client).lsdata.Files =
        client.Path.flatMap (fun ep =>
          match env.ExpandRemotePath client (trimTrailingSlash ep) with
          | Except.error _ => []
          | Except.ok epath => epath.flatMap (fun p => (lsPathItems env client p).1))) ∧
    (∀ p q err,
      (match (env.sftp client.Connect).ReadLink p with
        | Except.ok t => t
        | Except.error _ => p) = q →
      (env.sftp client.Connect).Lstat q = Except.error err →
      lsPathItems env client p = ([], ["Error: " ++ err ++ "\n"])) ∧
    (∀ p q lstat err,
      (match (env.sftp client.Connect).ReadLink p with
        | Except.ok t => t
        | Except.error _ => p) = q →
      (env.sftp client.Connect).Lstat q = Except.ok lstat → lstat.IsDir = true →
      (env.sftp client.Connect).ReadDir q = Except.error err →
      lsPathItems env client p = ([], ["Error: " ++ err ++ "\n"])) := by
  refine ⟨?_, ?_, ?_, ?_⟩
  · rw [getRemoteLsData_out, lsPathLoop_eq]
    simp
  · intro hok
    rw [getRemoteLsData_files env client hok, lsPathLoop_eq]
    simp
  · intro p q err hq hst
    simp only [lsPathItems, hq, hst]
  · intro p q lstat err hq hst hdir hrd
    simp only [lsPathItems, hq, hst, hdir, hrd, if_true]

/-- C19: an expanded path is first replaced by its link target when it is a
link; if the stat of that path succeeds, a directory whose listing has entries
gives one item per entry with `Dir` the directory path, a directory whose
listing is empty gives the one item of the directory's own stat with `Dir`
its parent, and any other node gives the one item of its own stat with `Dir`
its parent; none of them writes an error line. The entries that
`getRemoteLsData` returns are these items, path after path. -/
theorem getRemoteLsData_items (env : LsEnv) (client : TargetConnectMap) :
    (∀ p q lstat entries,
      (match (env.sftp client.Connect).ReadLink p with
        | Except.ok t => t
        | Except.error _ => p) = q →
      (env.sftp client.Connect).Lstat q = Except.ok lstat → lstat.IsDir = true →
      (env.sftp client.Connect).ReadDir q = Except.ok entries → entries ≠ [] →
      lsPathItems env client p =
        (entries.map (fun d => { toFileInfo := d, Dir := q }), [])) ∧
    (∀ p q lstat,
      (match (env.sftp client.Connect).ReadLink p with
        | Except.ok t => t
        | Except.error _ => p) = q →
      (env.sftp client.Connect).Lstat q = Except.ok lstat → lstat.IsDir = true →
      (env.sftp client.Connect).ReadDir q = Except.ok [] →
      lsPathItems env client p =
        ([{ toFileInfo := lstat, Dir := env.filepathDir q }], [])) ∧
    (∀ p q lstat,
      (match (env.sftp client.Connect).ReadLink p with
        | Except.ok t => t
        | Except.error _ => p) = q →
      (env.sftp client.Connect).Lstat q = Except.ok lstat → lstat.IsDir = false →
      lsPathItems env client p =
        ([{ toFileInfo := lstat, Dir := env.filepathDir q }], [])) ∧
    ((getRemoteLsData env client).err = none →
      (getRemoteLsData env client).lsdata.Files =
        client.Path.flatMap (fun ep =>
          match env.ExpandRemotePath client (trimTrailingSlash ep) with
          | Except.error _ => []
          | Except.ok epath => epath.flatMap (fun p => (lsPathItems env client p).1))) := by
  refine ⟨?_, ?_, ?_, ?_⟩
  · intro p q lstat entries hq hst hdir hrd hne
    have hlen : ¬ entries.length = 0 := by
      simpa [List.length_eq_zero] using hne
    simp [lsPathItems, hq, hst, hdir, hrd, hlen]
  · intro p q lstat hq hst hdir hrd
    simp [lsPathItems, hq, hst, hdir, hrd]
  · intro p q lstat hq hst hdir
    simp [lsPathItems, hq, hst, hdir]
  · intro hok
    rw [getRemoteLsData_files env client hok, lsPathLoop_eq]
    simp

theorem lsHost_err (env : LsEnv) (c : String → Bool) (client : TargetConnectMap)
    (err : String)
    (herr : (getRemoteLsData env
      (if client.Path.length > 0 then client
        else { client with Path := client.Path ++ [client.Pwd] })).err = some err) :
    (lsHost env c client).data = none ∧
    (lsHost env c client).out =
      (getRemoteLsData env
        (if client.Path.length > 0 then client
          else { client with Path := client.Path ++ [client.Pwd] })).out ++
        ["Error: " ++ err ++ "\n"] := by
  simp [lsHost, herr]

theorem lsFetch_skip_failed (env : LsEnv) (c : String → Bool) (server : String) :
    ∀ (clients : GoMap TargetConnectMap)
      (acc acc2 : GoMap sftpLs × List (String × List String)),
      acc.1 = acc2.1 →
      (∀ cl, (server, cl) ∈ clients → (lsHost env c cl).data = none) →
      (lsFetch env c acc clients).1 =
        (lsFetch env c acc2 (clients.filter (fun sc => decide (sc.1 ≠ server)))).1 := by
  intro clients
  induction clients with
  | nil => intro acc acc2 hacc _; simpa [lsFetch] using hacc
  | cons kc rest ih =>
    intro acc acc2 hacc hfail
    obtain ⟨k, cl⟩ := kc
    have hrest : ∀ cl, (server, cl) ∈ rest → (lsHost env c cl).data = none :=
      fun cl2 h => hfail cl2 (List.mem_cons_of_mem _ h)
    by_cases hk : k = server
    · subst hk
      have hnone := hfail cl (List.mem_cons_self _ _)
      simp only [lsFetch, hnone, List.filter_cons, ne_eq, not_true_eq_false, decide_False,
        Bool.false_eq_true, if_false]
      exact ih _ _ hacc hrest
    · simp only [lsFetch, List.filter_cons, ne_eq, hk, not_false_eq_true, decide_True,
        if_true]
      apply ih _ _ _ hrest
      simp only [hacc]

theorem lsFetch_out_mem (env : LsEnv) (c : String → Bool) :
    ∀ (clients : GoMap TargetConnectMap) (acc : GoMap sftpLs × List (String × List String))
      (server : String) (cl : TargetConnectMap), (server, cl) ∈ clients →
      (server, (lsHost env c cl).out) ∈ (lsFetch env c acc clients).2 := by
  have hkeep : ∀ (clients : GoMap TargetConnectMap)
      (acc : GoMap sftpLs × List (String × List String)) (x : String × List String),
      x ∈ acc.2 → x ∈ (lsFetch env c acc clients).2 := by
    intro clients
    induction clients with
    | nil => intro acc x hx; simpa [lsFetch] using hx
    | cons kc rest ih =>
      intro acc x hx
      obtain ⟨k, cl⟩ := kc
      simp only [lsFetch]
      apply ih
      simp [hx]
  intro clients
  induction clients with
  | nil => intro acc server cl h; cases h
  | cons kc rest ih =>
    intro acc server cl hmem
    obtain ⟨k, cl0⟩ := kc
    simp only [lsFetch]
    rcases List.mem_cons.1 hmem with heq | htail
    · cases heq
      apply hkeep
      simp
    · exact ih _ server cl htail

/-- C20: `getRemoteLsData` returns no error exactly when `/etc/passwd` and
`/etc/group` could both be opened and read; otherwise it returns the zero
listing (no entries), whatever the requested paths gave. For every choice of
flags such a host is then no key of `lsdata`: the rows on the standard output
and the columns are those of the invocation without that host, and the only
lines on the host's own output are those of the fetch phase, which end with
the error. -/
theorem getRemoteLsData_passwd_group (env : LsEnv) (clients : GoMap TargetConnectMap)
    (server : String) (client : TargetConnectMap) (hnd : (mapKeys clients).Nodup)
    (hcl : mapGet clients server = some client) :
    ((getRemoteLsData env client).err = none ↔
      ∃ passwdFile passwd groupFile groups,
        (env.sftp client.Connect).Open "/etc/passwd" = Except.ok passwdFile ∧
        (env.sftp client.Connect).ReadAll passwdFile = Except.ok passwd ∧
        (env.sftp client.Connect).Open "/etc/group" = Except.ok groupFile ∧
        (env.sftp client.Connect).ReadAll groupFile = Except.ok groups) ∧
    ((getRemoteLsData env client).err ≠ none →
      (getRemoteLsData env client).lsdata = sftpLsZero ∧
      (getRemoteLsData env client).lsdata.Files = []) ∧
    (∀ (c : String → Bool) (err : String),
      (getRemoteLsData env
        (if client.Path.length > 0 then client
          else { client with Path := client.Path ++ [client.Pwd] })).err = some err →
      server ∉ mapKeys (lsFetch env c ([], []) clients).1 ∧
      (executeRemoteLs env c clients).stdout =
        (executeRemoteLs env c (clients.filter (fun sc => decide (sc.1 ≠ server)))).stdout ∧
      (executeRemoteLs env c clients).columns =
        (executeRemoteLs env c (clients.filter (fun sc => decide (sc.1 ≠ server)))).columns ∧
      (∀ lines, (server, lines) ∈ (executeRemoteLs env c clients).hostOut →
        (server, lines) ∈ (lsFetch env c ([], []) clients).2) ∧
      (server,
        (getRemoteLsData env
          (if client.Path.length > 0 then client
            else { client with Path := client.Path ++ [client.Pwd] })).out ++
          ["Error: " ++ err ++ "\n"]) ∈ (executeRemoteLs env c clients).hostOut) := by
  refine ⟨getRemoteLsData_err_iff env client, ?_, ?_⟩
  · intro herr
    have hz := getRemoteLsData_err_zero env client herr
    exact ⟨hz, by rw [hz]; rfl⟩
  · intro c err herr
    have hhost := lsHost_err env c client err herr
    have hnotkey : server ∉ mapKeys (lsFetch env c ([], []) clients).1 := by
      rw [← mapGet_eq_none_iff, lsFetch_get env c clients _ server hnd, hcl]
      simp [hhost.1, mapGet]
    have hfail : ∀ cl, (server, cl) ∈ clients → (lsHost env c cl).data = none := by
      intro cl hmem
      have hg := mapGet_of_mem clients server cl hnd hmem
      rw [hcl] at hg
      cases hg
      exact hhost.1
    have hsame := lsFetch_skip_failed env c server clients ([], []) ([], []) rfl hfail
    have hout : (server, (lsHost env c client).out) ∈ (lsFetch env c ([], []) clients).2 :=
      lsFetch_out_mem env c clients _ server client (mem_of_mapGet clients server client hcl)
    rw [hhost.2] at hout
    refine ⟨hnotkey, ?_, ?_, ?_, ?_⟩
    · simp only [executeRemoteLs, hsame]
      cases c "l" <;> cases c "1" <;> simp
    · simp only [executeRemoteLs, hsame]
      cases c "l" <;> cases c "1" <;> simp
    · intro lines hmem
      simp only [executeRemoteLs] at hmem
      cases h1 : c "l" with
      | true => simpa [h1] using hmem
      | false =>
        cases h2 : c "1" with
        | false => simpa [h1, h2] using hmem
        | true =>
          simp only [h1, h2, if_true, Bool.false_eq_true, if_false, List.mem_append,
            List.mem_map] at hmem
          rcases hmem with hm | ⟨sd, hsd, heq⟩
          · exact hm
          · exfalso
            apply hnotkey
            have hs : sd.1 = server := by
              have := congrArg Prod.fst heq
              simpa using this
            rw [← hs]
            exact List.mem_map.2 ⟨sd, hsd, rfl⟩
    · simp only [executeRemoteLs]
      cases c "l" <;> cases c "1" <;> simp [hout]

/-- C20, at the target set `{h1, h2}` of the example world: `/etc/passwd`
cannot be opened on `h2`, and `h2` has no row. -/
theorem getRemoteLsData_passwd_group_witness :
    (mapKeys exampleTargets).Nodup ∧
    mapGet exampleTargets "h2" =
      some { toSftpConnect := exampleSession 2 "./", Path := ["/tmp/f"] } ∧
    (getRemoteLsData exampleEnv
      { toSftpConnect := exampleSession 2 "./", Path := ["/tmp/f"] }).err =
        some "file does not exist" ∧
    (getRemoteLsData exampleEnv
      { toSftpConnect := exampleSession 2 "./", Path := ["/tmp/f"] }).lsdata.Files = [] ∧
    "h2" ∉ mapKeys (lsFetch exampleEnv flagsLong ([], []) exampleTargets).1 :=
  ⟨by decide, by decide, by decide,
    ((getRemoteLsData_passwd_group exampleEnv exampleTargets "h2"
      { toSftpConnect := exampleSession 2 "./", Path := ["/tmp/f"] } (by decide)
      (by decide)).2.1 (by decide)).2,
    ((getRemoteLsData_passwd_group exampleEnv exampleTargets "h2"
      { toSftpConnect := exampleSession 2 "./", Path := ["/tmp/f"] } (by decide)
      (by decide)).2.2 flagsLong "file does not exist" (by decide)).1⟩

/-- C12, in the example world with the paths `/link/`, `/empty`, `/gone`,
`/none*`, `/bad[` and `/tmp/f`: three error lines, and the entries of the
other three paths in the order of the paths. -/
theorem getRemoteLsData_collects_witness :
    (getRemoteLsData exampleTreeEnv exampleTreeClient).out =
      ["Error: file does not exist\n", "Error: /none* not found.\n",
       "Error: syntax error in pattern\n"] ∧
    (getRemoteLsData exampleTreeEnv exampleTreeClient).lsdata.Files.map
        (fun f => (f.Dir, f.Name)) =
      [("/data", "f"), ("/data", ".profile"), ("/tmp", "srv"), ("/tmp", "f")] ∧
    lsPathItems exampleTreeEnv exampleTreeClient "/gone" =
      ([], ["Error: " ++ "file does not exist" ++ "\n"]) :=
  ⟨by decide, by decide,
    (getRemoteLsData_collects exampleTreeEnv exampleTreeClient).2.2.1 "/gone" "/gone"
      "file does not exist" (by decide) rfl⟩

/-- C19, in the example world: the link `/link` to the directory `/data` gives
the two entries of `/data`, and the empty directory `/empty` gives the one
item of its own stat. -/
theorem getRemoteLsData_items_witness :
    lsPathItems exampleTreeEnv exampleTreeClient "/link" =
      ([exampleFile, { exampleFile with Name := ".profile" }].map
        (fun d => { toFileInfo := d, Dir := "/data" }), []) ∧
    lsPathItems exampleTreeEnv exampleTreeClient "/empty" =
      ([{ toFileInfo := exampleDir, Dir := exampleTreeEnv.filepathDir "/empty" }], []) :=
  ⟨(getRemoteLsData_items exampleTreeEnv exampleTreeClient).1 "/link" "/data" exampleDir
      [exampleFile, { exampleFile with Name := ".profile" }]
      (by decide) rfl (by decide) rfl (by decide),
    (getRemoteLsData_items exampleTreeEnv exampleTreeClient).2.1 "/empty" "/empty" exampleDir
      (by decide) rfl (by decide) rfl⟩

/-- C14: the code at a failing input. The pool is `{h1, h2, h3}` and the
command is `cd /data`; the path expands to nothing on `h1` and is a directory
on `h2` and `h3`. `cd` writes the error of `h1` and returns, and the current
remote directory of `h2` and `h3` is not changed. When instead the stat fails
on `h1`, the loop goes on and `h2` is changed. -/
theorem cd_expand_failure_stops :
    (cd (parseAs [] "/data") exampleCdSftp exampleCdExpand exampleRun ["cd", "/data"]).map
        (fun res => (res.r.Client, res.out)) =
      some (examplePool, [("h1", "Error: is not expand path.\n")]) ∧
    (match exampleCdExpand
        { toSftpConnect := exampleSession 2 "/srv", Path := ["/data"] } "/data" with
      | Except.ok expanded => expanded
      | Except.error _ => []) = ["/data"] ∧
    (match (exampleCdSftp 12).Lstat "/data" with
      | Except.ok stat => stat.IsDir
      | Except.error _ => false) = true ∧
    (cd (parseAs [] "/data") exampleCdSftp exampleCdExpand exampleRun ["cd", "/data"]).map
        (fun res => (mapGet res.r.Client "h2").map (fun c => c.Pwd)) =
      some (some "/srv") ∧
    (cd (parseAs [] "/data") exampleCdSftpStat (fun _ p => Except.ok [p]) exampleRun
        ["cd", "/data"]).map
        (fun res => ((mapGet res.r.Client "h2").map (fun c => c.Pwd), res.out)) =
      some (some "/data", [("h1", "Error: file does not exist\n")]) := by
  refine ⟨by decide, by decide, by decide, by decide, by decide⟩

/-! ## Lemmas on `cat` -/

theorem catFiles_eq (sftp : Nat → SftpClient) (WriteTo : Nat → Nat → String × Option String)
    (server : String) (client : TargetConnectMap) :
    ∀ (pl : List String) (out : List (String × String)),
      catFiles sftp WriteTo server client out pl =
        out ++ (pl.flatMap (fun p =>
          match (sftp client.Connect).Open p with
          | Except.error err => [err ++ "\n"]
          | Except.ok f =>
            match (WriteTo client.Connect f).2 with
            | some err => [(WriteTo client.Connect f).1, err ++ "\n"]
            | none => [(WriteTo client.Connect f).1])).map (fun text => (server, text)) := by
  intro pl
  induction pl with
  | nil => intro out; simp [catFiles]
  | cons p rest ih =>
    intro out
    cases hop : (sftp client.Connect).Open p with
    | error err => simp [catFiles, hop, ih, List.flatMap_cons]
    | ok f =>
      cases hw : (WriteTo client.Connect f).2 with
      | none => simp [catFiles, hop, hw, ih, List.flatMap_cons]
      | some err => simp [catFiles, hop, hw, ih, List.flatMap_cons]

theorem catPaths_eq (sftp : Nat → SftpClient)
    (ExpandRemotePath : TargetConnectMap → String → Except String (List String))
    (WriteTo : Nat → Nat → String × Option String) (server : String)
    (client : TargetConnectMap) :
    ∀ (paths : List String) (out : List (String × String)),
      catPaths sftp ExpandRemotePath WriteTo server client out paths =
        out ++ (paths.flatMap (fun path =>
          match ExpandRemotePath client path with
          | Except.error err => [err ++ "\n"]
          | Except.ok pathlist =>
            pathlist.flatMap (fun p =>
              match (sftp client.Connect).Open p with
              | Except.error err => [err ++ "\n"]
              | Except.ok f =>
                match (WriteTo client.Connect f).2 with
                | some err => [(WriteTo client.Connect f).1, err ++ "\n"]
                | none => [(WriteTo client.Connect f).1]))).map (fun text => (server, text)) := by
  intro paths
  induction paths with
  | nil => intro out; simp [catPaths]
  | cons path rest ih =>
    intro out
    cases hex : ExpandRemotePath client path with
    | error err => simp [catPaths, hex, ih, List.flatMap_cons]
    | ok pathlist => simp [catPaths, hex, ih, catFiles_eq, List.flatMap_cons]

theorem catHosts_eq (sftp : Nat → SftpClient)
    (ExpandRemotePath : TargetConnectMap → String → Except String (List String))
    (WriteTo : Nat → Nat → String × Option String) :
    ∀ (targets : GoMap TargetConnectMap) (out : List (String × String)),
      catHosts sftp ExpandRemotePath WriteTo out targets =
        out ++ targets.flatMap (fun sc =>
          (sc.2.Path.flatMap (fun path =>
            match ExpandRemotePath sc.2 path with
            | Except.error err => [err ++ "\n"]
            | Except.ok pathlist =>
              pathlist.flatMap (fun p =>
                match (sftp sc.2.Connect).Open p with
                | Except.error err => [err ++ "\n"]
                | Except.ok f =>
                  match (WriteTo sc.2.Connect f).2 with
                  | some err => [(WriteTo sc.2.Connect f).1, err ++ "\n"]
                  | none => [(WriteTo sc.2.Connect f).1]))).map (fun text => (sc.1, text))) := by
  intro targets
  induction targets with
  | nil => intro out; simp [catHosts]
  | cons sc rest ih =>
    intro out
    obtain ⟨server, client⟩ := sc
    simp [catHosts, ih, catPaths_eq, List.flatMap_cons]

theorem sink_of_flatMap {V : Type} (f : V → List String) (server : String) :
    ∀ (tm : GoMap V), (mapKeys tm).Nodup →
      ((tm.flatMap (fun sc => (f sc.2).map (fun text => (sc.1, text)))).filter
        (fun e => decide (e.1 = server))).map (fun e => e.2) =
        match mapGet tm server with
        | some v => f v
        | none => [] := by
  intro tm
  induction tm with
  | nil => intro _; simp [mapGet]
  | cons sc rest ih =>
    intro hnd
    obtain ⟨k, v⟩ := sc
    simp only [mapKeys, List.map_cons, List.nodup_cons] at hnd
    have ih2 := ih hnd.2
    rw [List.flatMap_cons, List.filter_append, List.map_append, ih2]
    by_cases hk : k = server
    · subst hk
      have hnone : mapGet rest k = none := (mapGet_eq_none_iff rest k).2 hnd.1
      have hall : ((f v).map (fun text => (k, text))).filter (fun e => decide (e.1 = k)) =
          (f v).map (fun text => (k, text)) := by
        apply List.filter_eq_self.2
        intro e he
        obtain ⟨t, _, hte⟩ := List.mem_map.1 he
        rw [← hte]
        simp
      simp [hall, hnone, mapGet]
    · have hnone : ((f v).map (fun text => (k, text))).filter (fun e => decide (e.1 = server)) =
          [] := by
        apply List.filter_eq_nil_iff.2
        intro e he
        obtain ⟨t, _, hte⟩ := List.mem_map.1 he
        rw [← hte]
        simp [hk]
      simp [hnone, mapGet, hk]

theorem foldl_targetMapStep_nodup (tl : List String) (p : String) :
    ∀ (Client : GoMap SftpConnect) (tm : GoMap TargetConnectMap), (mapKeys tm).Nodup →
      (mapKeys (Client.foldl (targetMapStep tl p) tm)).Nodup := by
  intro Client
  induction Client with
  | nil => intro tm h; simpa using h
  | cons sc rest ih =>
    intro tm h
    rw [List.foldl_cons]
    apply ih
    unfold targetMapStep
    by_cases hc : Contains tl sc.1 = true
    · cases hg : mapGet tm sc.1 with
      | some e =>
        simp only [hc, if_true, hg]
        exact mapKeys_mapSet_nodup _ _ _ h
      | none =>
        simp only [hc, if_true, hg, mapGet_mapSet_self]
        exact mapKeys_mapSet_nodup _ _ _ (mapKeys_mapSet_nodup _ _ _ h)
    · simp only [hc, Bool.false_eq_true, if_false]
      exact h

theorem createTargetMap_nodup (ParseHostPath : String → List String × String)
    (Client : GoMap SftpConnect) (src : GoMap TargetConnectMap) (pathline : String)
    (h : (mapKeys src).Nodup) :
    (mapKeys (createTargetMap ParseHostPath Client src pathline).1).Nodup := by
  simp only [createTargetMap]
  exact foldl_targetMapStep_nodup _ _ Client src h

theorem catTargets_nodup (ParseHostPath : String → List String × String)
    (Client : GoMap SftpConnect) :
    ∀ (pathlist : List String) (acc : GoMap TargetConnectMap × List String),
      (mapKeys acc.1).Nodup →
      (mapKeys (catTargets ParseHostPath Client acc pathlist).1).Nodup := by
  intro pathlist
  induction pathlist with
  | nil => intro acc h; simpa [catTargets] using h
  | cons p rest ih =>
    intro acc h
    simp only [catTargets]
    apply ih
    exact createTargetMap_nodup ParseHostPath Client acc.1 p h

/-- C13: in `cat` the lines written to the output of a host are, in order,
exactly the lines of that host's own paths: for each of its paths the
expansion error, or for each expanded path the open error or the content of
the file (followed by the write error, if any). So every failure message is
on the output of the host it occurred on and nowhere else, and the content of
every path that expands and opens is written to its host's output, whatever
failed before it on this host or on any other host. -/
theorem cat_isolation (ParseHostPath : String → List String × String)
    (sftp : Nat → SftpClient)
    (ExpandRemotePath : TargetConnectMap → String → Except String (List String))
    (WriteTo : Nat → Nat → String × Option String) (r : RunSftp) (pathlist : List String) :
    (∀ server,
      (((cat ParseHostPath sftp ExpandRemotePath WriteTo r pathlist).out.filter
        (fun e => decide (e.1 = server))).map (fun e => e.2)) =
        match mapGet (catTargets ParseHostPath r.Client ([], []) pathlist).1 server with
        | some client =>
          client.Path.flatMap (fun path =>
            match ExpandRemotePath client path with
            | Except.error err => [err ++ "\n"]
            | Except.ok pathlist =>
              pathlist.flatMap (fun p =>
                match (sftp client.Connect).Open p with
                | Except.error err => [err ++ "\n"]
                | Except.ok f =>
                  match (WriteTo client.Connect f).2 with
                  | some err => [(WriteTo client.Connect f).1, err ++ "\n"]
                  | none => [(WriteTo client.Connect f).1]))
        | none => []) ∧
    (∀ server client path expanded p f,
      mapGet (catTargets ParseHostPath r.Client ([], []) pathlist).1 server = some client →
      path ∈ client.Path → ExpandRemotePath client path = Except.ok expanded →
      p ∈ expanded → (sftp client.Connect).Open p = Except.ok f →
      (server, (WriteTo client.Connect f).1) ∈
        (cat ParseHostPath sftp ExpandRemotePath WriteTo r pathlist).out) ∧
    (∀ server text,
      (server, text) ∈ (cat ParseHostPath sftp ExpandRemotePath WriteTo r pathlist).out →
      server ∈ mapKeys (catTargets ParseHostPath r.Client ([], []) pathlist).1) := by
  have hnd : (mapKeys (catTargets ParseHostPath r.Client ([], []) pathlist).1).Nodup :=
    catTargets_nodup ParseHostPath r.Client pathlist ([], []) (by simp [mapKeys])
  have hout := catHosts_eq sftp ExpandRemotePath WriteTo
    (catTargets ParseHostPath r.Client ([], []) pathlist).1 []
  refine ⟨?_, ?_, ?_⟩
  · intro server
    simp only [cat]
    rw [hout, List.nil_append]
    have hsink := sink_of_flatMap
      (fun client : TargetConnectMap =>
        client.Path.flatMap (fun path =>
          match ExpandRemotePath client path with
          | Except.error err => [err ++ "\n"]
          | Except.ok pathlist =>
            pathlist.flatMap (fun p =>
              match (sftp client.Connect).Open p with
              | Except.error err => [err ++ "\n"]
              | Except.ok f =>
                match (WriteTo client.Connect f).2 with
                | some err => [(WriteTo client.Connect f).1, err ++ "\n"]
                | none => [(WriteTo client.Connect f).1])))
      server _ hnd
    rw [hsink]
    cases mapGet (catTargets ParseHostPath r.Client ([], []) pathlist).1 server with
    | none => rfl
    | some client => rfl
  · intro server client path expanded p f hcl hpath hex hp hop
    simp only [cat]
    rw [hout, List.nil_append, List.mem_flatMap]
    refine ⟨(server, client), mem_of_mapGet _ _ _ hcl, ?_⟩
    apply List.mem_map.2
    refine ⟨(WriteTo client.Connect f).1, ?_, rfl⟩
    apply List.mem_flatMap.2
    refine ⟨path, hpath, ?_⟩
    simp only [hex]
    apply List.mem_flatMap.2
    refine ⟨p, hp, ?_⟩
    simp only [hop]
    cases (WriteTo client.Connect f).2 with
    | none => simp
    | some err => simp
  · intro server text hmem
    simp only [cat] at hmem
    rw [hout, List.nil_append, List.mem_flatMap] at hmem
    obtain ⟨sc, hsc, hin⟩ := hmem
    obtain ⟨t, _, hte⟩ := List.mem_map.1 hin
    have hs : sc.1 = server := by
      have := congrArg Prod.fst hte
      simpa using this
    rw [← hs]
    exact List.mem_map.2 ⟨sc, hsc, rfl⟩

/-- C13, at the pool `{h1, h2, h3}` and the command `cat h1,h2:/etc/motd` when
the file cannot be opened on `h1`: the error is on the output of `h1` and the
content on the output of `h2`. -/
theorem cat_isolation_witness :
    (cat (parseAs ["h1", "h2"] "/etc/motd") exampleCatSftp (fun _ p => Except.ok [p])
        (fun _ _ => ("hello\n", none)) exampleRun ["h1,h2:/etc/motd"]).out =
      [("h1", "file does not exist\n"), ("h2", "hello\n")] ∧
    ("h2", ((fun (_ : Nat) (_ : Nat) => (("hello\n", none) : String × Option String)) 12 7).1) ∈
      (cat (parseAs ["h1", "h2"] "/etc/motd") exampleCatSftp (fun _ p => Except.ok [p])
        (fun _ _ => ("hello\n", none)) exampleRun ["h1,h2:/etc/motd"]).out :=
  ⟨by decide,
    (cat_isolation (parseAs ["h1", "h2"] "/etc/motd") exampleCatSftp (fun _ p => Except.ok [p])
      (fun _ _ => ("hello\n", none)) exampleRun ["h1,h2:/etc/motd"]).2.1 "h2"
      { toSftpConnect := exampleSession 2 "/srv", Path := ["/etc/motd"] } "/etc/motd"
      ["/etc/motd"] "/etc/motd" 7 (by decide) (by decide) rfl (by decide) rfl⟩

/-! ## Lemmas on the order of strings and on the stable sort -/

theorem goStringLt_cons (a b : Char) (as bs : List Char) :
    goStringLt (a :: as) (b :: bs) = true ↔ a < b ∨ (a = b ∧ goStringLt as bs = true) := by
  simp only [goStringLt]
  by_cases h1 : a < b
  · simp [h1]
  · by_cases h2 : b < a
    · have hne : a ≠ b := fun e => by rw [e] at h2; exact lt_irrefl _ h2
      simp [h1, h2, hne]
    · have heq : a = b := le_antisymm (not_lt.1 h2) (not_lt.1 h1)
      simp [h1, h2, heq]

theorem goStringLt_irrefl : ∀ (a : List Char), goStringLt a a = false := by
  intro a
  induction a with
  | nil => rfl
  | cons ch rest ih =>
    cases h : goStringLt (ch :: rest) (ch :: rest) with
    | false => rfl
    | true =>
      rcases (goStringLt_cons ch ch rest rest).1 h with h1 | ⟨_, h2⟩
      · exact absurd h1 (lt_irrefl _)
      · rw [ih] at h2; cases h2

theorem goStringLt_trans :
    ∀ (a b c : List Char), goStringLt a b = true → goStringLt b c = true →
      goStringLt a c = true := by
  intro a
  induction a with
  | nil =>
    intro b c hab hbc
    cases b with
    | nil => simp [goStringLt] at hab
    | cons b0 bs =>
      cases c with
      | nil => simp [goStringLt] at hbc
      | cons c0 cs => simp [goStringLt]
  | cons a0 as ih =>
    intro b c hab hbc
    cases b with
    | nil => simp [goStringLt] at hab
    | cons b0 bs =>
      cases c with
      | nil => simp [goStringLt] at hbc
      | cons c0 cs =>
        rw [goStringLt_cons] at hab hbc ⊢
        rcases hab with h1 | ⟨e1, h1⟩
        · rcases hbc with h2 | ⟨e2, _⟩
          · exact Or.inl (lt_trans h1 h2)
          · exact Or.inl (e2 ▸ h1)
        · rcases hbc with h2 | ⟨e2, h2⟩
          · exact Or.inl (e1 ▸ h2)
          · exact Or.inr ⟨e1.trans e2, ih bs cs h1 h2⟩

theorem goStringLt_total :
    ∀ (a b : List Char), goStringLt a b = false → goStringLt b a = false → a = b := by
  intro a
  induction a with
  | nil =>
    intro b hab _
    cases b with
    | nil => rfl
    | cons b0 bs => simp [goStringLt] at hab
  | cons a0 as ih =>
    intro b hab hba
    cases b with
    | nil => simp [goStringLt] at hba
    | cons b0 bs =>
      have h1 : ¬ (a0 < b0 ∨ (a0 = b0 ∧ goStringLt as bs = true)) := by
        rw [← goStringLt_cons, hab]; simp
      have h2 : ¬ (b0 < a0 ∨ (b0 = a0 ∧ goStringLt bs as = true)) := by
        rw [← goStringLt_cons, hba]; simp
      have hlt1 : ¬ a0 < b0 := fun h => h1 (Or.inl h)
      have hlt2 : ¬ b0 < a0 := fun h => h2 (Or.inl h)
      have heq : a0 = b0 := le_antisymm (not_lt.1 hlt2) (not_lt.1 hlt1)
      have t1 : goStringLt as bs = false := by
        cases h : goStringLt as bs with
        | false => rfl
        | true => exact absurd (Or.inr ⟨heq, h⟩) h1
      have t2 : goStringLt bs as = false := by
        cases h : goStringLt bs as with
        | false => rfl
        | true => exact absurd (Or.inr ⟨heq.symm, h⟩) h2
      rw [heq, ih bs t1 t2]

theorem goStringLt_asymm (a b : List Char) (h : goStringLt a b = true) :
    goStringLt b a = false := by
  cases hba : goStringLt b a with
  | false => rfl
  | true =>
    have := goStringLt_trans a b a h hba
    rw [goStringLt_irrefl] at this
    cases this

theorem suggestLe_total (x y : Suggest) :
    goStringLt y.Text.data x.Text.data = false ∨ goStringLt x.Text.data y.Text.data = false := by
  cases h : goStringLt y.Text.data x.Text.data with
  | false => exact Or.inl rfl
  | true => exact Or.inr (goStringLt_asymm _ _ h)

theorem suggestLe_trans (x y z : Suggest)
    (hxy : goStringLt y.Text.data x.Text.data = false)
    (hyz : goStringLt z.Text.data y.Text.data = false) :
    goStringLt z.Text.data x.Text.data = false := by
  cases hzx : goStringLt z.Text.data x.Text.data with
  | false => rfl
  | true =>
    cases hxy2 : goStringLt x.Text.data y.Text.data with
    | false =>
      have heq := goStringLt_total _ _ hxy2 hxy
      rw [heq] at hzx
      rw [hzx] at hyz
      cases hyz
    | true =>
      have := goStringLt_trans _ _ _ hzx hxy2
      rw [this] at hyz
      cases hyz

theorem sortSliceStable_perm (p : List Suggest) : List.Perm (sortSliceStable p) p :=
  List.perm_insertionSort _ p

theorem sortSliceStable_sorted (p : List Suggest) :
    List.Pairwise (fun a b => goStringLt b.Text.data a.Text.data = false) (sortSliceStable p) := by
  haveI : IsTotal Suggest (fun a b => goStringLt b.Text.data a.Text.data = false) :=
    ⟨suggestLe_total⟩
  haveI : IsTrans Suggest (fun a b => goStringLt b.Text.data a.Text.data = false) :=
    ⟨suggestLe_trans⟩
  exact List.sorted_insertionSort _ p

theorem sortSliceStable_strict (p : List Suggest)
    (hnd : (p.map (fun sg => sg.Text)).Nodup) :
    List.Pairwise (fun a b => goStringLt a.Text.data b.Text.data = true) (sortSliceStable p) := by
  have hnd2 : ((sortSliceStable p).map (fun sg => sg.Text)).Nodup :=
    ((sortSliceStable_perm p).map _).nodup_iff.2 hnd
  have hne : List.Pairwise (fun a b : Suggest => a.Text ≠ b.Text) (sortSliceStable p) :=
    List.pairwise_map.1 hnd2
  have hboth := (sortSliceStable_sorted p).and hne
  apply hboth.imp
  intro a b hab
  cases h : goStringLt a.Text.data b.Text.data with
  | true => rfl
  | false =>
    exfalso
    apply hab.2
    have hdata := goStringLt_total _ _ h hab.1
    exact String.ext hdata

/-! ## Lemmas on the remote completion -/

theorem completeAdd_get (server t : String) :
    ∀ (names : List String) (m : GoMap (List String)),
      mapGet (completeAdd server m names) t =
        if (names.filter (fun n => decide (n = t))).map (fun _ => server) = [] then mapGet m t
        else some ((mapGet m t).getD [] ++
          (names.filter (fun n => decide (n = t))).map (fun _ => server)) := by
  intro names
  induction names with
  | nil => intro m; simp [completeAdd]
  | cons p rest ih =>
    intro m
    simp only [completeAdd]
    rw [ih]
    by_cases hp : p = t
    · subst hp
      have hget : (match mapGet m p with
          | some hosts => hosts
          | none => []) = (mapGet m p).getD [] := by
        cases mapGet m p <;> rfl
      rw [hget, mapGet_mapSet_self]
      by_cases hrest : (rest.filter (fun n => decide (n = p))).map (fun _ => server) = []
      · simp [hrest]
      · simp [hrest, List.append_assoc]
    · have hne : t ≠ p := fun e => hp e.symm
      rw [mapGet_mapSet_ne _ _ _ _ hne]
      simp [hp]

theorem completeAdd_nodup (server : String) :
    ∀ (names : List String) (m : GoMap (List String)), (mapKeys m).Nodup →
      (mapKeys (completeAdd server m names)).Nodup := by
  intro names
  induction names with
  | nil => intro m h; simpa [completeAdd] using h
  | cons p rest ih =>
    intro m h
    simp only [completeAdd]
    exact ih _ (mapKeys_mapSet_nodup _ _ _ h)

theorem completeHosts_step (env : CompleteEnv) (pp : String) (m : GoMap (List String))
    (server : String) (client : SftpConnect) (rest : GoMap SftpConnect) :
    completeHosts env pp m ((server, client) :: rest) =
      completeHosts env pp (completeAdd server m ((completeHost env pp client).getD [])) rest := by
  cases h : completeHost env pp client with
  | none => simp [completeHosts, h, completeAdd]
  | some names => simp [completeHosts, h]

theorem completeHosts_get (env : CompleteEnv) (pp t : String) :
    ∀ (tm : GoMap SftpConnect) (m : GoMap (List String)),
      mapGet (completeHosts env pp m tm) t =
        if tm.flatMap (fun sc =>
            (((completeHost env pp sc.2).getD []).filter (fun n => decide (n = t))).map
              (fun _ => sc.1)) = [] then mapGet m t
        else some ((mapGet m t).getD [] ++
          tm.flatMap (fun sc =>
            (((completeHost env pp sc.2).getD []).filter (fun n => decide (n = t))).map
              (fun _ => sc.1))) := by
  intro tm
  induction tm with
  | nil => intro m; simp [completeHosts]
  | cons sc rest ih =>
    intro m
    obtain ⟨server, client⟩ := sc
    rw [completeHosts_step, ih, completeAdd_get, List.flatMap_cons]
    generalize (((completeHost env pp client).getD []).filter
      (fun n => decide (n = t))).map (fun _ => server) = occA
    generalize rest.flatMap (fun sc =>
      (((completeHost env pp sc.2).getD []).filter (fun n => decide (n = t))).map
        (fun _ => sc.1)) = occB
    cases occA with
    | nil => simp
    | cons a as =>
      cases occB with
      | nil => simp
      | cons b bs => simp [List.append_assoc]

theorem completeHosts_nodup (env : CompleteEnv) (pp : String) :
    ∀ (tm : GoMap SftpConnect) (m : GoMap (List String)), (mapKeys m).Nodup →
      (mapKeys (completeHosts env pp m tm)).Nodup := by
  intro tm
  induction tm with
  | nil => intro m h; simpa [completeHosts] using h
  | cons sc rest ih =>
    intro m h
    obtain ⟨server, client⟩ := sc
    rw [completeHosts_step]
    exact ih _ (completeAdd_nodup _ _ _ h)

theorem mem_completeOcc (env : CompleteEnv) (pp t server : String) (tm : GoMap SftpConnect) :
    server ∈ tm.flatMap (fun sc =>
        (((completeHost env pp sc.2).getD []).filter (fun n => decide (n = t))).map
          (fun _ => sc.1)) ↔
      ∃ client, (server, client) ∈ tm ∧ t ∈ (completeHost env pp client).getD [] := by
  rw [List.mem_flatMap]
  constructor
  · rintro ⟨sc, hsc, hin⟩
    obtain ⟨n, hn, hns⟩ := List.mem_map.1 hin
    have hn2 := List.mem_filter.1 hn
    have hnt : n = t := by simpa using hn2.2
    refine ⟨sc.2, ?_, hnt ▸ hn2.1⟩
    rw [← hns]
    exact hsc
  · rintro ⟨client, hmem, ht⟩
    refine ⟨(server, client), hmem, ?_⟩
    apply List.mem_map.2
    exact ⟨t, List.mem_filter.2 ⟨ht, by simp⟩, rfl⟩

theorem completeTargets_get (ps : List String) :
    ∀ (Client tm : GoMap SftpConnect) (h : String), (mapKeys Client).Nodup →
      mapGet (completeTargets ps tm Client) h =
        match mapGet Client h with
        | some c => if h ∈ ps then some c else mapGet tm h
        | none => mapGet tm h := by
  intro Client
  induction Client with
  | nil => intro tm h _; simp [completeTargets, mapGet]
  | cons sc rest ih =>
    intro tm h hnd
    obtain ⟨k, c⟩ := sc
    simp only [mapKeys, List.map_cons, List.nodup_cons] at hnd
    have hnd2 : (mapKeys rest).Nodup := hnd.2
    by_cases hk : k = h
    · subst hk
      have hnone : mapGet rest k = none := (mapGet_eq_none_iff rest k).2 hnd.1
      by_cases hc : Contains ps k = true
      · have hin : k ∈ ps := (Contains_iff _ _).1 hc
        simp [completeTargets, hc, ih _ k hnd2, hnone, mapGet, mapGet_mapSet_self, hin]
      · have hin : k ∉ ps := fun hin => hc ((Contains_iff _ _).2 hin)
        simp [completeTargets, hc, ih _ k hnd2, hnone, mapGet, hin]
    · have hne : h ≠ k := fun e => hk e.symm
      by_cases hc : Contains ps k = true
      · simp [completeTargets, hc, ih _ h hnd2, mapGet, hk, mapGet_mapSet_ne _ _ _ _ hne]
      · simp [completeTargets, hc, ih _ h hnd2, mapGet, hk]

theorem completeTargets_nodup (ps : List String) :
    ∀ (Client tm : GoMap SftpConnect), (mapKeys tm).Nodup →
      (mapKeys (completeTargets ps tm Client)).Nodup := by
  intro Client
  induction Client with
  | nil => intro tm h; simpa [completeTargets] using h
  | cons sc rest ih =>
    intro tm h
    obtain ⟨k, c⟩ := sc
    by_cases hc : Contains ps k = true
    · simp only [completeTargets, hc, if_true]
      exact ih _ (mapKeys_mapSet_nodup _ _ _ h)
    · simp only [completeTargets, hc, Bool.false_eq_true, if_false]
      exact ih _ h

theorem GetRemoteComplete_path_eq (ParseHostPath : String → List String × String)
    (env : CompleteEnv) (r : RunSftp) (useTargetmap : Bool) (path : String) :
    (GetRemoteComplete ParseHostPath env r false true useTargetmap path).r.RemoteComplete =
      sortSliceStable ((completeHosts env (ParseHostPath path).2 []
        (if useTargetmap then r.TargetClient
          else completeTargets
            (if (ParseHostPath path).1.length = 0 then mapKeys r.Client
              else (ParseHostPath path).1) [] r.Client)).map pathSuggest) := by
  cases useTargetmap <;> simp [GetRemoteComplete]

theorem completeRpath_eq (env : CompleteEnv) (parsedPath dir pwd : String) :
    completeRpath env parsedPath dir pwd =
      if env.filepathIsAbs parsedPath then parsedPath
      else if parsedPath = "~" then dir
      else if parsedPath.data.take 2 = ['~', '/'] then
        env.filepathJoin dir (String.mk (parsedPath.data.drop 2))
      else env.filepathJoin pwd parsedPath := by
  unfold completeRpath
  by_cases h1 : env.filepathIsAbs parsedPath = true
  · simp [h1]
  · by_cases h2 : parsedPath = "~"
    · simp [h1, h2]
    · simp only [h1, h2, if_false, Bool.false_eq_true]
      cases hd : parsedPath.data with
      | nil => simp
      | cons a rest =>
        cases rest with
        | nil =>
          by_cases ha : a = '~'
          · simp [ha]
          · simp [ha]
        | cons b more =>
          by_cases ha : a = '~'
          · by_cases hb : b = '/'
            · subst ha
              subst hb
              simp
            · subst ha
              simp [hb]
          · simp [ha]

theorem completeHost_iff (env : CompleteEnv) (parsedPath : String) (client : SftpConnect)
    (names : List String) :
    completeHost env parsedPath client = some names ↔
      ∃ dir stat globlist, env.Getwd client.Connect = Except.ok dir ∧
        env.Stat client.Connect (completeRpath env parsedPath dir client.Pwd) = Except.ok stat ∧
        env.Glob client.Connect
          (if stat.IsDir then completeRpath env parsedPath dir client.Pwd ++ "/*"
            else completeRpath env parsedPath dir client.Pwd ++ "*") = Except.ok globlist ∧
        names = globlist.map (fun p => escapeBlob (env.filepathBase p)) := by
  unfold completeHost
  cases h1 : env.Getwd client.Connect with
  | error e => simp
  | ok dir =>
    cases h2 : env.Stat client.Connect (completeRpath env parsedPath dir client.Pwd) with
    | error e => simp [h2]
    | ok stat =>
      cases h3 : env.Glob client.Connect
          (if stat.IsDir then completeRpath env parsedPath dir client.Pwd ++ "/*"
            else completeRpath env parsedPath dir client.Pwd ++ "*") with
      | error e => simp [h2, h3]
      | ok globlist =>
        simp only [h2, h3, Option.some.injEq, Except.ok.injEq]
        constructor
        · intro h
          exact ⟨dir, stat, globlist, rfl, h2, h3, h.symm⟩
        · rintro ⟨dir2, stat2, g, hd, hs, hg, hn⟩
          subst hd
          rw [h2] at hs
          cases hs
          rw [h3] at hg
          cases hg
          exact hn.symm

/-- C15: for a path completion the remote suggestions are in strictly
ascending order of their texts, so the texts are pairwise distinct; a text is
suggested exactly when it is a name that some candidate host produced; the
description of a suggestion is `remote path. from:` and the comma-separated
hosts, which are exactly the candidate hosts that produced the text. A host
produces names exactly when its three probes succeed: the working directory,
the stat of the path to probe (the fragment itself when absolute, the working
directory for `~`, the rest joined to it after `~/`, else the fragment joined
to the session directory) and the glob of that path with `/*` after a
directory and `*` otherwise; its names are the base names of the glob results
with a backslash put before each `]`, `[`, blank, `)`, `(` and backslash.
Without a pinned target map the candidate hosts are the pool hosts that the
fragment lists, or all pool hosts when it lists none. -/
theorem GetRemoteComplete_path (ParseHostPath : String → List String × String)
    (env : CompleteEnv) (r : RunSftp) (useTargetmap : Bool) (path : String)
    (cand : GoMap SftpConnect) (hpool : (mapKeys r.Client).Nodup)
    (htc : (mapKeys r.TargetClient).Nodup)
    (hcand : cand =
      if useTargetmap then r.TargetClient
      else completeTargets
        (if (ParseHostPath path).1.length = 0 then mapKeys r.Client
          else (ParseHostPath path).1) [] r.Client) :
    List.Pairwise (fun a b => goStringLt a.Text.data b.Text.data = true)
      (GetRemoteComplete ParseHostPath env r false true useTargetmap path).r.RemoteComplete ∧
    ((GetRemoteComplete ParseHostPath env r false true useTargetmap path).r.RemoteComplete.map
      (fun sg => sg.Text)).Nodup ∧
    (∀ t, (∃ sg ∈
        (GetRemoteComplete ParseHostPath env r false true useTargetmap path).r.RemoteComplete,
          sg.Text = t) ↔
      ∃ server client names, mapGet cand server = some client ∧
        completeHost env (ParseHostPath path).2 client = some names ∧ t ∈ names) ∧
    (∀ sg ∈
      (GetRemoteComplete ParseHostPath env r false true useTargetmap path).r.RemoteComplete,
      ∃ hosts, sg.Description = "remote path. from:" ++ String.intercalate "," hosts ∧
        ∀ server, server ∈ hosts ↔
          ∃ client names, mapGet cand server = some client ∧
            completeHost env (ParseHostPath path).2 client = some names ∧ sg.Text ∈ names) ∧
    (∀ client names, completeHost env (ParseHostPath path).2 client = some names ↔
      ∃ dir stat globlist rpath, env.Getwd client.Connect = Except.ok dir ∧
        rpath =
          (if env.filepathIsAbs (ParseHostPath path).2 then (ParseHostPath path).2
            else if (ParseHostPath path).2 = "~" then dir
            else if (ParseHostPath path).2.data.take 2 = ['~', '/'] then
              env.filepathJoin dir (String.mk ((ParseHostPath path).2.data.drop 2))
            else env.filepathJoin client.Pwd (ParseHostPath path).2) ∧
        env.Stat client.Connect rpath = Except.ok stat ∧
        env.Glob client.Connect (if stat.IsDir then rpath ++ "/*" else rpath ++ "*") =
          Except.ok globlist ∧
        names = globlist.map (fun p =>
          String.mk ((env.filepathBase p).data.flatMap (fun ch =>
            if ch = ']' ∨ ch = '[' ∨ ch = ' ' ∨ ch = ')' ∨ ch = '(' ∨ ch = '\\' then ['\\', ch]
            else [ch])))) ∧
    (useTargetmap = false → ∀ server,
      mapGet cand server =
        if (ParseHostPath path).1 = [] ∨ server ∈ (ParseHostPath path).1 then
          mapGet r.Client server
        else none) := by
  have hcnd : (mapKeys cand).Nodup := by
    rw [hcand]
    cases useTargetmap with
    | true => simpa using htc
    | false =>
      simp only [Bool.false_eq_true, if_false]
      exact completeTargets_nodup _ _ _ (by simp [mapKeys])
  have hres : (GetRemoteComplete ParseHostPath env r false true useTargetmap
      path).r.RemoteComplete =
      sortSliceStable ((completeHosts env (ParseHostPath path).2 [] cand).map pathSuggest) := by
    rw [GetRemoteComplete_path_eq, hcand]
  have hmnd : (mapKeys (completeHosts env (ParseHostPath path).2 [] cand)).Nodup :=
    completeHosts_nodup _ _ _ _ (by simp [mapKeys])
  have htexts : ((completeHosts env (ParseHostPath path).2 [] cand).map pathSuggest).map
      (fun sg => sg.Text) = mapKeys (completeHosts env (ParseHostPath path).2 [] cand) := by
    simp [mapKeys, pathSuggest, List.map_map, Function.comp_def]
  have hprod : ∀ t server, server ∈ cand.flatMap (fun sc =>
        (((completeHost env (ParseHostPath path).2 sc.2).getD []).filter
          (fun n => decide (n = t))).map (fun _ => sc.1)) ↔
      ∃ client names, mapGet cand server = some client ∧
        completeHost env (ParseHostPath path).2 client = some names ∧ t ∈ names := by
    intro t server
    rw [mem_completeOcc]
    constructor
    · rintro ⟨client, hmem, ht⟩
      cases hch : completeHost env (ParseHostPath path).2 client with
      | none => rw [hch] at ht; simp at ht
      | some names =>
        rw [hch] at ht
        exact ⟨client, names, mapGet_of_mem cand server client hcnd hmem, hch, ht⟩
    · rintro ⟨client, names, hg, hch, ht⟩
      refine ⟨client, mem_of_mapGet cand server client hg, ?_⟩
      rw [hch]
      exact ht
  have hmem : ∀ sg, sg ∈ (GetRemoteComplete ParseHostPath env r false true useTargetmap
      path).r.RemoteComplete ↔
      ∃ t hosts, mapGet (completeHosts env (ParseHostPath path).2 [] cand) t = some hosts ∧
        sg = pathSuggest (t, hosts) := by
    intro sg
    rw [hres, (sortSliceStable_perm _).mem_iff, List.mem_map]
    constructor
    · rintro ⟨⟨t, hosts⟩, hin, heq⟩
      exact ⟨t, hosts, mapGet_of_mem _ t hosts hmnd hin, heq.symm⟩
    · rintro ⟨t, hosts, hg, heq⟩
      exact ⟨(t, hosts), mem_of_mapGet _ t hosts hg, heq.symm⟩
  have hgetm : ∀ t hosts,
      mapGet (completeHosts env (ParseHostPath path).2 [] cand) t = some hosts ↔
        (hosts ≠ [] ∧ hosts = cand.flatMap (fun sc =>
          (((completeHost env (ParseHostPath path).2 sc.2).getD []).filter
            (fun n => decide (n = t))).map (fun _ => sc.1))) := by
    intro t hosts
    rw [completeHosts_get]
    generalize cand.flatMap (fun sc =>
      (((completeHost env (ParseHostPath path).2 sc.2).getD []).filter
        (fun n => decide (n = t))).map (fun _ => sc.1)) = occ
    cases occ with
    | nil =>
      simp only [if_true, mapGet]
      constructor
      · intro h; cases h
      · rintro ⟨h1, h2⟩; exact absurd h2 h1
    | cons a as =>
      have hne : ¬ (a :: as = []) := List.cons_ne_nil _ _
      simp only [hne, if_false, mapGet, Option.getD_none, List.nil_append, Option.some.injEq]
      constructor
      · intro h; rw [← h]; simp
      · rintro ⟨_, h2⟩; rw [h2]
  refine ⟨?_, ?_, ?_, ?_, ?_, ?_⟩
  · rw [hres]
    apply sortSliceStable_strict
    rw [htexts]
    exact hmnd
  · rw [hres]
    have hp := ((sortSliceStable_perm
      ((completeHosts env (ParseHostPath path).2 [] cand).map pathSuggest)).map
        (fun sg => sg.Text)).nodup_iff
    rw [hp, htexts]
    exact hmnd
  · intro t
    constructor
    · rintro ⟨sg, hsg, htext⟩
      obtain ⟨t2, hosts, hg, heq⟩ := (hmem sg).1 hsg
      have ht2 : t2 = t := by rw [← htext, heq]; rfl
      subst ht2
      obtain ⟨hne, hocc⟩ := (hgetm t2 hosts).1 hg
      obtain ⟨server, hserver⟩ := List.exists_mem_of_ne_nil _ hne
      rw [hocc] at hserver
      obtain ⟨client, names, h1, h2, h3⟩ := (hprod t2 server).1 hserver
      exact ⟨server, client, names, h1, h2, h3⟩
    · rintro ⟨server, client, names, h1, h2, h3⟩
      have hserver := (hprod t server).2 ⟨client, names, h1, h2, h3⟩
      refine ⟨pathSuggest (t, _), (hmem _).2 ⟨t, _, (hgetm t _).2 ⟨?_, rfl⟩, rfl⟩, rfl⟩
      exact List.ne_nil_of_mem hserver
  · intro sg hsg
    obtain ⟨t, hosts, hg, heq⟩ := (hmem sg).1 hsg
    obtain ⟨_, hocc⟩ := (hgetm t hosts).1 hg
    refine ⟨hosts, by rw [heq]; rfl, ?_⟩
    intro server
    have htext : sg.Text = t := by rw [heq]; rfl
    rw [htext, hocc]
    exact hprod t server
  · intro client names
    rw [completeHost_iff]
    constructor
    · rintro ⟨dir, stat, globlist, h1, h2, h3, h4⟩
      exact ⟨dir, stat, globlist, completeRpath env (ParseHostPath path).2 dir client.Pwd, h1,
        completeRpath_eq env _ dir client.Pwd, h2, h3, h4⟩
    · rintro ⟨dir, stat, globlist, rpath, h1, hr, h2, h3, h4⟩
      rw [← completeRpath_eq] at hr
      subst hr
      exact ⟨dir, stat, globlist, h1, h2, h3, h4⟩
  · intro hfalse server
    rw [hcand, hfalse]
    simp only [Bool.false_eq_true, if_false]
    rw [completeTargets_get _ _ _ _ hpool]
    cases hg : mapGet r.Client server with
    | none => simp [mapGet]
    | some c =>
      have hkey : server ∈ mapKeys r.Client := (mem_mapKeys_iff _ _).2 ⟨c, hg⟩
      by_cases hl : (ParseHostPath path).1 = []
      · simp [hl, hkey, mapGet]
      · have hlen : ¬ (ParseHostPath path).1.length = 0 := by
          simpa [List.length_eq_zero] using hl
        simp [hl, hlen, mapGet]

/-- C15, in the example world: `h1` yields `foo` and `bar`, `h2` yields `bar`
and `baz`, `h3` does not answer; the suggestions are `bar` from both hosts,
`baz` and `foo`. In the world of `~/docs`, `h1` yields `a b(1)` and `[x]\y`
below the working directory and `h2` yields `a b(1)`; the suggestions are the
escaped `\[x\]\\y` from `h1` and `a\ b\(1\)` from both hosts. -/
theorem GetRemoteComplete_path_witness :
    (mapKeys exampleRun.Client).Nodup ∧ (mapKeys exampleRun.TargetClient).Nodup ∧
    (GetRemoteComplete (parseAs [] "/srv") exampleCompleteEnv exampleRun false true false
        "/srv").r.RemoteComplete =
      [{ Text := "bar", Description := "remote path. from:h1,h2" },
       { Text := "baz", Description := "remote path. from:h2" },
       { Text := "foo", Description := "remote path. from:h1" }] ∧
    (GetRemoteComplete (parseAs ["h1", "h2"] "~/docs") exampleCompleteEscape exampleRun false true
        false "h1,h2:~/docs").r.RemoteComplete =
      [{ Text := "\\[x\\]\\\\y", Description := "remote path. from:h1" },
       { Text := "a\\ b\\(1\\)", Description := "remote path. from:h1,h2" }] ∧
    (GetRemoteComplete (parseAs [] "docs") exampleCompleteEscape exampleRun false true
        false "docs").r.RemoteComplete = [] ∧
    completeHost exampleCompleteEscape "~/docs" (exampleSession 1 "./") =
      some ["a\\ b\\(1\\)", "\\[x\\]\\\\y"] ∧
    mapGet (completeTargets ["h1", "h2"] [] exampleRun.Client) "h3" = none ∧
    List.Pairwise (fun a b => goStringLt a.Text.data b.Text.data = true)
      (GetRemoteComplete (parseAs [] "/srv") exampleCompleteEnv exampleRun false true false
        "/srv").r.RemoteComplete ∧
    List.Pairwise (fun a b => goStringLt a.Text.data b.Text.data = true)
      (GetRemoteComplete (parseAs ["h1", "h2"] "~/docs") exampleCompleteEscape exampleRun false
        true false "h1,h2:~/docs").r.RemoteComplete :=
  ⟨by decide, by decide, by decide, by decide, by decide, by decide, by decide,
    (GetRemoteComplete_path (parseAs [] "/srv") exampleCompleteEnv exampleRun false "/srv"
      (completeTargets (mapKeys exampleRun.Client) [] exampleRun.Client)
      (by decide) (by decide) rfl).1,
    (GetRemoteComplete_path (parseAs ["h1", "h2"] "~/docs") exampleCompleteEscape exampleRun false
      "h1,h2:~/docs" (completeTargets ["h1", "h2"] [] exampleRun.Client)
      (by decide) (by decide) rfl).1⟩

/-! ## Lemmas on the permission modes -/

set_option maxRecDepth 1000000 in
theorem modeTexts_eq (r : RunSftp) :
    (CreateModeComplete r).map (fun sg => sg.Text) =
      (List.range 512).map (fun i =>
        String.mk [Nat.digitChar (i / 64), Nat.digitChar (i / 8 % 8), Nat.digitChar (i % 8)]) := by
  unfold CreateModeComplete
  decide

theorem digitChar_inj8 : ∀ a < 8, ∀ b < 8, Nat.digitChar a = Nat.digitChar b → a = b := by
  decide

theorem digitChar_range8 : ∀ a < 8, '0' ≤ Nat.digitChar a ∧ Nat.digitChar a ≤ '7' := by
  decide

/-- C16: with the generator as the spec describes it, `CreateModeComplete`
returns 512 suggestions; their texts are, in this order, the three octal
digits of 0, 1, ..., 511, so they are pairwise distinct and each is three
characters from `0` to `7`; the result does not depend on the receiver, so
every call returns the same list in the same order. -/
theorem CreateModeComplete_modes (r : RunSftp) :
    (DupPermutationsRecursive0 8 3).length = 512 ∧
    (CreateModeComplete r).length = 512 ∧
    (CreateModeComplete r).map (fun sg => sg.Text) =
      (List.range 512).map (fun i =>
        String.mk [Nat.digitChar (i / 64), Nat.digitChar (i / 8 % 8), Nat.digitChar (i % 8)]) ∧
    ((CreateModeComplete r).map (fun sg => sg.Text)).Nodup ∧
    (∀ sg ∈ CreateModeComplete r,
      sg.Text.length = 3 ∧ ∀ ch ∈ sg.Text.data, '0' ≤ ch ∧ ch ≤ '7') ∧
    (∀ r2 : RunSftp, CreateModeComplete r2 = CreateModeComplete r) := by
  have hlen : (CreateModeComplete r).length = 512 := by
    have h := congrArg List.length (modeTexts_eq r)
    simpa using h
  refine ⟨?_, hlen, modeTexts_eq r, ?_, ?_, fun _ => rfl⟩
  · have h : (CreateModeComplete r).length = (DupPermutationsRecursive0 8 3).length := by
      simp [CreateModeComplete]
    rw [← h, hlen]
  · rw [modeTexts_eq]
    apply List.Nodup.map_on _ (List.nodup_range 512)
    intro i hi j hj heq
    have hi2 : i < 512 := List.mem_range.1 hi
    have hj2 : j < 512 := List.mem_range.1 hj
    have heq := congrArg String.data heq
    simp only [List.cons.injEq, and_true] at heq
    have h1 := digitChar_inj8 (i / 64) (by omega) (j / 64) (by omega) heq.1
    have h2 := digitChar_inj8 (i / 8 % 8) (by omega) (j / 8 % 8) (by omega) heq.2.1
    have h3 := digitChar_inj8 (i % 8) (by omega) (j % 8) (by omega) heq.2.2
    omega
  · intro sg hsg
    have hmem : sg.Text ∈ (CreateModeComplete r).map (fun sg => sg.Text) :=
      List.mem_map.2 ⟨sg, hsg, rfl⟩
    rw [modeTexts_eq] at hmem
    obtain ⟨i, hi, hti⟩ := List.mem_map.1 hmem
    have hi2 : i < 512 := List.mem_range.1 hi
    rw [← hti]
    refine ⟨rfl, ?_⟩
    intro ch hch
    simp only [List.mem_cons, List.mem_singleton, List.not_mem_nil, or_false] at hch
    rcases hch with h | h | h
    · rw [h]; exact digitChar_range8 _ (by omega)
    · rw [h]; exact digitChar_range8 _ (by omega)
    · rw [h]; exact digitChar_range8 _ (by omega)

/-! ## Lemmas on the host picker -/

theorem toggleLoop_eq (newLine : String) :
    ∀ (sel : List String) (acc : List String × Bool),
      toggleLoop newLine acc sel =
        (acc.1 ++ sel.filter (fun s => decide (s ≠ newLine)),
          if newLine ∈ sel then false else acc.2) := by
  intro sel
  induction sel with
  | nil => intro acc; simp [toggleLoop]
  | cons s rest ih =>
    intro acc
    by_cases hs : s = newLine
    · subst hs
      simp only [toggleLoop, ne_eq, not_true_eq_false, if_false, ih]
      simp
    · have hs2 : ¬ newLine = s := fun e => hs e.symm
      simp only [toggleLoop, ne_eq, hs, not_false_eq_true, if_true, ih]
      simp [hs, hs2]

theorem toggle_SelectName (l : ListInfo) (x : String) :
    (toggle l x).SelectName =
      if x ∈ l.SelectName then l.SelectName.filter (fun s => decide (s ≠ x))
      else l.SelectName.filter (fun s => decide (s ≠ x)) ++ [x] := by
  simp only [toggle, toggleLoop_eq]
  by_cases hx : x ∈ l.SelectName
  · simp [hx]
  · simp [hx]

/-- C18: after `toggle` the label is selected exactly when it was not selected
before; every other label is selected exactly when it was, and the other
labels stand in the order they had; after two calls with the same label the
selected labels are the same set as at the start. -/
theorem toggle_selection (l : ListInfo) (x : String) :
    (x ∈ (toggle l x).SelectName ↔ x ∉ l.SelectName) ∧
    (∀ y, y ≠ x → (y ∈ (toggle l x).SelectName ↔ y ∈ l.SelectName)) ∧
    (toggle l x).SelectName.filter (fun s => decide (s ≠ x)) =
      l.SelectName.filter (fun s => decide (s ≠ x)) ∧
    (∀ y, y ∈ (toggle (toggle l x) x).SelectName ↔ y ∈ l.SelectName) := by
  have hone : ∀ (l : ListInfo),
      (x ∈ (toggle l x).SelectName ↔ x ∉ l.SelectName) ∧
      (∀ y, y ≠ x → (y ∈ (toggle l x).SelectName ↔ y ∈ l.SelectName)) := by
    intro l
    rw [toggle_SelectName]
    by_cases hx : x ∈ l.SelectName
    · simp only [hx, if_true, List.mem_filter, ne_eq, decide_not, Bool.not_eq_true',
        decide_eq_false_iff_not, not_true_eq_false, and_false, false_iff,
        not_not, true_and]
      intro y hy
      simp [hy]
    · simp only [hx, if_false, List.mem_append, List.mem_filter, ne_eq, decide_not,
        Bool.not_eq_true', decide_eq_false_iff_not, not_true_eq_false, and_false,
        List.mem_singleton, or_true, not_false_eq_true, true_and]
      intro y hy
      simp [hy]
  refine ⟨(hone l).1, (hone l).2, ?_, ?_⟩
  · rw [toggle_SelectName]
    by_cases hx : x ∈ l.SelectName
    · simp [hx, List.filter_filter]
    · simp [hx, List.filter_append, List.filter_filter]
  · intro y
    by_cases hy : y = x
    · subst hy
      rw [(hone (toggle l y)).1, (hone l).1]
      simp
    · rw [(hone (toggle l x)).2 y hy, (hone l).2 y hy]

theorem regexpSpecial_backslash : regexpSpecial '\\' = true := by decide

theorem regexpLiteral_quote :
    ∀ (cs : List Char),
      regexpLiteral (cs.flatMap (fun ch => if regexpSpecial ch then ['\\', ch] else [ch])) =
        some cs := by
  intro cs
  induction cs with
  | nil => simp [regexpLiteral]
  | cons ch rest ih =>
    rw [List.flatMap_cons]
    cases hsp : regexpSpecial ch with
    | true =>
      simp only [if_true, List.cons_append, List.nil_append]
      rw [regexpLiteral]
      simp [hsp, ih]
    | false =>
      have hne : ch ≠ '\\' := by
        intro e
        rw [e, regexpSpecial_backslash] at hsp
        cases hsp
      simp only [Bool.false_eq_true, if_false, List.cons_append, List.nil_append]
      cases hrest : rest.flatMap (fun ch => if regexpSpecial ch then ['\\', ch] else [ch]) with
      | nil =>
        rw [hrest] at ih
        have hnil : rest = [] := by
          simp only [regexpLiteral, Option.some.injEq] at ih
          exact ih.symm
        simp [regexpLiteral, hsp, hnil]
      | cons next more =>
        rw [hrest] at ih
        rw [regexpLiteral]
        simp [hne, hsp, ih]

theorem matchLiteral_iff (lit : List Char) :
    ∀ (s : List Char), matchLiteral lit s = true ↔ lit <:+: s := by
  intro s
  induction s with
  | nil =>
    simp only [matchLiteral, List.isEmpty_iff, List.infix_nil]
  | cons ch rest ih =>
    simp only [matchLiteral, Bool.or_eq_true, ih, List.infix_cons_iff,
      List.isPrefixOf_iff_prefix]

theorem filterLoop_eq (ToLower : String → String) (lit : List Char) :
    ∀ (rows : List String) (tmpText : List ListItem),
      filterLoop ToLower lit tmpText rows =
        tmpText ++ (rows.filter (fun line => decide (lit <:+: (ToLower line).data))).map
          (fun line => { Text := line }) := by
  intro rows
  induction rows with
  | nil => intro tmpText; simp [filterLoop]
  | cons line rest ih =>
    intro tmpText
    by_cases hm : lit <:+: (ToLower line).data
    · have hb : matchLiteral lit (ToLower line).data = true := (matchLiteral_iff lit _).2 hm
      simp [filterLoop, hb, hm, ih]
    · have hb : ¬ matchLiteral lit (ToLower line).data = true :=
        fun h => hm ((matchLiteral_iff lit _).1 h)
      simp [filterLoop, hb, hm, ih]

theorem utf8ByteSize_eq_zero_iff (s : String) : s.utf8ByteSize = 0 ↔ s = "" := by
  constructor
  · intro h
    have hlen : s.length ≤ 0 := by
      have := length_le_utf8ByteSize s
      omega
    cases s with
    | mk cs =>
      have hcs : cs = [] := List.length_eq_zero.1 (Nat.le_zero.1 hlen)
      rw [hcs]
  · intro h
    rw [h]
    rfl

/-- C17: for a state whose row list is a header row and further rows,
`updateFilterText` with the empty keyword sets the view to all rows, and with
a non-empty keyword to the header row followed by the further rows, in their
order, whose lower-cased text contains the lower-cased keyword as a substring;
the pattern compiled from the quoted keyword is the literal keyword, so its
special characters are matched as they are. -/
theorem updateFilterText_view (ToLower : String → String) (l : ListInfo) (header : String)
    (rows : List String) (hdata : l.DataText = header :: rows) :
    (l.Keyword = "" →
      updateFilterText ToLower l =
        some { l with ViewText := (header :: rows).map (fun text => { Text := text }) }) ∧
    (l.Keyword ≠ "" →
      updateFilterText ToLower l =
        some { l with
          ViewText := { Text := header } ::
            (rows.filter (fun line =>
              decide ((ToLower l.Keyword).data <:+: (ToLower line).data))).map
              (fun line => { Text := line }) }) ∧
    regexpLiteral (QuoteMeta (ToLower l.Keyword)).data = some (ToLower l.Keyword).data := by
  have hq : regexpLiteral (QuoteMeta (ToLower l.Keyword)).data =
      some (ToLower l.Keyword).data := by
    simp only [QuoteMeta]
    exact regexpLiteral_quote _
  refine ⟨?_, ?_, hq⟩
  · intro hk
    have h0 : l.Keyword.utf8ByteSize = 0 := (utf8ByteSize_eq_zero_iff _).2 hk
    simp [updateFilterText, hdata, h0]
  · intro hk
    have h0 : ¬ l.Keyword.utf8ByteSize = 0 := fun h => hk ((utf8ByteSize_eq_zero_iff _).1 h)
    simp only [updateFilterText, hdata, h0, if_false, hq, filterLoop_eq]
    simp

/-- C17, at the rows `web.a (x)`, `db[1]` and `WEB2` under a header: the
keyword `[1` selects the row `db[1]`. -/
theorem updateFilterText_view_witness :
    ({ NameList := [], SelectName := [],
       DataText := ["ServerName", "web.a (x)", "db[1]", "WEB2"], ViewText := [],
       MultiFlag := true, Keyword := "[1" } : ListInfo).DataText =
      "ServerName" :: ["web.a (x)", "db[1]", "WEB2"] ∧
    (updateFilterText (fun s => String.mk (s.data.map Char.toLower))
        { NameList := [], SelectName := [],
          DataText := ["ServerName", "web.a (x)", "db[1]", "WEB2"], ViewText := [],
          MultiFlag := true, Keyword := "[1" }).map (fun v => v.ViewText) =
      some [{ Text := "ServerName" }, { Text := "db[1]" }] ∧
    regexpLiteral (QuoteMeta ((fun s => String.mk (s.data.map Char.toLower)) "[1")).data =
      some ((fun s => String.mk (s.data.map Char.toLower)) "[1").data :=
  ⟨rfl, by decide,
    (updateFilterText_view (fun s => String.mk (s.data.map Char.toLower))
      { NameList := [], SelectName := [],
        DataText := ["ServerName", "web.a (x)", "db[1]", "WEB2"], ViewText := [],
        MultiFlag := true, Keyword := "[1" } "ServerName" ["web.a (x)", "db[1]", "WEB2"]
      rfl).2.2⟩

/-! ## Lemmas on `cd` -/

theorem mapKeys_mapSet_of_get {V : Type} (m : GoMap V) (k : String) (v c : V)
    (hg : mapGet m k = some c) : mapKeys (mapSet m k v) = mapKeys m := by
  induction m with
  | nil => simp [mapGet] at hg
  | cons kv t ih =>
    obtain ⟨k2, v2⟩ := kv
    by_cases hk : k2 = k
    · subst hk
      simp [mapSet, mapKeys]
    · simp only [mapGet, hk, if_false] at hg
      have ih2 := ih hg
      simp only [mapKeys] at ih2
      simp [mapSet, mapKeys, hk, ih2]

theorem createTargetMap_empty_entry (ParseHostPath : String → List String × String)
    (Client : GoMap SftpConnect) (arg : String) (hpool : (mapKeys Client).Nodup)
    (h : String) (client : TargetConnectMap)
    (hmem : (h, client) ∈ (createTargetMap ParseHostPath Client [] arg).1) :
    ∃ c, mapGet Client h = some c ∧
      client = { toSftpConnect := c, Path := [(ParseHostPath arg).2] } := by
  have hnd := createTargetMap_nodup ParseHostPath Client [] arg (by simp [mapKeys])
  have hg := mapGet_of_mem _ h client hnd hmem
  rw [createTargetMap_get ParseHostPath Client [] arg hpool h] at hg
  cases hc : mapGet Client h with
  | none => simp [hc, mapGet] at hg
  | some c =>
    simp only [hc, mapGet] at hg
    by_cases hcond : (ParseHostPath arg).1 = [] ∨ h ∈ (ParseHostPath arg).1
    · simp only [hcond, if_true, Option.some.injEq, resolvedEntry] at hg
      exact ⟨c, rfl, hg.symm⟩
    · simp [hcond] at hg

theorem cdLoop_spec (sftp : Nat → SftpClient)
    (ExpandRemotePath : TargetConnectMap → String → Except String (List String)) :
    ∀ (tm : GoMap TargetConnectMap) (st : GoMap SftpConnect × List (String × String)),
      (mapKeys tm).Nodup → (∀ sc ∈ tm, sc.2.Path ≠ []) → (∀ sc ∈ tm, sc.1 ∈ mapKeys st.1) →
      ∃ st2, cdLoop sftp ExpandRemotePath st tm = some st2 ∧ mapKeys st2.1 = mapKeys st.1 ∧
        ∀ h, mapGet st2.1 h = mapGet st.1 h ∨
          ∃ client c path stat, (h, client) ∈ tm ∧ mapGet st.1 h = some c ∧
            mapGet st2.1 h = some { c with Pwd := path } ∧
            (sftp client.Connect).Lstat path = Except.ok stat ∧ stat.IsDir = true := by
  intro tm
  induction tm with
  | nil =>
    intro st _ _ _
    exact ⟨st, rfl, rfl, fun h => Or.inl rfl⟩
  | cons sc rest ih =>
    intro st hnd hpath hkeys
    obtain ⟨server, client⟩ := sc
    simp only [mapKeys, List.map_cons, List.nodup_cons] at hnd
    have hnd2 : (mapKeys rest).Nodup := hnd.2
    have hpath2 : ∀ sc ∈ rest, sc.2.Path ≠ [] := fun sc h => hpath sc (List.mem_cons_of_mem _ h)
    have hkeys2 : ∀ sc ∈ rest, sc.1 ∈ mapKeys st.1 :=
      fun sc h => hkeys sc (List.mem_cons_of_mem _ h)
    have hstay : ∀ (out : List (String × String)),
        ∃ st2, cdLoop sftp ExpandRemotePath (st.1, out) rest = some st2 ∧
          mapKeys st2.1 = mapKeys st.1 ∧
          ∀ h, mapGet st2.1 h = mapGet st.1 h ∨
            ∃ client2 c path stat, (h, client2) ∈ (server, client) :: rest ∧
              mapGet st.1 h = some c ∧ mapGet st2.1 h = some { c with Pwd := path } ∧
              (sftp client2.Connect).Lstat path = Except.ok stat ∧ stat.IsDir = true := by
      intro out
      obtain ⟨st2, h1, h2, h3⟩ := ih (st.1, out) hnd2 hpath2 hkeys2
      refine ⟨st2, h1, h2, ?_⟩
      intro h
      rcases h3 h with heq | ⟨cl, c, path, stat, hm, hg, hg2, hl, hd⟩
      · exact Or.inl heq
      · exact Or.inr ⟨cl, c, path, stat, List.mem_cons_of_mem _ hm, hg, hg2, hl, hd⟩
    cases hp : client.Path with
    | nil => exact absurd hp (hpath (server, client) (List.mem_cons_self _ _))
    | cons path0 morePaths =>
      cases hex : ExpandRemotePath client path0 with
      | error err =>
        exact ⟨(st.1, st.2 ++ [(server, "Error: is not expand path.\n")]),
              by simp [cdLoop, hp, hex], rfl, fun h => Or.inl rfl⟩
      | ok pathList =>
        cases pathList with
        | nil => exact ⟨(st.1, st.2 ++ [(server, "Error: is not expand path.\n")]),
              by simp [cdLoop, hp, hex], rfl, fun h => Or.inl rfl⟩
        | cons found tail =>
          cases tail with
          | cons second others =>
            exact ⟨(st.1, st.2 ++ [(server, "Error: is not expand path.\n")]),
              by simp [cdLoop, hp, hex], rfl, fun h => Or.inl rfl⟩
          | nil =>
            cases hl : (sftp client.Connect).Lstat
                (match (sftp client.Connect).ReadLink found with
                  | Except.ok p => p
                  | Except.error _ => found) with
            | error err =>
              obtain ⟨st2, h1, h2, h3⟩ := hstay (st.2 ++ [(server, "Error: " ++ err ++ "\n")])
              exact ⟨st2, by simp [cdLoop, hp, hex, hl, h1], h2, h3⟩
            | ok stat =>
              cases hd : stat.IsDir with
              | false =>
                obtain ⟨st2, h1, h2, h3⟩ :=
                  hstay (st.2 ++ [(server, "Error: is not directory\n")])
                exact ⟨st2, by simp [cdLoop, hp, hex, hl, hd, h1], h2, h3⟩
              | true =>
                have hkey : server ∈ mapKeys st.1 := hkeys (server, client) (List.mem_cons_self _ _)
                obtain ⟨c, hc⟩ := (mem_mapKeys_iff st.1 server).1 hkey
                have hk : mapKeys (mapSet st.1 server
                    { c with Pwd := (match (sftp client.Connect).ReadLink found with
                        | Except.ok p => p
                        | Except.error _ => found) }) = mapKeys st.1 :=
                  mapKeys_mapSet_of_get _ _ _ c hc
                have hkeys3 : ∀ sc ∈ rest, sc.1 ∈ mapKeys
                    (mapSet st.1 server
                      { c with Pwd := (match (sftp client.Connect).ReadLink found with
                          | Except.ok p => p
                          | Except.error _ => found) }, st.2).1 := by
                  intro sc hsc
                  show sc.1 ∈ mapKeys (mapSet st.1 server _)
                  rw [hk]
                  exact hkeys2 sc hsc
                obtain ⟨st2, h1, h2, h3⟩ := ih
                  (mapSet st.1 server
                    { c with Pwd := (match (sftp client.Connect).ReadLink found with
                        | Except.ok p => p
                        | Except.error _ => found) }, st.2) hnd2 hpath2 hkeys3
                refine ⟨st2, by simp [cdLoop, hp, hex, hl, hd, hc, h1], ?_, ?_⟩
                · rw [h2]; exact hk
                · intro h
                  by_cases hh : h = server
                  · subst hh
                    right
                    rcases h3 h with heq | ⟨cl, c2, path, stat2, hm, _, _, _, _⟩
                    · refine ⟨client, c, _, stat, List.mem_cons_self _ _, hc, ?_, hl, hd⟩
                      rw [heq]
                      exact mapGet_mapSet_self _ _ _
                    · exfalso
                      exact hnd.1 (List.mem_map.2 ⟨(h, cl), hm, rfl⟩)
                  · rcases h3 h with heq | ⟨cl, c2, path, stat2, hm, hg, hg2, hl2, hd2⟩
                    · left
                      rw [heq]
                      exact mapGet_mapSet_ne _ _ _ _ hh
                    · right
                      refine ⟨cl, c2, path, stat2, List.mem_cons_of_mem _ hm, ?_, hg2, hl2, hd2⟩
                      rw [← hg]
                      exact (mapGet_mapSet_ne _ _ _ _ hh).symm

/-- C21: a `cd` with a path argument returns; afterwards the registry has the
same hosts; each session is as before, or is as before but for its current
remote directory, which is then a path that `Lstat` of this host's client
reported as a directory; a host that is no key of the resolved target set has
its session unchanged. -/
theorem cd_frame (ParseHostPath : String → List String × String) (sftp : Nat → SftpClient)
    (ExpandRemotePath : TargetConnectMap → String → Except String (List String))
    (r : RunSftp) (cmd arg : String) (more : List String)
    (hpool : (mapKeys r.Client).Nodup) :
    ∃ res, cd ParseHostPath sftp ExpandRemotePath r (cmd :: arg :: more) = some res ∧
      mapKeys res.r.Client = mapKeys r.Client ∧
      (∀ h c, mapGet r.Client h = some c →
        mapGet res.r.Client h = some c ∨
          ∃ path stat, mapGet res.r.Client h = some { c with Pwd := path } ∧
            (sftp c.Connect).Lstat path = Except.ok stat ∧ stat.IsDir = true) ∧
      (∀ h, h ∉ mapKeys (createTargetMap ParseHostPath r.Client [] arg).1 →
        mapGet res.r.Client h = mapGet r.Client h) := by
  have hnd := createTargetMap_nodup ParseHostPath r.Client [] arg (by simp [mapKeys])
  have hentry := createTargetMap_empty_entry ParseHostPath r.Client arg hpool
  have hpath : ∀ sc ∈ (createTargetMap ParseHostPath r.Client [] arg).1, sc.2.Path ≠ [] := by
    intro sc hsc
    obtain ⟨c, _, hcl⟩ := hentry sc.1 sc.2 hsc
    rw [hcl]
    simp
  have hkeys : ∀ sc ∈ (createTargetMap ParseHostPath r.Client [] arg).1,
      sc.1 ∈ mapKeys (r.Client, ([] : List (String × String))).1 := by
    intro sc hsc
    obtain ⟨c, hc, _⟩ := hentry sc.1 sc.2 hsc
    exact (mem_mapKeys_iff _ _).2 ⟨c, hc⟩
  obtain ⟨st2, h1, h2, h3⟩ := cdLoop_spec sftp ExpandRemotePath
    (createTargetMap ParseHostPath r.Client [] arg).1 (r.Client, []) hnd hpath hkeys
  have hlen : ¬ (cmd :: arg :: more).length = 1 := by simp
  refine ⟨{ r := { r with Client := st2.1 }, out := st2.2,
            stderr := (createTargetMap ParseHostPath r.Client [] arg).2 }, ?_, h2, ?_, ?_⟩
  · simp only [cd, hlen, if_false, h1]
  · intro h c hc
    rcases h3 h with heq | ⟨client, c2, path, stat, hm, hg, hg2, hl, hd⟩
    · left
      show mapGet st2.1 h = some c
      rw [heq]
      exact hc
    · right
      have hcc : c2 = c := Option.some.inj (hg.symm.trans hc)
      subst hcc
      obtain ⟨c3, hc3, hcl⟩ := hentry h client hm
      have hc3c : c3 = c2 := Option.some.inj (hc3.symm.trans hc)
      subst hc3c
      refine ⟨path, stat, hg2, ?_, hd⟩
      rw [hcl] at hl
      exact hl
  · intro h hnot
    rcases h3 h with heq | ⟨client, c2, path, stat, hm, _, _, _, _⟩
    · exact heq
    · exfalso
      exact hnot (List.mem_map.2 ⟨(h, client), hm, rfl⟩)

/-- C21, at the pool `{h1, h2, h3}` and the command `cd /data` when the stat
fails on `h1`: the hosts are the same, `h1` keeps its directory and `h2` is in
`/data`. -/
theorem cd_frame_witness :
    (mapKeys exampleRun.Client).Nodup ∧
    (cd (parseAs [] "/data") exampleCdSftpStat (fun _ p => Except.ok [p]) exampleRun
        ["cd", "/data"]).map (fun res => res.r.Client.map (fun sc => (sc.1, sc.2.Pwd))) =
      some [("h1", "./"), ("h2", "/data"), ("h3", "/data")] ∧
    ∃ res, cd (parseAs [] "/data") exampleCdSftpStat (fun _ p => Except.ok [p]) exampleRun
        ("cd" :: "/data" :: []) = some res ∧
      mapKeys res.r.Client = mapKeys exampleRun.Client :=
  ⟨by decide, by decide,
    (cd_frame (parseAs [] "/data") exampleCdSftpStat (fun _ p => Except.ok [p]) exampleRun
      "cd" "/data" [] (by decide)).elim (fun res h => ⟨res, h.1, h.2.1⟩)⟩

/-! ## Lemmas on `allToggle` -/

theorem arrayContains_iff (arr : List String) (str : String) :
    arrayContains arr str = true ↔ str ∈ arr := by
  induction arr with
  | nil => simp [arrayContains]
  | cons v rest ih =>
    by_cases hv : v = str
    · simp [arrayContains, hv]
    · have hv2 : ¬ str = v := fun e => hv e.symm
      simp [arrayContains, hv, hv2, ih]

theorem toggle_mem (l : ListInfo) (x y : String) :
    y ∈ (toggle l x).SelectName ↔ if y = x then x ∉ l.SelectName else y ∈ l.SelectName := by
  rw [toggle_SelectName]
  by_cases hy : y = x
  · subst hy
    by_cases hx : y ∈ l.SelectName
    · simp [hx]
    · simp [hx]
  · by_cases hx : x ∈ l.SelectName
    · simp [hx, hy]
    · simp [hx, hy]

theorem toggle_ViewText (l : ListInfo) (x : String) : (toggle l x).ViewText = l.ViewText := rfl

theorem allToggleUnselected_spec (sel : List String) :
    ∀ (rows : List ListItem) (l : ListInfo),
      (∀ row ∈ rows, stringsFields row.Text ≠ []) →
      ∃ l2, allToggleUnselected sel l rows = some l2 ∧ l2.ViewText = l.ViewText ∧
        ∀ x, x ∈ l2.SelectName ↔
          if x ∉ sel ∧ (rows.map (fun row => (stringsFields row.Text).headD "")).count x % 2 = 1
          then x ∉ l.SelectName else x ∈ l.SelectName := by
  intro rows
  induction rows with
  | nil =>
    intro l _
    exact ⟨l, rfl, rfl, fun x => by simp⟩
  | cons row rest ih =>
    intro l hrows
    have hrest : ∀ row ∈ rest, stringsFields row.Text ≠ [] :=
      fun r hr => hrows r (List.mem_cons_of_mem _ hr)
    cases hf : stringsFields row.Text with
    | nil => exact absurd hf (hrows row (List.mem_cons_self _ _))
    | cons addName more =>
      by_cases hc : arrayContains sel addName = true
      · have hin : addName ∈ sel := (arrayContains_iff _ _).1 hc
        obtain ⟨l2, h1, h2, h3⟩ := ih l hrest
        refine ⟨l2, ?_, h2, ?_⟩
        · simp [allToggleUnselected, hf, hc, h1]
        · intro x
          rw [h3 x]
          by_cases hx : x = addName
          · subst hx
            simp [hin]
          · have hx2 : ¬ addName = x := fun e => hx e.symm
            simp [hf, List.count_cons, hx2]
      · have hin : addName ∉ sel := fun h => hc ((arrayContains_iff _ _).2 h)
        obtain ⟨l2, h1, h2, h3⟩ := ih (toggle l addName) hrest
        refine ⟨l2, ?_, ?_, ?_⟩
        · simp [allToggleUnselected, hf, hc, h1]
        · rw [h2, toggle_ViewText]
        · intro x
          rw [h3 x]
          by_cases hx : x = addName
          · subst hx
            have hcount : (List.map (fun row => (stringsFields row.Text).headD "")
                (row :: rest)).count x =
                (List.map (fun row => (stringsFields row.Text).headD "") rest).count x + 1 := by
              simp [hf, List.count_cons]
            rw [hcount]
            generalize (List.map (fun row => (stringsFields row.Text).headD "")
              rest).count x = n
            simp only [hin, not_false_eq_true, true_and, toggle_mem, if_true]
            by_cases hodd : n % 2 = 1
            · have h2 : ¬ (n + 1) % 2 = 1 := by omega
              simp [hodd, h2]
            · have h2 : (n + 1) % 2 = 1 := by omega
              simp [hodd, h2]
          · have hx2 : ¬ addName = x := fun e => hx e.symm
            have hcount : (List.map (fun row => (stringsFields row.Text).headD "")
                (row :: rest)).count x =
                (List.map (fun row => (stringsFields row.Text).headD "") rest).count x := by
              simp [hf, List.count_cons, hx2]
            rw [hcount]
            simp only [toggle_mem, hx, if_false]

/-- C22 as stated fails: the view shows the rows of `web 1` and `web 2`, whose
name (first field) is `web` for both, and nothing is selected; `allToggle`
toggles `web` twice and `web` is not selected afterwards. -/
theorem allToggle_same_name_twice :
    examplePicker.ViewText.length = 3 ∧
    (stringsFields "web 1       root@10.0.0.1").head? = some "web" ∧
    (stringsFields "web 2       root@10.0.0.2").head? = some "web" ∧
    (allToggle examplePicker false).map (fun l => l.SelectName) = some [] := by
  refine ⟨by decide, by decide, by decide, by decide⟩

/-- C22, amended: for a state whose view is a header row and further rows that
each have a first field, `allToggle(false)` returns; a label is selected
afterwards exactly when it was selected before or it is the name of an odd
number of displayed non-header rows; so when the names of the displayed rows
are pairwise distinct every one of them is selected; every label selected
before is still selected; the view is not changed. -/
theorem allToggle_select_displayed (l : ListInfo) (header : ListItem) (rows : List ListItem)
    (hview : l.ViewText = header :: rows)
    (hrows : ∀ row ∈ rows, stringsFields row.Text ≠ []) :
    ∃ l2, allToggle l false = some l2 ∧
      (∀ x, x ∈ l2.SelectName ↔
        (x ∈ l.SelectName ∨
          (rows.map (fun row => (stringsFields row.Text).headD "")).count x % 2 = 1)) ∧
      ((rows.map (fun row => (stringsFields row.Text).headD "")).Nodup →
        ∀ row ∈ rows, ∀ name, (stringsFields row.Text).head? = some name →
          name ∈ l2.SelectName) ∧
      (∀ x ∈ l.SelectName, x ∈ l2.SelectName) ∧
      l2.ViewText = l.ViewText := by
  obtain ⟨l2, h1, h2, h3⟩ := allToggleUnselected_spec l.SelectName rows l hrows
  have hmem : ∀ x, x ∈ l2.SelectName ↔
      (x ∈ l.SelectName ∨
        (rows.map (fun row => (stringsFields row.Text).headD "")).count x % 2 = 1) := by
    intro x
    rw [h3 x]
    by_cases hx : x ∈ l.SelectName
    · simp [hx]
    · by_cases hodd : (rows.map (fun row => (stringsFields row.Text).headD "")).count x % 2 = 1
      · simp [hx, hodd]
      · simp [hx, hodd]
  refine ⟨l2, ?_, hmem, ?_, ?_, h2⟩
  · simp [allToggle, hview, h1]
  · intro hnd row hrow name hname
    rw [hmem name]
    right
    have hin : name ∈ rows.map (fun row => (stringsFields row.Text).headD "") := by
      apply List.mem_map.2
      refine ⟨row, hrow, ?_⟩
      cases hf : stringsFields row.Text with
      | nil => rw [hf] at hname; cases hname
      | cons a more =>
        rw [hf] at hname
        simp only [List.head?_cons, Option.some.injEq] at hname
        simp [hname]
    rw [List.count_eq_one_of_mem hnd hin]
  · intro x hx
    exact (hmem x).2 (Or.inl hx)

/-- C22, amended, at a view that shows `web` and `db` with `db` and the hidden
`cache` selected: afterwards `db`, `cache` and `web` are selected. -/
theorem allToggle_select_displayed_witness :
    examplePickerDistinct.ViewText =
      { Text := "ServerName  Connect Information  Note" } ::
        [{ Text := "web         root@10.0.0.1" }, { Text := "db          root@10.0.0.2" }] ∧
    (∀ row ∈ ([{ Text := "web         root@10.0.0.1" },
        { Text := "db          root@10.0.0.2" }] : List ListItem),
      stringsFields row.Text ≠ []) ∧
    (allToggle examplePickerDistinct false).map (fun l => l.SelectName) =
      some ["db", "cache", "web"] ∧
    ∃ l2, allToggle examplePickerDistinct false = some l2 ∧
      l2.ViewText = examplePickerDistinct.ViewText :=
  ⟨rfl, by decide, by decide,
    (allToggle_select_displayed examplePickerDistinct
      { Text := "ServerName  Connect Information  Note" }
      [{ Text := "web         root@10.0.0.1" }, { Text := "db          root@10.0.0.2" }]
      rfl (by decide)).elim (fun l2 h => ⟨l2, h.1, h.2.2.2.2⟩)⟩

end Lssh
